import Mathlib

/-! TV tuner watcher: live-channel acquisition and recovery.

A shallow embedding of the session logic of `MainWindow` (src/src/MainWindow.cpp,
src/include/MainWindow.h).  The member variables that the session logic reads or
writes become the fields of the record `MainWindow`; every member function becomes a
function on that record.  The outcomes of the external steps a function performs
(resolving a directory, finding an executable, waiting for a process to start) are
read from an `Env` record.  Qt objects are modelled by the part of their state the
code looks at: a process by its `ProcessState`, the single-shot reconnect timer by
the delay it is armed with, the media player by its source and playing flag.
-/

namespace TvTuner

/-! ## Strings -/

/-- A `QString`, as the list of its characters. -/
abbrev QString := List Char

/-- A string literal as a `QString`. -/
def qs (s : String) : QString := s.toList

/-- The value of `QChar::isSpace`: the ASCII white space characters, NEL, and the
Unicode separator categories Zs, Zl and Zp. -/
def isSpace (c : Char) : Bool :=
  let n := c.toNat
  n = 0x20 || (0x09 ≤ n && n ≤ 0x0d) || n = 0x85 || n = 0xa0 || n = 0x1680 ||
    (0x2000 ≤ n && n ≤ 0x200a) || n = 0x2028 || n = 0x2029 || n = 0x202f ||
    n = 0x205f || n = 0x3000

/-- The value of `QString::trimmed`: white space removed from both ends. -/
def trimmed (s : QString) : QString :=
  (s.dropWhile isSpace).rdropWhile isSpace

/-- The value of `QString::split(sep)` with the default `Qt::KeepEmptyParts`. -/
def split (sep : Char) (s : QString) : List QString :=
  s.splitOn sep

/-- The value of `QString::contains(sub)`. -/
def containsStr (s sub : QString) : Bool :=
  s.tails.any (fun t => sub.isPrefixOf t)

/-- The value of `QString::number(n)`. -/
def number (n : Int) : QString := (toString n).toList

/-- The value of `QDir(dir).filePath(fileName)` for a relative file name. -/
def filePath (dir fileName : QString) : QString :=
  if fileName.isEmpty then dir
  else if dir.isEmpty || dir.getLast? = some '/' then dir ++ fileName
  else dir ++ qs "/" ++ fileName

/-- The value of `QFileInfo(path).fileName()`: what follows the last slash. -/
def fileName (path : QString) : QString :=
  (path.reverse.takeWhile (fun c => c != '/')).reverse

/-- A byte that continues a UTF-8 sequence: `10xxxxxx`. -/
def isContinuationByte (b : Nat) : Bool :=
  0x80 ≤ b && b < 0xC0

/-- The replacement character U+FFFD. -/
def replacementChar : Char := Char.ofNat 0xFFFD

/-- The well-formed UTF-8 sequence that starts at the lead byte `b`, with the bytes
that follow it: the character it encodes and the number of continuation bytes it
takes; nothing if no well-formed sequence starts there (a stray continuation byte, a
sequence cut short or continued by another byte, an overlong form, a surrogate, a
value above U+10FFFF, a byte that is none). -/
def decodeUtf8Char (b : Nat) (rest : List Nat) : Option (Char × Nat) :=
  if b < 0x80 then some (Char.ofNat b, 0)
  else if b < 0xC2 then none
  else if b < 0xE0 then
    match rest with
    | b1 :: _ =>
      if isContinuationByte b1 then some (Char.ofNat ((b - 0xC0) * 64 + (b1 - 0x80)), 1)
      else none
    | [] => none
  else if b < 0xF0 then
    match rest with
    | b1 :: b2 :: _ =>
      let uc := (b - 0xE0) * 4096 + (b1 - 0x80) * 64 + (b2 - 0x80)
      if isContinuationByte b1 && isContinuationByte b2 && 0x800 ≤ uc
          && !(0xD800 ≤ uc && uc < 0xE000) then
        some (Char.ofNat uc, 2)
      else none
    | _ => none
  else if b < 0xF5 then
    match rest with
    | b1 :: b2 :: b3 :: _ =>
      let uc := (b - 0xF0) * 262144 + (b1 - 0x80) * 4096 + (b2 - 0x80) * 64 + (b3 - 0x80)
      if isContinuationByte b1 && isContinuationByte b2 && isContinuationByte b3
          && 0x10000 ≤ uc && uc ≤ 0x10FFFF then
        some (Char.ofNat uc, 3)
      else none
    | _ => none
  else none

/-- The decoding loop: `skip` bytes belong to the character just decoded; then every
byte either starts a well-formed sequence, which gives its character, or gives the
replacement character and the loop goes on with the next byte. -/
def fromUtf8Loop : Nat → List Nat → QString
  | _, [] => []
  | skip + 1, _ :: rest => fromUtf8Loop skip rest
  | 0, b :: rest =>
    match decodeUtf8Char b rest with
    | some (c, taken) => c :: fromUtf8Loop taken rest
    | none => replacementChar :: fromUtf8Loop 0 rest

/-- The value of `QString::fromUtf8(bytes)`, a byte being a number below 256: the
decoding of UTF-8, every byte that starts no well-formed sequence replaced by U+FFFD.
A byte order mark is decoded as the character U+FEFF like any other; what Qt does
with one at the very start of the bytes is not modelled. -/
def fromUtf8 (bytes : List Nat) : QString :=
  fromUtf8Loop 0 bytes

/-- The apostrophe character. -/
def quoteChar : Char := Char.ofNat 39

/-- The first capture of the regular expression `'([^']+/dvr0)'` in `s`, when it
matches: the text between an apostrophe and the next apostrophe, when that text ends
in `/dvr0` and has at least one character before it; the leftmost such text. -/
def matchDvrPath : QString → Option QString
  | [] => none
  | c :: rest =>
    if c = quoteChar then
      let seg := rest.takeWhile (fun d => d != quoteChar)
      if seg.length < rest.length && (qs "/dvr0").isSuffixOf seg && 6 ≤ seg.length then
        some seg
      else matchDvrPath rest
    else matchDvrPath rest

/-! ## Qt value types -/

/-- The states of a `QProcess` (`QProcess::ProcessState`). -/
inductive ProcessState where
  | NotRunning
  | Starting
  | Running
  deriving DecidableEq, Repr

/-- How a process ended (`QProcess::ExitStatus`). -/
inductive ExitStatus where
  | NormalExit
  | CrashExit
  deriving DecidableEq, Repr

/-- The states the player reports (`QMediaPlayer::MediaStatus`). -/
inductive MediaStatus where
  | NoMedia
  | LoadingMedia
  | LoadedMedia
  | StalledMedia
  | BufferingMedia
  | BufferedMedia
  | EndOfMedia
  | InvalidMedia
  deriving DecidableEq, Repr

/-- The integer value of a media status, as `static_cast<int>(status)` gives it. -/
def MediaStatus.toInt : MediaStatus → Int
  | .NoMedia => 0
  | .LoadingMedia => 1
  | .LoadedMedia => 2
  | .StalledMedia => 3
  | .BufferingMedia => 4
  | .BufferedMedia => 5
  | .EndOfMedia => 6
  | .InvalidMedia => 7

/-- What `start` followed by `waitForStarted(2000)` can report: the process runs; it
could not be started; or it has not signalled running within the two seconds. -/
inductive StartOutcome where
  | started
  | failedToStart
  | timedOut
  deriving DecidableEq, Repr

/-- The result of `waitForStarted`. -/
def StartOutcome.ok : StartOutcome → Bool
  | .started => true
  | _ => false

/-- The state a process is in after `start` and `waitForStarted`. -/
def StartOutcome.state : StartOutcome → ProcessState
  | .started => .Running
  | .failedToStart => .NotRunning
  | .timedOut => .Starting

/-- The source of the media player. -/
inductive MediaSource where
  | empty
  | udp (port : Nat)
  | localFile (path : QString)
  deriving DecidableEq, Repr

/-- What the code does to the world outside its member variables, in the order it
does it.  The two `enter` entries mark the calls of the two member functions whose
calls the recovery properties speak of; `dynamicBridgeFallback` marks the point where
`tryDynamicBridgeFallback` has decided to act, and so to return `true`. -/
inductive Effect where
  | enterStartWatchingChannel (channelName : QString) (reconnectAttempt : Bool)
  | enterStartPlaybackFromDvr (dvrPath : QString)
  | dynamicBridgeFallback (reason : QString)
  | appendLog (line : QString)
  | messageBox (title : QString)
  | statusMessage (text : QString)
  | reconnectTimerStart (delayMs : Int)
  | reconnectTimerStop
  | zapStart (program : QString) (args : List QString)
  | bridgeStart (program : QString) (args : List QString)
  | scanStart (program : QString) (args : List QString)
  deriving DecidableEq, Repr

/-- The outcomes of the external steps of one callback. -/
structure Env where
  /-- `QStandardPaths::writableLocation(AppDataLocation)`. -/
  appDataPath : QString
  /-- `dir.exists()` of the application data directory. -/
  dirExists : Bool
  /-- `dir.mkpath(".")`. -/
  mkpathOk : Bool
  /-- Whether the channels file opens for a truncating write. -/
  canWriteChannelsFile : Bool
  /-- Whether the channels file opens for reading, when it exists. -/
  canReadChannelsFile : Bool
  /-- `QStandardPaths::findExecutable("dvbv5-zap")`. -/
  zapExe : QString
  /-- The outcome of starting the lock process. -/
  zapStarted : StartOutcome
  /-- `QStandardPaths::findExecutable("ffmpeg")`. -/
  ffmpegExe : QString
  /-- The outcome of starting the bridge process. -/
  bridgeStarted : StartOutcome
  /-- The outcome of starting the scan process. -/
  scanStarted : StartOutcome
  /-- `QDateTime::currentDateTime().toString(Qt::ISODate)`. -/
  now : QString
  deriving DecidableEq, Repr

/-! ## The window state -/

/-- The member variables of `MainWindow` that the session logic uses, the state of
the Qt objects they point to, the pending single-shot callbacks, the files written,
and the effects so far. -/
structure MainWindow where
  /-- `adapterSpin_->value()`. -/
  adapterSpin_ : Nat
  /-- `frontendSpin_->value()`. -/
  frontendSpin_ : Nat
  /-- The rows of `channelsTable_`: channel, provider, raw line. -/
  channelsTable_ : List (QString × QString × QString)
  /-- `stopWatchButton_->isEnabled()`. -/
  stopWatchButtonEnabled : Bool
  /-- `scanProcess_->state()`. -/
  scanProcess_ : ProcessState
  /-- `zapProcess_->state()`. -/
  zapProcess_ : ProcessState
  /-- `streamBridgeProcess_->state()`. -/
  streamBridgeProcess_ : ProcessState
  /-- The source of `mediaPlayer_`. -/
  playerSource : MediaSource
  /-- Whether `mediaPlayer_` has been told to play and not to stop since. -/
  playerPlaying : Bool
  partialStdOut_ : QString
  partialStdErr_ : QString
  channelsFilePath_ : QString
  channelLines_ : List QString
  favorites_ : List QString
  /-- The hash `xspfProgramByChannel_`, as an association list. -/
  xspfProgramByChannel_ : List (QString × QString)
  currentChannelName_ : QString
  currentProgramId_ : QString
  pendingDvrPath_ : QString
  waitingForDvrReady_ : Bool
  /-- The pointer `dvrStream_`: `none` for `nullptr`, else whether the file is open. -/
  dvrStream_ : Option Bool
  reconnectAttemptCount_ : Int
  userStoppedWatching_ : Bool
  suppressZapExitReconnect_ : Bool
  suppressBridgeExitReconnect_ : Bool
  useResilientBridgeMode_ : Bool
  resilientBridgeTried_ : Bool
  /-- The single-shot `reconnectTimer_`: the delay it is armed with, `none` when it
  is not active. -/
  reconnectTimer_ : Option Int
  /-- The pending 3.5 s single-shot callbacks, each with the path it captured. -/
  dvrReadyShots : List QString
  /-- The pending 450 ms single-shot callbacks, each with the port of its URL. -/
  attachShots : List Nat
  /-- The text files written so far, by path; the first entry of a path counts. -/
  disk : List (QString × QString)
  /-- The effects so far, oldest first. -/
  trace : List Effect
  deriving DecidableEq, Repr

/-- The value of the constant member `maxReconnectAttempts_`. -/
def maxReconnectAttempts_ : Int := 6

/-! ## Effects and small steps -/

/-- Adds an effect at the end of the trace. -/
def record (e : Effect) (w : MainWindow) : MainWindow :=
  { w with trace := w.trace ++ [e] }

/-- `appendLog(line)`. -/
def appendLog (line : QString) (w : MainWindow) : MainWindow :=
  record (.appendLog line) w

/-- `statusBar()->showMessage(text)`. -/
def statusMessage (text : QString) (w : MainWindow) : MainWindow :=
  record (.statusMessage text) w

/-- A `QMessageBox` with the given title. -/
def messageBox (title : QString) (w : MainWindow) : MainWindow :=
  record (.messageBox title) w

/-- `reconnectTimer_->stop()`. -/
def reconnectTimerStop (w : MainWindow) : MainWindow :=
  record .reconnectTimerStop { w with reconnectTimer_ := none }

/-- `reconnectTimer_->start(delayMs)`. -/
def reconnectTimerStart (delayMs : Int) (w : MainWindow) : MainWindow :=
  record (.reconnectTimerStart delayMs) { w with reconnectTimer_ := some delayMs }

/-- `stopProcess(process, timeoutMs)`, on the state of the process: nothing for a
process that is not running, else terminate, wait, kill if needed, wait, close. -/
def stopProcess (p : ProcessState) : ProcessState :=
  if p = .NotRunning then p else .NotRunning

/-- The guarded teardown of the bridge process: the suppress flag is set around
`stopProcess`, so that the exit notification raised inside it finds the flag set. -/
def stopBridgeSuppressed (w : MainWindow) : MainWindow :=
  if w.streamBridgeProcess_ ≠ .NotRunning then
    let w := { w with suppressBridgeExitReconnect_ := true }
    let w := { w with streamBridgeProcess_ := stopProcess w.streamBridgeProcess_ }
    { w with suppressBridgeExitReconnect_ := false }
  else w

/-- The guarded teardown of the lock process, as for the bridge. -/
def stopZapSuppressed (w : MainWindow) : MainWindow :=
  if w.zapProcess_ ≠ .NotRunning then
    let w := { w with suppressZapExitReconnect_ := true }
    let w := { w with zapProcess_ := stopProcess w.zapProcess_ }
    { w with suppressZapExitReconnect_ := false }
  else w

/-- The block `if (dvrStream_ != nullptr) ...`: close, delete, set to `nullptr`. -/
def releaseDvrStream (w : MainWindow) : MainWindow :=
  match w.dvrStream_ with
  | some _ => { w with dvrStream_ := none }
  | none => w

/-- `mediaPlayer_->stop(); mediaPlayer_->setSource(QUrl());`. -/
def playerStopAndClear (w : MainWindow) : MainWindow :=
  let w := { w with playerPlaying := false }
  { w with playerSource := .empty }

/-! ## Channel catalog -/

/-- The value of `QString::toUpper`, exact on every string whose upper case is one of
the two modulation names it is compared with: the ASCII letters and the long s. -/
def toUpper (s : QString) : QString :=
  s.map (fun c => if c.toNat = 0x17f then 'S' else c.toUpper)

/-- `normalizeZapLine(line)`. -/
def normalizeZapLine (line : QString) : QString :=
  let parts := split ':' line
  if parts.length < 3 then line
  else
    let modulation := toUpper (trimmed (parts.getD 2 []))
    let normalizedParts :=
      if modulation = qs "VSB_8" then parts.set 2 (qs "8VSB")
      else if modulation = qs "VSB_16" then parts.set 2 (qs "16VSB")
      else parts
    (qs ":").intercalate normalizedParts

/-- `MainWindow::parseAndStoreLine(line)`. -/
def parseAndStoreLine (line : QString) (w : MainWindow) : MainWindow :=
  if (qs "#").isPrefixOf line || (qs "stderr:").isPrefixOf line then w
  else
    let normalizedLine := normalizeZapLine line
    let parts := split ':' normalizedLine
    if parts.length < 3 then w
    else
      let channelName := trimmed (parts.getD 0 [])
      if channelName.isEmpty then w
      else
        let w :=
          if !w.channelLines_.contains normalizedLine then
            { w with channelLines_ := w.channelLines_ ++ [normalizedLine] }
          else w
        let provider :=
          if parts.length > 10 then
            let p := trimmed (parts.getD 10 [])
            if p.isEmpty then qs "Unknown" else p
          else qs "Unknown"
        { w with channelsTable_ := w.channelsTable_ ++ [(channelName, provider, normalizedLine)] }

/-- The text `persistChannelsFile` writes: every entry followed by a newline. -/
def channelsFileText (channelLines : List QString) : QString :=
  (channelLines.map (fun entry => entry ++ qs "\n")).flatten

/-- `MainWindow::persistChannelsFile()`. -/
def persistChannelsFile (env : Env) (w : MainWindow) : Bool × MainWindow :=
  if w.channelLines_.isEmpty then (false, w)
  else if env.appDataPath.isEmpty then
    (false, appendLog (qs "Could not resolve app data directory for channels list.") w)
  else if !env.dirExists && !env.mkpathOk then
    (false, appendLog (qs "Could not create app data directory: " ++ env.appDataPath) w)
  else
    let w := { w with channelsFilePath_ := filePath env.appDataPath (qs "channels.conf") }
    if !env.canWriteChannelsFile then
      (false, appendLog (qs "Could not write channels file: " ++ w.channelsFilePath_) w)
    else
      let w := { w with disk := (w.channelsFilePath_, channelsFileText w.channelLines_) :: w.disk }
      (true, appendLog (qs "Channels saved: " ++ w.channelsFilePath_) w)

/-- The lines `file.readLine()` returns until `file.atEnd()`: each runs up to and
including its newline, the last one may lack it.  Both callers trim every line they
read, so a carriage return before the newline makes no difference to them. -/
def readLines : QString → List QString
  | [] => []
  | c :: cs =>
    if c = '\n' then [c] :: readLines cs
    else
      match readLines cs with
      | [] => [[c]]
      | l :: ls => (c :: l) :: ls

/-- The lambda `parseProgramFromLine` of `programIdForChannel`. -/
def parseProgramFromLine (channelName line : QString) : QString :=
  let trimmedLine := trimmed line
  if trimmedLine.isEmpty then []
  else
    let parts := split ':' trimmedLine
    if parts.length < 6 then []
    else if trimmed (parts.getD 0 []) ≠ channelName then []
    else trimmed (parts.getD 5 [])

/-- The two loops of `programIdForChannel`: the first non-empty program id. -/
def firstProgramId (channelName : QString) : List QString → QString
  | [] => []
  | line :: rest =>
    let programId := parseProgramFromLine channelName line
    if !programId.isEmpty then programId else firstProgramId channelName rest

/-- `MainWindow::programIdForChannel(channelName)`. -/
def programIdForChannel (env : Env) (w : MainWindow) (channelName : QString) : QString :=
  if channelName.isEmpty then []
  else
    match w.xspfProgramByChannel_.lookup channelName with
    | some programId => programId
    | none =>
      let programId := firstProgramId channelName w.channelLines_
      if !programId.isEmpty then programId
      else
        match w.disk.lookup w.channelsFilePath_ with
        | none => []
        | some text =>
          if !env.canReadChannelsFile then []
          else firstProgramId channelName (readLines text)

/-! ## Recovery coordinator and tuner session -/

/-- `MainWindow::scheduleReconnect(reason)`. -/
def scheduleReconnect (reason : QString) (w : MainWindow) : MainWindow :=
  if w.currentChannelName_.isEmpty || w.userStoppedWatching_ then w
  else if w.reconnectAttemptCount_ ≥ maxReconnectAttempts_ then
    let w := appendLog (qs "Reconnect failed after maximum attempts.") w
    statusMessage (qs "Reconnect failed for " ++ w.currentChannelName_) w
  else
    let w := { w with reconnectAttemptCount_ := w.reconnectAttemptCount_ + 1 }
    let delayMs := 800 + (w.reconnectAttemptCount_ * 900)
    let w := appendLog (qs "Reconnect attempt " ++ number w.reconnectAttemptCount_ ++ qs "/"
      ++ number maxReconnectAttempts_ ++ qs " in " ++ number delayMs ++ qs " ms ("
      ++ reason ++ qs ")") w
    let w := statusMessage (qs "Reconnecting to " ++ w.currentChannelName_ ++ qs "...") w
    reconnectTimerStart delayMs w

/-- The arguments of the lock process. -/
def zapArguments (w : MainWindow) (channelName : QString) : List QString :=
  [qs "-I", qs "ZAP", qs "-c", w.channelsFilePath_, qs "-a", number w.adapterSpin_,
    qs "-f", number w.frontendSpin_, qs "-r", qs "-P", qs "-p", channelName]

/-- The expected device path `/dev/dvb/adapter%1/dvr0`. -/
def dvrPathFor (adapter : Nat) : QString :=
  qs "/dev/dvb/adapter" ++ number adapter ++ qs "/dvr0"

/-- The block of `startWatchingChannel` between the preconditions and the start of
the lock process: the session is marked as wanted, the reconnect timer stopped, the
attempt state reset unless this is a reconnect attempt, the old processes torn down
with their exit notifications suppressed, the player stopped. -/
def prepareWatch (reconnectAttempt : Bool) (w : MainWindow) : MainWindow :=
  let w := { w with userStoppedWatching_ := false }
  let w := reconnectTimerStop w
  let w :=
    if !reconnectAttempt then
      { w with reconnectAttemptCount_ := 0, useResilientBridgeMode_ := false,
               resilientBridgeTried_ := false }
    else w
  let w := stopBridgeSuppressed w
  let w := stopZapSuppressed w
  playerStopAndClear w

/-- The block of `startWatchingChannel` that starts the lock process and waits for it:
`zapProcess_->start(zapExe, args)` and the value of `waitForStarted(2000)`. -/
def startZap (env : Env) (channelName : QString) (w : MainWindow) : Bool × MainWindow :=
  let args := zapArguments w channelName
  let w := record (.zapStart env.zapExe args) { w with zapProcess_ := env.zapStarted.state }
  (env.zapStarted.ok, w)

/-- The block of `startWatchingChannel` after the lock process has started: the
session fields are recorded and the 3.5 s wait for the device is armed. -/
def awaitDvr (env : Env) (channelName : QString) (w : MainWindow) : MainWindow :=
  let w := { w with currentChannelName_ := channelName }
  let w := { w with currentProgramId_ := programIdForChannel env w channelName }
  let dvrPath := dvrPathFor w.adapterSpin_
  let w := { w with pendingDvrPath_ := dvrPath }
  let w := { w with waitingForDvrReady_ := true }
  let w := appendLog (qs "Tuning channel: " ++ channelName ++ qs " (program="
    ++ (if w.currentProgramId_.isEmpty then qs "unknown" else w.currentProgramId_)
    ++ qs ")") w
  let w := { w with dvrReadyShots := w.dvrReadyShots ++ [dvrPath] }
  let w := { w with stopWatchButtonEnabled := true }
  statusMessage (qs "Watching: " ++ channelName) w

/-- `MainWindow::startWatchingChannel(channelName, reconnectAttempt)`. -/
def startWatchingChannel (env : Env) (channelName : QString) (reconnectAttempt : Bool)
    (w : MainWindow) : Bool × MainWindow :=
  let w := record (.enterStartWatchingChannel channelName reconnectAttempt) w
  if channelName.isEmpty then (false, w)
  else
    match persistChannelsFile env w with
    | (false, w) => (false, messageBox (qs "No channel list") w)
    | (true, w) =>
      if env.zapExe.isEmpty then (false, messageBox (qs "Missing dependency") w)
      else
        match startZap env channelName (prepareWatch reconnectAttempt w) with
        | (false, w) =>
          let w := appendLog (qs "Failed to start dvbv5-zap for " ++ channelName) w
          (false, scheduleReconnect (qs "Failed to start tuner process") w)
        | (true, w) => (true, awaitDvr env channelName w)

/-- `MainWindow::stopWatching()`. -/
def stopWatching (w : MainWindow) : MainWindow :=
  let w := { w with userStoppedWatching_ := true }
  let w := reconnectTimerStop w
  let w := { w with reconnectAttemptCount_ := 0 }
  let w := { w with useResilientBridgeMode_ := false }
  let w := { w with resilientBridgeTried_ := false }
  let w := { w with currentChannelName_ := [] }
  let w := { w with currentProgramId_ := [] }
  let w := { w with pendingDvrPath_ := [] }
  let w := { w with waitingForDvrReady_ := false }
  let w := playerStopAndClear w
  let w := releaseDvrStream w
  let w := stopBridgeSuppressed w
  let w := stopZapSuppressed w
  let w := { w with stopWatchButtonEnabled := false }
  if w.scanProcess_ = ProcessState.NotRunning then statusMessage (qs "Ready") w else w

/-- The arguments of the bridge process, in the profile `useResilientBridgeMode_`
selects. -/
def ffmpegArguments (w : MainWindow) (dvrPath : QString) : List QString :=
  let sink := qs "udp://127.0.0.1:" ++ number (23000 + w.adapterSpin_) ++ qs "?pkt_size=1316"
  if w.useResilientBridgeMode_ then
    [qs "-hide_banner", qs "-nostdin", qs "-loglevel", qs "warning",
      qs "-fflags", qs "+genpts+discardcorrupt", qs "-err_detect", qs "ignore_err",
      qs "-analyzeduration", qs "4M", qs "-probesize", qs "4M", qs "-f", qs "mpegts",
      qs "-i", dvrPath]
    ++ (if !w.currentProgramId_.isEmpty then
          [qs "-map", qs "0:p:" ++ w.currentProgramId_ ++ qs "?"]
        else [qs "-map", qs "0:v:0?", qs "-map", qs "0:a:0?"])
    ++ [qs "-c:v", qs "mpeg2video", qs "-q:v", qs "3", qs "-c:a", qs "mp2",
      qs "-b:a", qs "192k", qs "-mpegts_flags", qs "+resend_headers+pat_pmt_at_frames",
      qs "-flush_packets", qs "1", qs "-f", qs "mpegts", sink]
  else
    [qs "-hide_banner", qs "-nostdin", qs "-loglevel", qs "warning",
      qs "-fflags", qs "+genpts", qs "-analyzeduration", qs "2M", qs "-probesize", qs "2M",
      qs "-f", qs "mpegts", qs "-i", dvrPath]
    ++ (if !w.currentProgramId_.isEmpty then
          [qs "-map", qs "0:p:" ++ w.currentProgramId_ ++ qs "?"]
        else [qs "-map", qs "0"])
    ++ [qs "-c", qs "copy", qs "-mpegts_flags", qs "+resend_headers+pat_pmt_at_frames",
      qs "-flush_packets", qs "1", qs "-f", qs "mpegts", sink]

/-- The block of `startPlaybackFromDvr` that starts the bridge process and waits for
it: `streamBridgeProcess_->start()` and the value of `waitForStarted(2000)`. -/
def startBridge (env : Env) (dvrPath : QString) (w : MainWindow) : Bool × MainWindow :=
  let args := ffmpegArguments w dvrPath
  let w := record (.bridgeStart env.ffmpegExe args)
    { w with streamBridgeProcess_ := env.bridgeStarted.state }
  (env.bridgeStarted.ok, w)

/-- The block of `startPlaybackFromDvr` after the bridge has started: the log line,
and the 450 ms single-shot callback that attaches the stream to the player. -/
def scheduleAttach (dvrPath : QString) (w : MainWindow) : MainWindow :=
  let udpPort := 23000 + w.adapterSpin_
  let w := appendLog (qs "player: Starting playback from ffmpeg bridge on " ++ dvrPath
    ++ qs " via udp://127.0.0.1:" ++ number udpPort ++ qs " (mode="
    ++ (if w.useResilientBridgeMode_ then qs "resilient" else qs "normal")
    ++ qs ", program="
    ++ (if w.currentProgramId_.isEmpty then qs "unknown" else w.currentProgramId_)
    ++ qs ")") w
  { w with attachShots := w.attachShots ++ [udpPort] }

/-- The block of `startPlaybackFromDvr` before the bridge executable is looked up:
the wait for the device is over, the device handle released, the old bridge torn
down with its exit notification suppressed. -/
def preparePlayback (w : MainWindow) : MainWindow :=
  let w := { w with waitingForDvrReady_ := false }
  let w := { w with pendingDvrPath_ := [] }
  let w := releaseDvrStream w
  stopBridgeSuppressed w

/-- `MainWindow::startPlaybackFromDvr(dvrPath)`. -/
def startPlaybackFromDvr (env : Env) (dvrPath : QString) (w : MainWindow) : MainWindow :=
  let w := record (.enterStartPlaybackFromDvr dvrPath) w
  if dvrPath.isEmpty then w
  else
    let w := preparePlayback w
    if env.ffmpegExe.isEmpty then
      let w := appendLog (qs "player: ffmpeg not found in PATH for live DVB bridge.") w
      scheduleReconnect (qs "Missing ffmpeg for live stream") w
    else
      match startBridge env dvrPath w with
      | (false, w) =>
        let w := appendLog (qs "player: Failed to start ffmpeg bridge for " ++ dvrPath) w
        scheduleReconnect (qs "Could not start ffmpeg bridge") w
      | (true, w) => scheduleAttach dvrPath w

/-- The 450 ms single-shot callback of `startPlaybackFromDvr`, for the URL with the
given port. -/
def attachLiveStream (udpPort : Nat) (w : MainWindow) : MainWindow :=
  if w.streamBridgeProcess_ ≠ .Running then
    appendLog (qs "player: ffmpeg bridge exited before media attach.") w
  else
    let w := appendLog (qs "player: Attaching UDP live stream to media player.") w
    let w := { w with playerSource := .udp udpPort }
    { w with playerPlaying := true }

/-- The 3.5 s single-shot callback of `startWatchingChannel`, with the path it
captured. -/
def dvrReadyTimeout (env : Env) (dvrPath : QString) (w : MainWindow) : MainWindow :=
  if w.waitingForDvrReady_ && w.pendingDvrPath_ = dvrPath then
    let w := appendLog (qs "DVR ready signal timeout; attempting playback anyway.") w
    startPlaybackFromDvr env dvrPath w
  else w

/-- The body of the loop of `handleZapStdErr`, for one line. -/
def handleZapStdErrLine (env : Env) (w : MainWindow) (line : QString) : MainWindow :=
  let trimmedLine := trimmed line
  if !trimmedLine.isEmpty then
    let w := appendLog (qs "zap: " ++ trimmedLine) w
    if w.waitingForDvrReady_ && containsStr trimmedLine (qs "DVR interface")
        && containsStr trimmedLine (qs "can now be opened") then
      let detectedPath :=
        match matchDvrPath trimmedLine with
        | some path => path
        | none => w.pendingDvrPath_
      let w := appendLog (qs "player: DVR ready path detected: " ++ detectedPath) w
      startPlaybackFromDvr env detectedPath w
    else w
  else w

/-- `MainWindow::handleZapStdErr()`, for the text read from the lock process. -/
def handleZapStdErr (env : Env) (stdErrText : QString) (w : MainWindow) : MainWindow :=
  let output := trimmed stdErrText
  if output.isEmpty then w
  else (split '\n' output).foldl (handleZapStdErrLine env) w

/-- `MainWindow::tryDynamicBridgeFallback(reason)`. -/
def tryDynamicBridgeFallback (env : Env) (reason : QString) (w : MainWindow) :
    Bool × MainWindow :=
  if w.userStoppedWatching_ || w.currentChannelName_.isEmpty then (false, w)
  else if w.resilientBridgeTried_ || w.useResilientBridgeMode_ then (false, w)
  else
    let w := { w with resilientBridgeTried_ := true }
    let w := { w with useResilientBridgeMode_ := true }
    let w := reconnectTimerStop w
    let w := { w with reconnectAttemptCount_ := 0 }
    let w := record (.dynamicBridgeFallback reason) w
    let w := appendLog (qs "player: " ++ reason ++ qs "; retrying with resilient bridge mode") w
    (true, (startWatchingChannel env w.currentChannelName_ true w).2)

/-- `MainWindow::triggerReconnect()`. -/
def triggerReconnect (env : Env) (w : MainWindow) : MainWindow :=
  if w.currentChannelName_.isEmpty || w.userStoppedWatching_ then w
  else (startWatchingChannel env w.currentChannelName_ true w).2

/-- `MainWindow::handleZapFinished(exitCode, exitStatus)`. -/
def handleZapFinished (exitCode : Int) (exitStatus : ExitStatus) (w : MainWindow) :
    MainWindow :=
  let w := if exitStatus ≠ .NormalExit then appendLog (qs "zap: tuner process crashed") w else w
  if !w.suppressZapExitReconnect_ && exitCode ≠ 0 && !w.userStoppedWatching_
      && !w.currentChannelName_.isEmpty then
    scheduleReconnect (qs "Tuner process exited (" ++ number exitCode ++ qs ")") w
  else w

/-- The handler connected to `streamBridgeProcess_`'s `finished` signal. -/
def handleBridgeFinished (env : Env) (exitCode : Int) (status : ExitStatus)
    (w : MainWindow) : MainWindow :=
  let w := appendLog (qs "ffmpeg bridge exited (code=" ++ number exitCode ++ qs ", status="
    ++ (if status = .NormalExit then qs "normal" else qs "crash") ++ qs ")") w
  if !w.suppressBridgeExitReconnect_ && !w.userStoppedWatching_
      && !w.currentChannelName_.isEmpty then
    match tryDynamicBridgeFallback env (qs "Live stream bridge exited") w with
    | (true, w) => w
    | (false, w) => scheduleReconnect (qs "Live stream bridge exited") w
  else w

/-- `MainWindow::handleMediaStatusChanged(status)`.  The early `return` of the first
block skips the second one. -/
def handleMediaStatusChanged (env : Env) (status : MediaStatus) (w : MainWindow) :
    MainWindow :=
  let w := appendLog (qs "player: mediaStatusChanged=" ++ number status.toInt) w
  let second (w : MainWindow) : MainWindow :=
    if !w.currentChannelName_.isEmpty && status = .EndOfMedia && !w.userStoppedWatching_ then
      match tryDynamicBridgeFallback env (qs "Media reached unexpected end") w with
      | (true, w) => w
      | (false, w) => scheduleReconnect (qs "Media stream became invalid") w
    else w
  if !w.currentChannelName_.isEmpty && status = .InvalidMedia && !w.userStoppedWatching_ then
    match tryDynamicBridgeFallback env (qs "Media stream became invalid") w with
    | (true, w) => w
    | (false, w) => second (scheduleReconnect (qs "Media stream became invalid") w)
  else second w

/-- `MainWindow::handlePlayerError(errorText)`. -/
def handlePlayerError (env : Env) (errorText : QString) (w : MainWindow) : MainWindow :=
  if (trimmed errorText).isEmpty then w
  else
    let w := appendLog (qs "player: " ++ trimmed errorText) w
    if !w.userStoppedWatching_ && !w.currentChannelName_.isEmpty then
      match tryDynamicBridgeFallback env (qs "Player error") w with
      | (true, w) => w
      | (false, w) => scheduleReconnect (qs "Player error") w
    else w

/-- `MainWindow::playbackStatusText()`. -/
def playbackStatusText (w : MainWindow) : QString :=
  if w.currentChannelName_.isEmpty then qs "Idle"
  else
    (if w.playerPlaying then qs "Playing" else qs "Buffering") ++ qs " ("
      ++ w.currentChannelName_ ++ qs ")"

/-! ## User commands, scanning, favourites -/

/-- `MainWindow::selectedChannelNameFromTable()`, for the selected row if any. -/
def selectedChannelNameFromTable (selectedRow : Option Nat) (w : MainWindow) : QString :=
  match selectedRow with
  | none => []
  | some row =>
    match w.channelsTable_.get? row with
    | none => []
    | some item => trimmed item.1

/-- `MainWindow::watchSelectedChannel()`. -/
def watchSelectedChannel (env : Env) (selectedRow : Option Nat) (w : MainWindow) : MainWindow :=
  if w.scanProcess_ ≠ .NotRunning then messageBox (qs "Scan in progress") w
  else
    let channelName := selectedChannelNameFromTable selectedRow w
    if channelName.isEmpty then messageBox (qs "Select a channel") w
    else (startWatchingChannel env channelName false w).2

/-- `MainWindow::watchFavoriteItem(item)`, for the text of the item if there is one. -/
def watchFavoriteItem (env : Env) (item : Option QString) (w : MainWindow) : MainWindow :=
  match item with
  | none => w
  | some text => (startWatchingChannel env text false w).2

/-- `MainWindow::triggerQuickFavorite()`, for the quick button with the given index;
its `channelName` property is what `refreshQuickButtons` last stored from
`favorites_`. -/
def triggerQuickFavorite (env : Env) (button : Nat) (w : MainWindow) : MainWindow :=
  if 8 ≤ button then w
  else
    let channel := w.favorites_.getD button []
    if channel.isEmpty then w
    else (startWatchingChannel env channel false w).2

/-- `MainWindow::openMediaFile()`, for the path the file dialog returned. -/
def openMediaFile (chosenPath : QString) (w : MainWindow) : MainWindow :=
  if chosenPath.isEmpty then w
  else
    let w := stopWatching w
    let w := { w with userStoppedWatching_ := true }
    let w := { w with currentChannelName_ := qs "File: " ++ fileName chosenPath }
    let w := { w with playerSource := .localFile chosenPath }
    let w := { w with playerPlaying := true }
    let w := appendLog (qs "player: Opened local media file: " ++ chosenPath) w
    statusMessage (qs "Playing local file: " ++ fileName chosenPath) w

/-- `MainWindow::startScan()`, with the arguments `makeArguments()` built from the
scan settings. -/
def startScan (env : Env) (args : List QString) (w : MainWindow) : MainWindow :=
  if w.scanProcess_ ≠ .NotRunning then w
  else
    let w := stopWatching w
    let w := { w with channelsTable_ := [] }
    let w := { w with partialStdOut_ := [] }
    let w := { w with partialStdErr_ := [] }
    let w := { w with channelLines_ := [] }
    let w := appendLog (qs "[" ++ env.now ++ qs "] Starting: w_scan2 "
      ++ (qs " ").intercalate args) w
    let w := record (.scanStart (qs "w_scan2") args) { w with scanProcess_ := env.scanStarted.state }
    if !env.scanStarted.ok then
      let w := messageBox (qs "Failed to start") w
      appendLog (qs "Failed to start w_scan2.") w
    else statusMessage (qs "Scanning...") w

/-- `MainWindow::stopScan()`: the scan process is asked to terminate. -/
def stopScan (w : MainWindow) : MainWindow :=
  if w.scanProcess_ = .NotRunning then w
  else appendLog (qs "Stopping scan...") w

/-- The body of the loop of `handleStdOut`, for one complete line. -/
def handleStdOutLine (w : MainWindow) (rawLine : QString) : MainWindow :=
  let line := trimmed rawLine
  if !line.isEmpty then parseAndStoreLine line (appendLog line w) else w

/-- What `handleStdOut` does with the text it has decoded from a read: the text is
appended to the unfinished line, the buffer is split at the newlines, the last part
is the new unfinished line, and the parts before it go through the loop. -/
def appendStdOut (chunk : QString) (w : MainWindow) : MainWindow :=
  let buffer := w.partialStdOut_ ++ chunk
  let lines := split '\n' buffer
  let w := { w with partialStdOut_ := lines.getLast?.getD [] }
  lines.dropLast.foldl handleStdOutLine w

/-- `MainWindow::handleStdOut()`, for the bytes `readAllStandardOutput()` returned:
`partialStdOut_.append(QString::fromUtf8(...))`, so the bytes of each read are
decoded on their own, and the rest of the function runs on that text. -/
def handleStdOut (read : List Nat) (w : MainWindow) : MainWindow :=
  appendStdOut (fromUtf8 read) w

/-- The body of the loop of `handleStdErr`, for one complete line. -/
def handleStdErrLine (w : MainWindow) (rawLine : QString) : MainWindow :=
  let line := trimmed rawLine
  if !line.isEmpty then appendLog (qs "stderr: " ++ line) w else w

/-- `MainWindow::handleStdErr()`, for the text read from the scan process. -/
def handleStdErr (chunk : QString) (w : MainWindow) : MainWindow :=
  let buffer := w.partialStdErr_ ++ chunk
  let lines := split '\n' buffer
  let w := { w with partialStdErr_ := lines.getLast?.getD [] }
  lines.dropLast.foldl handleStdErrLine w

/-- `MainWindow::processFinished(exitCode)`. -/
def processFinished (env : Env) (exitCode : Int) (w : MainWindow) : MainWindow :=
  let w :=
    if !(trimmed w.partialStdOut_).isEmpty then
      let line := trimmed w.partialStdOut_
      let w := appendLog line w
      let w := parseAndStoreLine line w
      { w with partialStdOut_ := [] }
    else w
  let w :=
    if !(trimmed w.partialStdErr_).isEmpty then
      let w := appendLog (qs "stderr: " ++ trimmed w.partialStdErr_) w
      { w with partialStdErr_ := [] }
    else w
  let w := (persistChannelsFile env w).2
  let endMsg := qs "Scan finished (exit=" ++ number exitCode ++ qs "). Channels parsed: "
    ++ number w.channelsTable_.length
  let w := appendLog endMsg w
  statusMessage endMsg w

/-- `MainWindow::closeEvent(event)`: `stopProcess(scanProcess_, 1200)` raises the
scan's exit notification, with the given exit code, inside it. -/
def closeEvent (env : Env) (scanExitCode : Int) (w : MainWindow) : MainWindow :=
  let w := appendLog (qs "Application closing: releasing tuner resources.") w
  let w := stopWatching w
  if w.scanProcess_ ≠ .NotRunning then
    processFinished env scanExitCode { w with scanProcess_ := stopProcess w.scanProcess_ }
  else w

/-- `MainWindow::addSelectedFavorite()`. -/
def addSelectedFavorite (selectedRow : Option Nat) (w : MainWindow) : MainWindow :=
  let channelName := selectedChannelNameFromTable selectedRow w
  if channelName.isEmpty then messageBox (qs "Select channel") w
  else if w.favorites_.contains channelName then w
  else { w with favorites_ := w.favorites_ ++ [channelName] }

/-- `MainWindow::removeSelectedFavorite()`. -/
def removeSelectedFavorite (selectedRow : Option Nat) (w : MainWindow) : MainWindow :=
  let name := selectedChannelNameFromTable selectedRow w
  let name :=
    if name.isEmpty && !(qs "File: ").isPrefixOf w.currentChannelName_
        && !w.currentChannelName_.isEmpty then w.currentChannelName_
    else name
  if name.isEmpty then w
  else if !w.favorites_.contains name then w
  else { w with favorites_ := w.favorites_.filter (fun f => f ≠ name) }

/-- `MainWindow::loadChannelsFileIfPresent()`. -/
def loadChannelsFileIfPresent (env : Env) (w : MainWindow) : MainWindow :=
  if env.appDataPath.isEmpty then
    appendLog (qs "Could not resolve app data directory for channels list.") w
  else
    let w := { w with channelsFilePath_ := filePath env.appDataPath (qs "channels.conf") }
    match w.disk.lookup w.channelsFilePath_ with
    | none => appendLog (qs "No saved channels file found. Run a scan once to create one.") w
    | some text =>
      if !env.canReadChannelsFile then
        appendLog (qs "Could not open channels file: " ++ w.channelsFilePath_) w
      else
        let w := { w with channelsTable_ := [] }
        let w := { w with channelLines_ := [] }
        let w := (readLines text).foldl
          (fun w rawLine =>
            let line := trimmed rawLine
            if !line.isEmpty then parseAndStoreLine line w else w) w
        appendLog (qs "Loaded " ++ number w.channelLines_.length ++ qs " channel entries from "
          ++ w.channelsFilePath_) w

/-- The member initialisers of `MainWindow` and the widget defaults of `buildUi`. -/
def MainWindow.fresh : MainWindow where
  adapterSpin_ := 0
  frontendSpin_ := 0
  channelsTable_ := []
  stopWatchButtonEnabled := false
  scanProcess_ := .NotRunning
  zapProcess_ := .NotRunning
  streamBridgeProcess_ := .NotRunning
  playerSource := .empty
  playerPlaying := false
  partialStdOut_ := []
  partialStdErr_ := []
  channelsFilePath_ := []
  channelLines_ := []
  favorites_ := []
  xspfProgramByChannel_ := []
  currentChannelName_ := []
  currentProgramId_ := []
  pendingDvrPath_ := []
  waitingForDvrReady_ := false
  dvrStream_ := none
  reconnectAttemptCount_ := 0
  userStoppedWatching_ := false
  suppressZapExitReconnect_ := false
  suppressBridgeExitReconnect_ := false
  useResilientBridgeMode_ := false
  resilientBridgeTried_ := false
  reconnectTimer_ := none
  dvrReadyShots := []
  attachShots := []
  disk := []
  trace := []

/-- The constructor `MainWindow::MainWindow`: the stored favourites without their
duplicates, the program-id hints read from the playlist, the channels file if there
is one. -/
def construct (env : Env) (storedFavorites : List QString)
    (hints : List (QString × QString)) (disk : List (QString × QString)) : MainWindow :=
  let w := { MainWindow.fresh with disk := disk }
  let w := { w with favorites_ := storedFavorites.eraseDups }
  let w := { w with xspfProgramByChannel_ := hints }
  loadChannelsFileIfPresent env w

/-! ## The event loop -/

/-- The three external processes. -/
inductive Proc where
  | scan
  | zap
  | bridge
  deriving DecidableEq, Repr

/-- What the single control thread is handed, one at a time: a command of the user,
a notification of a process or of the player, or the firing of a timer.  A read of
the output of a process is given by the text decoded from its bytes. -/
inductive Event where
  | watchSelectedChannel (selectedRow : Option Nat)
  | watchFavoriteItem (item : Option QString)
  | triggerQuickFavorite (button : Nat)
  | stopWatching
  | openMediaFile (chosenPath : QString)
  | startScan (args : List QString)
  | stopScan
  | closeEvent (scanExitCode : Int)
  | addSelectedFavorite (selectedRow : Option Nat)
  | removeSelectedFavorite (selectedRow : Option Nat)
  | setAdapter (value : Nat)
  | setFrontend (value : Nat)
  | scanStdOut (chunk : QString)
  | scanStdErr (chunk : QString)
  | scanFinished (exitCode : Int)
  | zapStdErr (text : QString)
  | zapFinished (exitCode : Int) (exitStatus : ExitStatus)
  | bridgeFinished (exitCode : Int) (exitStatus : ExitStatus)
  | lateStart (process : Proc) (ok : Bool)
  | mediaStatusChanged (status : MediaStatus)
  | playerError (code : Int) (errorText : QString)
  | reconnectTimeout
  | dvrReadyShot
  | attachShot
  deriving DecidableEq, Repr

/-- A process that had not signalled running in time does so later, or fails. -/
def lateStart (process : Proc) (ok : Bool) (w : MainWindow) : MainWindow :=
  let next (p : ProcessState) : ProcessState :=
    if p = .Starting then (if ok then .Running else .NotRunning) else p
  match process with
  | .scan => { w with scanProcess_ := next w.scanProcess_ }
  | .zap => { w with zapProcess_ := next w.zapProcess_ }
  | .bridge => { w with streamBridgeProcess_ := next w.streamBridgeProcess_ }

/-- One turn of the event loop.  A notification of a process is delivered only while
that process is not `NotRunning`, and its exit leaves it `NotRunning`; a timer fires
only while it is pending, and is no longer pending when its callback runs; the spin
boxes keep their value in the range 0 to 32. -/
def step (env : Env) (e : Event) (w : MainWindow) : MainWindow :=
  match e with
  | .watchSelectedChannel selectedRow => watchSelectedChannel env selectedRow w
  | .watchFavoriteItem item => watchFavoriteItem env item w
  | .triggerQuickFavorite button => triggerQuickFavorite env button w
  | .stopWatching => stopWatching w
  | .openMediaFile chosenPath => openMediaFile chosenPath w
  | .startScan args => startScan env args w
  | .stopScan => stopScan w
  | .closeEvent scanExitCode => closeEvent env scanExitCode w
  | .addSelectedFavorite selectedRow => addSelectedFavorite selectedRow w
  | .removeSelectedFavorite selectedRow => removeSelectedFavorite selectedRow w
  | .setAdapter value => { w with adapterSpin_ := min value 32 }
  | .setFrontend value => { w with frontendSpin_ := min value 32 }
  | .scanStdOut chunk =>
    if w.scanProcess_ ≠ .NotRunning then appendStdOut chunk w else w
  | .scanStdErr chunk =>
    if w.scanProcess_ ≠ .NotRunning then handleStdErr chunk w else w
  | .scanFinished exitCode =>
    if w.scanProcess_ ≠ .NotRunning then
      processFinished env exitCode { w with scanProcess_ := .NotRunning }
    else w
  | .zapStdErr text =>
    if w.zapProcess_ ≠ .NotRunning then handleZapStdErr env text w else w
  | .zapFinished exitCode exitStatus =>
    if w.zapProcess_ ≠ .NotRunning then
      handleZapFinished exitCode exitStatus { w with zapProcess_ := .NotRunning }
    else w
  | .bridgeFinished exitCode exitStatus =>
    if w.streamBridgeProcess_ ≠ .NotRunning then
      handleBridgeFinished env exitCode exitStatus { w with streamBridgeProcess_ := .NotRunning }
    else w
  | .lateStart process ok => lateStart process ok w
  | .mediaStatusChanged status => handleMediaStatusChanged env status w
  | .playerError code errorText =>
    if code ≠ 0 then
      handlePlayerError env errorText
        (appendLog (qs "player: errorChanged code=" ++ number code ++ qs " text=" ++ errorText) w)
    else w
  | .reconnectTimeout =>
    match w.reconnectTimer_ with
    | some _ => triggerReconnect env { w with reconnectTimer_ := none }
    | none => w
  | .dvrReadyShot =>
    match w.dvrReadyShots with
    | dvrPath :: rest => dvrReadyTimeout env dvrPath { w with dvrReadyShots := rest }
    | [] => w
  | .attachShot =>
    match w.attachShots with
    | udpPort :: rest => attachLiveStream udpPort { w with attachShots := rest }
    | [] => w

/-- The state after a sequence of events, each with the outcomes of its external
steps. -/
def run (w : MainWindow) : List (Env × Event) → MainWindow
  | [] => w
  | (env, e) :: rest => run (step env e w) rest

/-- The states the program can be in: those the event loop reaches from a freshly
constructed window. -/
def Reachable (w : MainWindow) : Prop :=
  ∃ (env : Env) (storedFavorites : List QString) (hints disk : List (QString × QString))
    (events : List (Env × Event)),
    w = run (construct env storedFavorites hints disk) events

/-! ## Observations -/

/-- The session: the member variables of the channel being watched, the two suppress
flags and the reconnect timer; without the processes, the player, the catalog, the
favourites, the scan, the files and the trace. -/
structure Session where
  currentChannelName_ : QString
  currentProgramId_ : QString
  pendingDvrPath_ : QString
  waitingForDvrReady_ : Bool
  reconnectAttemptCount_ : Int
  userStoppedWatching_ : Bool
  suppressZapExitReconnect_ : Bool
  suppressBridgeExitReconnect_ : Bool
  useResilientBridgeMode_ : Bool
  resilientBridgeTried_ : Bool
  reconnectTimer_ : Option Int
  deriving DecidableEq, Repr

/-- The session of a window state. -/
def MainWindow.session (w : MainWindow) : Session where
  currentChannelName_ := w.currentChannelName_
  currentProgramId_ := w.currentProgramId_
  pendingDvrPath_ := w.pendingDvrPath_
  waitingForDvrReady_ := w.waitingForDvrReady_
  reconnectAttemptCount_ := w.reconnectAttemptCount_
  userStoppedWatching_ := w.userStoppedWatching_
  suppressZapExitReconnect_ := w.suppressZapExitReconnect_
  suppressBridgeExitReconnect_ := w.suppressBridgeExitReconnect_
  useResilientBridgeMode_ := w.useResilientBridgeMode_
  resilientBridgeTried_ := w.resilientBridgeTried_
  reconnectTimer_ := w.reconnectTimer_

/-- The effects the recovery properties count: the two calls, the decision to
escalate, and the start of the reconnect timer. -/
def Effect.isRecovery : Effect → Bool
  | .enterStartWatchingChannel _ _ => true
  | .enterStartPlaybackFromDvr _ => true
  | .dynamicBridgeFallback _ => true
  | .reconnectTimerStart _ => true
  | _ => false

/-- A step that leaves the session alone and adds no recovery effect. -/
def Quiet (w w' : MainWindow) : Prop :=
  w'.session = w.session ∧ ∃ log, w'.trace = w.trace ++ log ∧ ∀ e ∈ log, e.isRecovery = false

/-- The calls of `startWatchingChannel` in a trace: channel name and reconnect flag. -/
def watchCalls (t : List Effect) : List (QString × Bool) :=
  t.filterMap (fun e =>
    match e with
    | .enterStartWatchingChannel channelName reconnectAttempt => some (channelName, reconnectAttempt)
    | _ => none)

/-- The calls of `startPlaybackFromDvr` in a trace, each with its path. -/
def playbackCalls (t : List Effect) : List QString :=
  t.filterMap (fun e =>
    match e with
    | .enterStartPlaybackFromDvr dvrPath => some dvrPath
    | _ => none)

/-- The delays with which the reconnect timer was started in a trace. -/
def timerStarts (t : List Effect) : List Int :=
  t.filterMap (fun e =>
    match e with
    | .reconnectTimerStart delayMs => some delayMs
    | _ => none)

/-- The titles of the message boxes shown in a trace. -/
def messageBoxes (t : List Effect) : List QString :=
  t.filterMap (fun e =>
    match e with
    | .messageBox title => some title
    | _ => none)

/-- How often `tryDynamicBridgeFallback` acted in a trace. -/
def fallbacksTaken (t : List Effect) : Nat :=
  t.countP (fun e =>
    match e with
    | .dynamicBridgeFallback _ => true
    | _ => false)

/-- The events that are commands of the user calling `stopWatching` or a fresh
`startWatchingChannel(name, false)`. -/
def Event.isUserCommand : Event → Bool
  | .watchSelectedChannel _ => true
  | .watchFavoriteItem _ => true
  | .triggerQuickFavorite _ => true
  | .stopWatching => true
  | .openMediaFile _ => true
  | .startScan _ => true
  | .closeEvent _ => true
  | _ => false

/-- The events that start a fresh watch. -/
def Event.isWatchCommand : Event → Bool
  | .watchSelectedChannel _ => true
  | .watchFavoriteItem _ => true
  | .triggerQuickFavorite _ => true
  | _ => false

/-- The recovery decision as the specification words it: first offer the escalation,
and fall through to the backoff reconnect only if the escalation did not apply. -/
def escalateElseReconnect (env : Env) (escalationReason reconnectReason : QString)
    (w : MainWindow) : MainWindow :=
  let offered := tryDynamicBridgeFallback env escalationReason w
  if offered.1 then offered.2 else scheduleReconnect reconnectReason offered.2

/-- The attempt counter is within its bound. -/
def CountInRange (w : MainWindow) : Prop :=
  0 ≤ w.reconnectAttemptCount_ ∧ w.reconnectAttemptCount_ ≤ maxReconnectAttempts_

/-- Resilient mode is active or has been tried: the escalation no longer applies. -/
def Escalated (w : MainWindow) : Prop :=
  w.resilientBridgeTried_ = true ∨ w.useResilientBridgeMode_ = true

/-- The retries are used up: the counter is at the bound, the escalation no longer
applies, and no reconnect timer is pending. -/
def Exhausted (w : MainWindow) : Prop :=
  maxReconnectAttempts_ ≤ w.reconnectAttemptCount_ ∧ Escalated w ∧ w.reconnectTimer_ = none

/-- The user has stopped the session: it is marked user-stopped, does not wait for
the device, and has no reconnect timer pending. -/
def StoppedByUser (w : MainWindow) : Prop :=
  w.userStoppedWatching_ = true ∧ w.waitingForDvrReady_ = false ∧ w.reconnectTimer_ = none

/-- A step that keeps the counter within its bound, leaves the two resilient flags
alone and takes no escalation. -/
structure Steady (w w' : MainWindow) : Prop where
  countInRange : CountInRange w → CountInRange w'
  tried : w'.resilientBridgeTried_ = w.resilientBridgeTried_
  resilient : w'.useResilientBridgeMode_ = w.useResilientBridgeMode_
  fallbacks : fallbacksTaken w'.trace = fallbacksTaken w.trace

/-- What a command of the user that stops the session guarantees: afterwards the
session is stopped and the counter zero, and no watch and no playback was called. -/
structure Stops (w w' : MainWindow) : Prop where
  stopped : StoppedByUser w'
  count : w'.reconnectAttemptCount_ = 0
  watchCalls : watchCalls w'.trace = watchCalls w.trace
  playbackCalls : playbackCalls w'.trace = playbackCalls w.trace

/-- What every step of the event loop other than a command of the user guarantees,
from its state before to its state after. -/
structure Auto (w w' : MainWindow) : Prop where
  countInRange : CountInRange w → CountInRange w'
  fallbacksMono : fallbacksTaken w.trace ≤ fallbacksTaken w'.trace
  fallbacksLe : fallbacksTaken w'.trace ≤ fallbacksTaken w.trace + 1
  escalatedOfFallback : fallbacksTaken w.trace < fallbacksTaken w'.trace → Escalated w'
  escalatedKeeps : Escalated w →
    Escalated w' ∧ fallbacksTaken w'.trace = fallbacksTaken w.trace
  exhaustedKeeps : Exhausted w →
    Exhausted w' ∧ watchCalls w'.trace = watchCalls w.trace ∧
      timerStarts w'.trace = timerStarts w.trace
  stoppedKeeps : StoppedByUser w →
    StoppedByUser w' ∧ watchCalls w'.trace = watchCalls w.trace ∧
      playbackCalls w'.trace = playbackCalls w.trace

/-! ## Concrete inputs -/

/-- Outcomes in which every external step succeeds. -/
def envOk : Env where
  appDataPath := qs "/data"
  dirExists := true
  mkpathOk := true
  canWriteChannelsFile := true
  canReadChannelsFile := true
  zapExe := qs "/usr/bin/dvbv5-zap"
  zapStarted := .started
  ffmpegExe := qs "/usr/bin/ffmpeg"
  bridgeStarted := .started
  scanStarted := .started
  now := qs "2024-01-01T00:00:00"

/-- Outcomes in which the lock process cannot be started. -/
def envZapFails : Env :=
  { envOk with zapStarted := .failedToStart }

/-- A freshly constructed window that found a one-line catalog on disk and one stored
favourite. -/
def idleWindow : MainWindow :=
  construct envOk [qs "KTVU"] []
    [(qs "/data/channels.conf", qs "KTVU:515000000:8VSB:49:52:3\n")]

/-- A window watching channel KTVU, as the first quick favourite button leaves it. -/
def watchingWindow : MainWindow :=
  step envOk (.triggerQuickFavorite 0) idleWindow

/-- The lock process exits with code 1 and then fails to start at each of the six
reconnect attempts that follow. -/
def lockKeepsFailing : List (Env × Event) :=
  [(envOk, .triggerQuickFavorite 0), (envOk, .zapFinished 1 .NormalExit),
    (envZapFails, .reconnectTimeout), (envZapFails, .reconnectTimeout),
    (envZapFails, .reconnectTimeout), (envZapFails, .reconnectTimeout),
    (envZapFails, .reconnectTimeout), (envZapFails, .reconnectTimeout)]

/-- The window after the retries have been used up on a lock process that keeps
failing: the counter is at the bound and the terminal failure has been reported. -/
def givenUpWindow : MainWindow :=
  run idleWindow lockKeepsFailing

/-- The device becomes ready, the bridge starts and then dies while the lock process
can no longer be started. -/
def bridgeDiesLockFails : List (Env × Event) :=
  [(envOk, .triggerQuickFavorite 0),
    (envOk, .zapStdErr (qs "DVR interface '/dev/dvb/adapter0/dvr0' can now be opened")),
    (envZapFails, .bridgeFinished 1 .CrashExit)]

/-- Eight errors of the player in a row: the first escalates, six arm the reconnect
timer, the eighth finds the counter at the bound. -/
def eightPlayerErrors : List (Env × Event) :=
  List.replicate 8 (envOk, .playerError 1 (qs "demuxer"))

/-- The window after the escalation and all retries have been used up and the last
reconnect attempt has failed to start the lock process. -/
def usedUpWindow : MainWindow :=
  run watchingWindow (eightPlayerErrors ++ [(envZapFails, .reconnectTimeout)])

/-- Two errors of the player in a row. -/
def twoPlayerErrors : List (Env × Event) :=
  [(envOk, .playerError 1 (qs "demuxer")), (envOk, .playerError 1 (qs "demuxer"))]

/-! ## The catalog, as the specification words it -/

/-- Whether a scanner line is rejected: a comment, an already tagged diagnostic line,
a line with fewer than three colon-delimited fields, or a line whose first field is
blank. -/
def rejectsLine (line : QString) : Bool :=
  (qs "#").isPrefixOf line || (qs "stderr:").isPrefixOf line ||
    decide ((split ':' line).length < 3) || (trimmed ((split ':' line).getD 0 [])).isEmpty

/-- The provider of a scanner line: field 10 trimmed if it is there and not blank,
else `Unknown`. -/
def providerOf (line : QString) : QString :=
  if 10 < (split ':' line).length ∧ trimmed ((split ':' line).getD 10 []) ≠ [] then
    trimmed ((split ':' line).getD 10 [])
  else qs "Unknown"

/-- The lines fed to `parseAndStoreLine` one after the other. -/
def feedLines (lines : List QString) (w : MainWindow) : MainWindow :=
  lines.foldl (fun w line => parseAndStoreLine line w) w

/-- What every entry of the catalog is: a single line, trimmed, not rejected, and
equal to its own normalized form. -/
def CatalogEntry (e : QString) : Prop :=
  '\n' ∉ e ∧ trimmed e = e ∧ rejectsLine e = false ∧ normalizeZapLine e = e

/-- What every catalog is: entries without duplicates. -/
def CatalogOk (c : List QString) : Prop :=
  c.Nodup ∧ ∀ e ∈ c, CatalogEntry e

/-- What makes a line of the catalog give a program id for a channel: trimmed, it has
six colon-delimited fields or more, its field 0 trimmed is the channel name, and its
field 5 trimmed is not empty. -/
def givesProgramId (channelName line : QString) : Prop :=
  6 ≤ (split ':' (trimmed line)).length ∧
    trimmed ((split ':' (trimmed line)).getD 0 []) = channelName ∧
    trimmed ((split ':' (trimmed line)).getD 5 []) ≠ []

instance givesProgramIdDecidable (channelName line : QString) :
    Decidable (givesProgramId channelName line) :=
  inferInstanceAs (Decidable (6 ≤ (split ':' (trimmed line)).length ∧
    trimmed ((split ':' (trimmed line)).getD 0 []) = channelName ∧
    trimmed ((split ':' (trimmed line)).getD 5 []) ≠ []))

/-- A window that found on disk a catalog in which the first line of channel KTVU has
no program id. -/
def shortLineWindow : MainWindow :=
  construct envOk [] []
    [(qs "/data/channels.conf", qs "KTVU:515000000:8VSB\nKTVU:515000000:8VSB:49:52:3\n")]

/-- A window that found on disk a catalog whose fields are padded with blanks. -/
def paddedLineWindow : MainWindow :=
  construct envOk [] [] [(qs "/data/channels.conf", qs "KTVU :515000000:8VSB:49:52: 3 :0\n")]

/-- The window after a new scan has replaced the catalog in memory by a line of channel
KTVU without program id, while the channels file of the scan before is still on
disk. -/
def rescannedWindow : MainWindow :=
  run shortLineWindow
    [(envOk, .startScan []), (envOk, .scanStdOut (qs "KTVU:515000000:8VSB\n"))]

/-- A step that does nothing but write lines to the log. -/
def OnlyLogs (w v : MainWindow) : Prop :=
  ∃ log, v = { w with trace := w.trace ++ log } ∧ ∀ e ∈ log, ∃ line, e = Effect.appendLog line

/-- The catalog and the scan buffer as the program keeps them: the catalog holds
entries without duplicates, and the unfinished line of the scan output holds no
newline. -/
def CatalogInv (w : MainWindow) : Prop :=
  CatalogOk w.channelLines_ ∧ '\n' ∉ w.partialStdOut_

/-- A step that touches neither the catalog nor the unfinished line of the scan
output. -/
def KeepsCatalog (w v : MainWindow) : Prop :=
  v.channelLines_ = w.channelLines_ ∧ v.partialStdOut_ = w.partialStdOut_

/-! ## Teardown with its exit notification -/

/-- A relation between the state before and the state after that holds of the
building blocks of the recovery: of doing nothing, of one block after another, of
every quiet step, of the reconnect timer firing, of `scheduleReconnect`, of a
reconnect attempt of `startWatchingChannel`, of `startPlaybackFromDvr` and of
`tryDynamicBridgeFallback`. -/
structure StepClosed (R : MainWindow → MainWindow → Prop) : Prop where
  same : ∀ w, R w w
  next : ∀ a b c, R a b → R b c → R a c
  ofQuiet : ∀ w v, Quiet w v → R w v
  ofTimerFired : ∀ w, R w { w with reconnectTimer_ := none }
  ofSchedule : ∀ reason w, R w (scheduleReconnect reason w)
  ofReconnect : ∀ env name w, R w (startWatchingChannel env name true w).2
  ofPlayback : ∀ env dvrPath w, R w (startPlaybackFromDvr env dvrPath w)
  ofFallback : ∀ env reason w, R w (tryDynamicBridgeFallback env reason w).2

/-- Both suppress flags are clear. -/
def SuppressClear (w : MainWindow) : Prop :=
  w.suppressZapExitReconnect_ = false ∧ w.suppressBridgeExitReconnect_ = false

/-- A step that leaves the suppress flags clear if it found them clear. -/
def KeepsClear (w v : MainWindow) : Prop :=
  SuppressClear w → SuppressClear v

/-- The number of times the reconnect timer can still be started without a command of
the user: the attempts left below the bound, and as many again while the escalation
has not been taken. -/
def retryBudget (w : MainWindow) : Int :=
  (if w.resilientBridgeTried_ || w.useResilientBridgeMode_ then 0 else maxReconnectAttempts_)
    + (maxReconnectAttempts_ - w.reconnectAttemptCount_)

/-- A step that pays for every start of the reconnect timer out of the retry budget,
and lowers the attempt counter only by taking the escalation. -/
structure Spends (w v : MainWindow) : Prop where
  countInRange : CountInRange w → CountInRange v
  budget : CountInRange w →
    ((timerStarts v.trace).length : Int) + retryBudget v ≤
      (timerStarts w.trace).length + retryBudget w
  fallbacksMono : fallbacksTaken w.trace ≤ fallbacksTaken v.trace
  reset : v.reconnectAttemptCount_ < w.reconnectAttemptCount_ →
    fallbacksTaken w.trace < fallbacksTaken v.trace

/-- A step after which the timer starts so far and the retry budget together stay
within twice the bound of what the timer had been started before: a step that may
refill the budget, as a command of the user does. -/
def Refills (w v : MainWindow) : Prop :=
  CountInRange w →
    CountInRange v ∧
    ((timerStarts v.trace).length : Int) + retryBudget v ≤
      (timerStarts w.trace).length + 2 * maxReconnectAttempts_

/-! ## Concrete event sequences -/

/-- Six exits of the lock process, each followed by a reconnect attempt that starts
it again, and then seven errors of the player: the first takes the escalation, the
others are retried. -/
def twelveTimerStarts : List (Env × Event) :=
  [(envOk, .zapFinished 1 .NormalExit), (envOk, .reconnectTimeout),
    (envOk, .zapFinished 1 .NormalExit), (envOk, .reconnectTimeout),
    (envOk, .zapFinished 1 .NormalExit), (envOk, .reconnectTimeout),
    (envOk, .zapFinished 1 .NormalExit), (envOk, .reconnectTimeout),
    (envOk, .zapFinished 1 .NormalExit), (envOk, .reconnectTimeout),
    (envOk, .zapFinished 1 .NormalExit), (envOk, .reconnectTimeout),
    (envOk, .playerError 1 (qs "demuxer")), (envOk, .playerError 1 (qs "demuxer")),
    (envOk, .playerError 1 (qs "demuxer")), (envOk, .playerError 1 (qs "demuxer")),
    (envOk, .playerError 1 (qs "demuxer")), (envOk, .playerError 1 (qs "demuxer")),
    (envOk, .playerError 1 (qs "demuxer"))]

/-- A freshly constructed window with two stored favourites, KTVU on the first quick
button and KQED on the second. -/
def twoFavoritesWindow : MainWindow :=
  construct envOk [qs "KTVU", qs "KQED"] []
    [(qs "/data/channels.conf",
      qs "KTVU:515000000:8VSB:49:52:3\nKQED:569000000:8VSB:49:52:1\n")]

/-- The window after KTVU was watched with the first quick button, stopped, and KQED
watched in its place with the second, on the same adapter, all before the 3.5 s
timeout of the first watch has fired: both timeouts are pending, with the same
path. -/
def supersededWindow : MainWindow :=
  run twoFavoritesWindow
    [(envOk, .triggerQuickFavorite 0), (envOk, .stopWatching), (envOk, .triggerQuickFavorite 1)]

/-! ## The scan output, as the specification words it -/

/-- What both `handleStdOut` and `processFinished` do with a line of the scan output
that is not blank: `appendLog(line); parseAndStoreLine(line);`. -/
def storeScanLine (w : MainWindow) (line : QString) : MainWindow :=
  parseAndStoreLine line (appendLog line w)

/-- The lines of a text as the specification words them: its newline-separated
segments, trimmed, without the empty ones, in order. -/
def scanSegments (s : QString) : List QString :=
  ((split '\n' s).map trimmed).filter (fun line => !line.isEmpty)

/-- Texts appended to the scan output one after the other. -/
def feedChunks (chunks : List QString) (w : MainWindow) : MainWindow :=
  chunks.foldl (fun w chunk => appendStdOut chunk w) w

/-- The scan output arriving in reads: `handleStdOut` is called once for each. -/
def feedReads (reads : List (List Nat)) (w : MainWindow) : MainWindow :=
  reads.foldl (fun w read => handleStdOut read w) w

/-- The bytes of `Zoé:5:8VSB` and a newline, read in two parts: the first read ends
with the first byte of the two-byte character, the second starts with its second. -/
def cutInsideCharacter : List (List Nat) :=
  [[90, 111, 195], [169, 58, 53, 58, 56, 86, 83, 66, 10]]

/-! ## Closed forms -/


theorem stopBridgeSuppressed_eq (w : MainWindow) :
    stopBridgeSuppressed w =
      { w with
        streamBridgeProcess_ := .NotRunning
        suppressBridgeExitReconnect_ :=
          decide (w.streamBridgeProcess_ = .NotRunning) && w.suppressBridgeExitReconnect_ } := by
  unfold stopBridgeSuppressed stopProcess
  cases w
  simp only
  split_ifs <;> simp_all

theorem stopZapSuppressed_eq (w : MainWindow) :
    stopZapSuppressed w =
      { w with
        zapProcess_ := .NotRunning
        suppressZapExitReconnect_ :=
          decide (w.zapProcess_ = .NotRunning) && w.suppressZapExitReconnect_ } := by
  unfold stopZapSuppressed stopProcess
  cases w
  simp only
  split_ifs <;> simp_all

theorem releaseDvrStream_eq (w : MainWindow) :
    releaseDvrStream w = { w with dvrStream_ := none } := by
  unfold releaseDvrStream
  cases w
  simp only
  split <;> simp_all

theorem scheduleReconnect_eq (reason : QString) (w : MainWindow) :
    scheduleReconnect reason w =
      if w.currentChannelName_ = [] ∨ w.userStoppedWatching_ = true then w
      else if maxReconnectAttempts_ ≤ w.reconnectAttemptCount_ then
        { w with trace := w.trace ++
          [.appendLog (qs "Reconnect failed after maximum attempts."),
           .statusMessage (qs "Reconnect failed for " ++ w.currentChannelName_)] }
      else
        { w with
          reconnectAttemptCount_ := w.reconnectAttemptCount_ + 1
          reconnectTimer_ := some (800 + (w.reconnectAttemptCount_ + 1) * 900)
          trace := w.trace ++
            [.appendLog (qs "Reconnect attempt " ++ number (w.reconnectAttemptCount_ + 1)
                ++ qs "/" ++ number maxReconnectAttempts_ ++ qs " in "
                ++ number (800 + (w.reconnectAttemptCount_ + 1) * 900) ++ qs " ms ("
                ++ reason ++ qs ")"),
             .statusMessage (qs "Reconnecting to " ++ w.currentChannelName_ ++ qs "..."),
             .reconnectTimerStart (800 + (w.reconnectAttemptCount_ + 1) * 900)] } := by
  unfold scheduleReconnect
  by_cases h1 : w.currentChannelName_ = [] <;> by_cases h2 : w.userStoppedWatching_ = true
    <;> by_cases h3 : maxReconnectAttempts_ ≤ w.reconnectAttemptCount_
    <;> simp [h1, h2, h3, appendLog, statusMessage, record, reconnectTimerStart]

/-- Whether `persistChannelsFile` gets as far as naming the channels file. -/
theorem persistChannelsFile_eq (env : Env) (w : MainWindow) :
    persistChannelsFile env w =
      if w.channelLines_ = [] then (false, w)
      else if env.appDataPath = [] then
        (false, { w with trace := w.trace ++
          [.appendLog (qs "Could not resolve app data directory for channels list.")] })
      else if env.dirExists = false ∧ env.mkpathOk = false then
        (false, { w with trace := w.trace ++
          [.appendLog (qs "Could not create app data directory: " ++ env.appDataPath)] })
      else if env.canWriteChannelsFile = false then
        (false, { w with
          channelsFilePath_ := filePath env.appDataPath (qs "channels.conf")
          trace := w.trace ++ [.appendLog (qs "Could not write channels file: "
            ++ filePath env.appDataPath (qs "channels.conf"))] })
      else
        (true, { w with
          channelsFilePath_ := filePath env.appDataPath (qs "channels.conf")
          disk := (filePath env.appDataPath (qs "channels.conf"),
            channelsFileText w.channelLines_) :: w.disk
          trace := w.trace ++ [.appendLog (qs "Channels saved: "
            ++ filePath env.appDataPath (qs "channels.conf"))] }) := by
  unfold persistChannelsFile
  by_cases h1 : w.channelLines_ = [] <;> by_cases h2 : env.appDataPath = []
    <;> cases h3 : env.dirExists <;> cases h4 : env.mkpathOk
    <;> cases h5 : env.canWriteChannelsFile
    <;> simp [h1, h2, h3, h4, h5, appendLog, record]

/-- The session and the recovery effects are what `persistChannelsFile` leaves alone. -/
theorem persistChannelsFile_frame (env : Env) (w : MainWindow) :
    ∃ path disk log,
      (persistChannelsFile env w).2 =
        { w with channelsFilePath_ := path, disk := disk, trace := w.trace ++ log } ∧
      ∀ e ∈ log, e.isRecovery = false := by
  rw [persistChannelsFile_eq]
  split_ifs
  · exact ⟨w.channelsFilePath_, w.disk, [], by simp, by simp⟩
  · exact ⟨w.channelsFilePath_, w.disk, _, rfl, by simp [Effect.isRecovery]⟩
  · exact ⟨w.channelsFilePath_, w.disk, _, rfl, by simp [Effect.isRecovery]⟩
  · exact ⟨_, w.disk, _, rfl, by simp [Effect.isRecovery]⟩
  · exact ⟨_, _, _, rfl, by simp [Effect.isRecovery]⟩

theorem prepareWatch_eq (r : Bool) (w : MainWindow) :
    prepareWatch r w =
      { w with
        userStoppedWatching_ := false
        reconnectTimer_ := none
        reconnectAttemptCount_ := if r then w.reconnectAttemptCount_ else 0
        useResilientBridgeMode_ := r && w.useResilientBridgeMode_
        resilientBridgeTried_ := r && w.resilientBridgeTried_
        streamBridgeProcess_ := .NotRunning
        suppressBridgeExitReconnect_ :=
          decide (w.streamBridgeProcess_ = .NotRunning) && w.suppressBridgeExitReconnect_
        zapProcess_ := .NotRunning
        suppressZapExitReconnect_ :=
          decide (w.zapProcess_ = .NotRunning) && w.suppressZapExitReconnect_
        playerPlaying := false
        playerSource := .empty
        trace := w.trace ++ [.reconnectTimerStop] } := by
  unfold prepareWatch
  cases r <;>
    simp [stopBridgeSuppressed_eq, stopZapSuppressed_eq, reconnectTimerStop, record,
      playerStopAndClear]

theorem awaitDvr_eq (env : Env) (name : QString) (w : MainWindow) :
    awaitDvr env name w =
      { w with
        currentChannelName_ := name
        currentProgramId_ := programIdForChannel env { w with currentChannelName_ := name } name
        pendingDvrPath_ := dvrPathFor w.adapterSpin_
        waitingForDvrReady_ := true
        dvrReadyShots := w.dvrReadyShots ++ [dvrPathFor w.adapterSpin_]
        stopWatchButtonEnabled := true
        trace := w.trace ++
          [.appendLog (qs "Tuning channel: " ++ name ++ qs " (program="
            ++ (if (programIdForChannel env { w with currentChannelName_ := name } name).isEmpty
                then qs "unknown"
                else programIdForChannel env { w with currentChannelName_ := name } name)
            ++ qs ")"),
           .statusMessage (qs "Watching: " ++ name)] } := by
  unfold awaitDvr
  simp [appendLog, statusMessage, record]

theorem startZap_eq (env : Env) (name : QString) (w : MainWindow) :
    startZap env name w =
      (env.zapStarted.ok,
        { w with
          zapProcess_ := env.zapStarted.state
          trace := w.trace ++ [.zapStart env.zapExe (zapArguments w name)] }) := by
  unfold startZap
  simp [record, zapArguments]

theorem startWatchingChannel_eq (env : Env) (name : QString) (r : Bool) (w : MainWindow) :
    startWatchingChannel env name r w =
      if name = [] then (false, record (.enterStartWatchingChannel name r) w)
      else if (persistChannelsFile env (record (.enterStartWatchingChannel name r) w)).1 = false then
        (false, messageBox (qs "No channel list")
          (persistChannelsFile env (record (.enterStartWatchingChannel name r) w)).2)
      else if env.zapExe = [] then
        (false, messageBox (qs "Missing dependency")
          (persistChannelsFile env (record (.enterStartWatchingChannel name r) w)).2)
      else if env.zapStarted.ok = false then
        (false, scheduleReconnect (qs "Failed to start tuner process")
          (appendLog (qs "Failed to start dvbv5-zap for " ++ name)
            (startZap env name (prepareWatch r
              (persistChannelsFile env (record (.enterStartWatchingChannel name r) w)).2)).2))
      else
        (true, awaitDvr env name
          (startZap env name (prepareWatch r
            (persistChannelsFile env (record (.enterStartWatchingChannel name r) w)).2)).2) := by
  unfold startWatchingChannel
  rcases hq : persistChannelsFile env (record (.enterStartWatchingChannel name r) w) with ⟨ok, w1⟩
  by_cases hn : name = []
  · simp [hn]
  · cases ok
    · simp [hn, hq]
    · by_cases hz : env.zapExe = []
      · simp [hn, hz, hq]
      · cases hs : env.zapStarted <;> simp [hn, hz, hs, hq, startZap, StartOutcome.ok]


/-- The three shapes of the result of `startWatchingChannel`: an early exit that
touches neither the session nor the recovery effects but for the call mark; a lock
process that did not start, followed by `scheduleReconnect`; a lock process that
started. -/
theorem startWatchingChannel_summary (env : Env) (name : QString) (r : Bool) (w : MainWindow) :
    ∃ path disk log,
      (∀ e ∈ log, e.isRecovery = false) ∧
      (startWatchingChannel env name r w =
          (false, { w with
            channelsFilePath_ := path
            disk := disk
            trace := w.trace ++ .enterStartWatchingChannel name r :: log }) ∨
        (name ≠ [] ∧ env.zapStarted.ok = false ∧
          startWatchingChannel env name r w =
            (false, scheduleReconnect (qs "Failed to start tuner process")
              { w with
                channelsFilePath_ := path
                disk := disk
                userStoppedWatching_ := false
                reconnectTimer_ := none
                reconnectAttemptCount_ := bif r then w.reconnectAttemptCount_ else 0
                useResilientBridgeMode_ := r && w.useResilientBridgeMode_
                resilientBridgeTried_ := r && w.resilientBridgeTried_
                streamBridgeProcess_ := .NotRunning
                suppressBridgeExitReconnect_ :=
                  decide (w.streamBridgeProcess_ = .NotRunning) && w.suppressBridgeExitReconnect_
                zapProcess_ := env.zapStarted.state
                suppressZapExitReconnect_ :=
                  decide (w.zapProcess_ = .NotRunning) && w.suppressZapExitReconnect_
                playerPlaying := false
                playerSource := .empty
                trace := w.trace ++ .enterStartWatchingChannel name r :: log })) ∨
        (name ≠ [] ∧ env.zapStarted = .started ∧ ∃ programId,
          startWatchingChannel env name r w =
            (true, { w with
                channelsFilePath_ := path
                disk := disk
                userStoppedWatching_ := false
                reconnectTimer_ := none
                reconnectAttemptCount_ := bif r then w.reconnectAttemptCount_ else 0
                useResilientBridgeMode_ := r && w.useResilientBridgeMode_
                resilientBridgeTried_ := r && w.resilientBridgeTried_
                streamBridgeProcess_ := .NotRunning
                suppressBridgeExitReconnect_ :=
                  decide (w.streamBridgeProcess_ = .NotRunning) && w.suppressBridgeExitReconnect_
                zapProcess_ := .Running
                suppressZapExitReconnect_ :=
                  decide (w.zapProcess_ = .NotRunning) && w.suppressZapExitReconnect_
                playerPlaying := false
                playerSource := .empty
                currentChannelName_ := name
                currentProgramId_ := programId
                pendingDvrPath_ := dvrPathFor w.adapterSpin_
                waitingForDvrReady_ := true
                dvrReadyShots := w.dvrReadyShots ++ [dvrPathFor w.adapterSpin_]
                stopWatchButtonEnabled := true
                trace := w.trace ++ .enterStartWatchingChannel name r :: log }))) := by
  rw [startWatchingChannel_eq]
  obtain ⟨path, disk, log, hw1, hlog⟩ :=
    persistChannelsFile_frame env (record (.enterStartWatchingChannel name r) w)
  rw [hw1]
  by_cases hn : name = []
  · rw [if_pos hn]
    exact ⟨w.channelsFilePath_, w.disk, [], by simp, Or.inl (by simp [record])⟩
  rw [if_neg hn]
  by_cases hp : (persistChannelsFile env (record (.enterStartWatchingChannel name r) w)).1 = false
  · rw [if_pos hp]
    exact ⟨path, disk, log ++ [.messageBox (qs "No channel list")],
      by simpa [Effect.isRecovery, or_imp, forall_and] using hlog,
      Or.inl (by simp [record, messageBox])⟩
  rw [if_neg hp]
  by_cases hz : env.zapExe = []
  · rw [if_pos hz]
    exact ⟨path, disk, log ++ [.messageBox (qs "Missing dependency")],
      by simpa [Effect.isRecovery, or_imp, forall_and] using hlog,
      Or.inl (by simp [record, messageBox])⟩
  rw [if_neg hz]
  by_cases hs : env.zapStarted.ok = false
  · rw [if_pos hs]
    refine ⟨path, disk, log ++ [.reconnectTimerStop,
      .zapStart env.zapExe (zapArguments { w with channelsFilePath_ := path } name),
      .appendLog (qs "Failed to start dvbv5-zap for " ++ name)],
      by simpa [Effect.isRecovery, or_imp, forall_and] using hlog,
      Or.inr (Or.inl ⟨hn, hs, ?_⟩)⟩
    simp only [prepareWatch_eq, startZap_eq, record, appendLog]
    cases r <;> simp [zapArguments]
  · rw [if_neg hs]
    have hs' : env.zapStarted = .started := by
      cases h : env.zapStarted <;> simp_all [StartOutcome.ok]
    simp only [prepareWatch_eq, startZap_eq, awaitDvr_eq, record, hs', StartOutcome.state]
    generalize programIdForChannel env _ name = pid
    refine ⟨path, disk, log ++ [.reconnectTimerStop,
      .zapStart env.zapExe (zapArguments { w with channelsFilePath_ := path } name),
      .appendLog (qs "Tuning channel: " ++ name ++ qs " (program="
        ++ (if pid.isEmpty then qs "unknown" else pid) ++ qs ")"),
      .statusMessage (qs "Watching: " ++ name)],
      by simpa [Effect.isRecovery, or_imp, forall_and] using hlog,
      Or.inr (Or.inr ⟨hn, trivial, pid, ?_⟩)⟩
    cases r <;> simp [zapArguments]

theorem stopWatching_eq (w : MainWindow) :
    stopWatching w =
      { w with
        userStoppedWatching_ := true
        reconnectTimer_ := none
        reconnectAttemptCount_ := 0
        useResilientBridgeMode_ := false
        resilientBridgeTried_ := false
        currentChannelName_ := []
        currentProgramId_ := []
        pendingDvrPath_ := []
        waitingForDvrReady_ := false
        playerPlaying := false
        playerSource := .empty
        dvrStream_ := none
        streamBridgeProcess_ := .NotRunning
        suppressBridgeExitReconnect_ :=
          decide (w.streamBridgeProcess_ = .NotRunning) && w.suppressBridgeExitReconnect_
        zapProcess_ := .NotRunning
        suppressZapExitReconnect_ :=
          decide (w.zapProcess_ = .NotRunning) && w.suppressZapExitReconnect_
        stopWatchButtonEnabled := false
        trace := w.trace ++ (.reconnectTimerStop ::
          if w.scanProcess_ = .NotRunning then [.statusMessage (qs "Ready")] else []) } := by
  unfold stopWatching
  simp only [stopBridgeSuppressed_eq, stopZapSuppressed_eq, releaseDvrStream_eq, reconnectTimerStop,
    record, playerStopAndClear, statusMessage]
  split_ifs <;> simp

theorem tryDynamicBridgeFallback_eq (env : Env) (reason : QString) (w : MainWindow) :
    tryDynamicBridgeFallback env reason w =
      if w.currentChannelName_ ≠ [] ∧ w.userStoppedWatching_ = false ∧
          w.useResilientBridgeMode_ = false ∧ w.resilientBridgeTried_ = false then
        (true, (startWatchingChannel env w.currentChannelName_ true
          { w with
            resilientBridgeTried_ := true
            useResilientBridgeMode_ := true
            reconnectTimer_ := none
            reconnectAttemptCount_ := 0
            trace := w.trace ++ [.reconnectTimerStop, .dynamicBridgeFallback reason,
              .appendLog (qs "player: " ++ reason ++ qs "; retrying with resilient bridge mode")] }).2)
      else (false, w) := by
  unfold tryDynamicBridgeFallback
  by_cases h1 : w.userStoppedWatching_ = true <;> by_cases h2 : w.currentChannelName_ = []
    <;> by_cases h3 : w.resilientBridgeTried_ = true
    <;> by_cases h4 : w.useResilientBridgeMode_ = true
    <;> simp [h1, h2, h3, h4, reconnectTimerStop, record, appendLog]

theorem preparePlayback_eq (w : MainWindow) :
    preparePlayback w =
      { w with
        waitingForDvrReady_ := false
        pendingDvrPath_ := []
        dvrStream_ := none
        streamBridgeProcess_ := .NotRunning
        suppressBridgeExitReconnect_ :=
          decide (w.streamBridgeProcess_ = .NotRunning) && w.suppressBridgeExitReconnect_ } := by
  unfold preparePlayback
  simp [releaseDvrStream_eq, stopBridgeSuppressed_eq]

theorem startBridge_eq (env : Env) (dvrPath : QString) (w : MainWindow) :
    startBridge env dvrPath w =
      (env.bridgeStarted.ok,
        { w with
          streamBridgeProcess_ := env.bridgeStarted.state
          trace := w.trace ++ [.bridgeStart env.ffmpegExe (ffmpegArguments w dvrPath)] }) := by
  unfold startBridge
  simp [record, ffmpegArguments]

theorem startPlaybackFromDvr_eq (env : Env) (dvrPath : QString) (w : MainWindow) :
    startPlaybackFromDvr env dvrPath w =
      if dvrPath = [] then record (.enterStartPlaybackFromDvr dvrPath) w
      else if env.ffmpegExe = [] then
        scheduleReconnect (qs "Missing ffmpeg for live stream")
          (appendLog (qs "player: ffmpeg not found in PATH for live DVB bridge.")
            (preparePlayback (record (.enterStartPlaybackFromDvr dvrPath) w)))
      else if env.bridgeStarted.ok = false then
        scheduleReconnect (qs "Could not start ffmpeg bridge")
          (appendLog (qs "player: Failed to start ffmpeg bridge for " ++ dvrPath)
            (startBridge env dvrPath
              (preparePlayback (record (.enterStartPlaybackFromDvr dvrPath) w))).2)
      else
        scheduleAttach dvrPath
          (startBridge env dvrPath
            (preparePlayback (record (.enterStartPlaybackFromDvr dvrPath) w))).2 := by
  unfold startPlaybackFromDvr
  by_cases hn : dvrPath = []
  · simp [hn]
  · by_cases hz : env.ffmpegExe = []
    · simp [hn, hz]
    · cases hs : env.bridgeStarted <;> simp [hn, hz, hs, startBridge, StartOutcome.ok]

/-- The three shapes of the result of `startPlaybackFromDvr`: nothing but the call
mark for an empty path; a bridge that did not start, followed by `scheduleReconnect`;
a bridge that started, with its attach callback pending. -/
theorem startPlaybackFromDvr_summary (env : Env) (dvrPath : QString) (w : MainWindow) :
    ∃ log state shots,
      (∀ e ∈ log, e.isRecovery = false) ∧
      (startPlaybackFromDvr env dvrPath w =
          { w with trace := w.trace ++ [.enterStartPlaybackFromDvr dvrPath] } ∨
        (dvrPath ≠ [] ∧ ∃ reason,
          startPlaybackFromDvr env dvrPath w =
            scheduleReconnect reason
              { w with
                waitingForDvrReady_ := false
                pendingDvrPath_ := []
                dvrStream_ := none
                streamBridgeProcess_ := state
                suppressBridgeExitReconnect_ :=
                  decide (w.streamBridgeProcess_ = .NotRunning) && w.suppressBridgeExitReconnect_
                trace := w.trace ++ .enterStartPlaybackFromDvr dvrPath :: log }) ∨
        (dvrPath ≠ [] ∧
          startPlaybackFromDvr env dvrPath w =
            { w with
              waitingForDvrReady_ := false
              pendingDvrPath_ := []
              dvrStream_ := none
              streamBridgeProcess_ := .Running
              suppressBridgeExitReconnect_ :=
                decide (w.streamBridgeProcess_ = .NotRunning) && w.suppressBridgeExitReconnect_
              attachShots := shots
              trace := w.trace ++ .enterStartPlaybackFromDvr dvrPath :: log })) := by
  rw [startPlaybackFromDvr_eq]
  by_cases hn : dvrPath = []
  · rw [if_pos hn]
    exact ⟨[], w.streamBridgeProcess_, w.attachShots, by simp, Or.inl (by simp [record])⟩
  rw [if_neg hn]
  by_cases hz : env.ffmpegExe = []
  · rw [if_pos hz]
    refine ⟨[.appendLog (qs "player: ffmpeg not found in PATH for live DVB bridge.")],
      .NotRunning, w.attachShots, by simp [Effect.isRecovery],
      Or.inr (Or.inl ⟨hn, qs "Missing ffmpeg for live stream", ?_⟩)⟩
    simp only [preparePlayback_eq, record, appendLog]
    simp
  rw [if_neg hz]
  by_cases hs : env.bridgeStarted.ok = false
  · rw [if_pos hs]
    refine ⟨[.bridgeStart env.ffmpegExe (ffmpegArguments
        { w with waitingForDvrReady_ := false, pendingDvrPath_ := [] } dvrPath),
      .appendLog (qs "player: Failed to start ffmpeg bridge for " ++ dvrPath)],
      env.bridgeStarted.state, w.attachShots, by simp [Effect.isRecovery],
      Or.inr (Or.inl ⟨hn, qs "Could not start ffmpeg bridge", ?_⟩)⟩
    simp only [preparePlayback_eq, startBridge_eq, record, appendLog]
    simp [ffmpegArguments]
  · rw [if_neg hs]
    have hs' : env.bridgeStarted = .started := by
      cases h : env.bridgeStarted <;> simp_all [StartOutcome.ok]
    refine ⟨[.bridgeStart env.ffmpegExe (ffmpegArguments
        { w with waitingForDvrReady_ := false, pendingDvrPath_ := [] } dvrPath),
      .appendLog (qs "player: Starting playback from ffmpeg bridge on " ++ dvrPath
        ++ qs " via udp://127.0.0.1:" ++ number (23000 + w.adapterSpin_ : Nat) ++ qs " (mode="
        ++ (if w.useResilientBridgeMode_ then qs "resilient" else qs "normal")
        ++ qs ", program="
        ++ (if w.currentProgramId_.isEmpty then qs "unknown" else w.currentProgramId_)
        ++ qs ")")],
      .Running, w.attachShots ++ [23000 + w.adapterSpin_], by simp [Effect.isRecovery],
      Or.inr (Or.inr ⟨hn, ?_⟩)⟩
    simp only [preparePlayback_eq, startBridge_eq, scheduleAttach, record, appendLog, hs',
      StartOutcome.state]
    simp [ffmpegArguments]

/-! ## Observations of traces -/

theorem watchCalls_append (t u : List Effect) :
    watchCalls (t ++ u) = watchCalls t ++ watchCalls u := by
  simp [watchCalls]

theorem playbackCalls_append (t u : List Effect) :
    playbackCalls (t ++ u) = playbackCalls t ++ playbackCalls u := by
  simp [playbackCalls]

theorem timerStarts_append (t u : List Effect) :
    timerStarts (t ++ u) = timerStarts t ++ timerStarts u := by
  simp [timerStarts]

theorem fallbacksTaken_append (t u : List Effect) :
    fallbacksTaken (t ++ u) = fallbacksTaken t + fallbacksTaken u := by
  simp [fallbacksTaken]

/-- A list without recovery effects shows nothing to the four observations. -/
theorem observations_of_no_recovery {log : List Effect} (h : ∀ e ∈ log, e.isRecovery = false) :
    watchCalls log = [] ∧ playbackCalls log = [] ∧ timerStarts log = [] ∧
      fallbacksTaken log = 0 := by
  induction log with
  | nil => simp [watchCalls, playbackCalls, timerStarts, fallbacksTaken]
  | cons e rest ih =>
    have he : e.isRecovery = false := h e (by simp)
    have hrest := ih (fun x hx => h x (by simp [hx]))
    clear h ih
    unfold watchCalls playbackCalls timerStarts fallbacksTaken at *
    obtain ⟨h1, h2, h3, h4⟩ := hrest
    cases e <;> simp [Effect.isRecovery] at he <;>
      simp [List.filterMap_cons, List.countP_cons, h1, h2, h3, h4]

theorem watchCalls_with_log {t log : List Effect} (h : ∀ e ∈ log, e.isRecovery = false) :
    watchCalls (t ++ log) = watchCalls t := by
  rw [watchCalls_append, (observations_of_no_recovery h).1, List.append_nil]

theorem playbackCalls_with_log {t log : List Effect} (h : ∀ e ∈ log, e.isRecovery = false) :
    playbackCalls (t ++ log) = playbackCalls t := by
  rw [playbackCalls_append, (observations_of_no_recovery h).2.1, List.append_nil]

theorem timerStarts_with_log {t log : List Effect} (h : ∀ e ∈ log, e.isRecovery = false) :
    timerStarts (t ++ log) = timerStarts t := by
  rw [timerStarts_append, (observations_of_no_recovery h).2.2.1, List.append_nil]

theorem fallbacksTaken_with_log {t log : List Effect} (h : ∀ e ∈ log, e.isRecovery = false) :
    fallbacksTaken (t ++ log) = fallbacksTaken t := by
  rw [fallbacksTaken_append, (observations_of_no_recovery h).2.2.2, Nat.add_zero]

/-! ## Quiet steps -/

theorem Quiet.same (w : MainWindow) : Quiet w w :=
  ⟨rfl, [], by simp, by simp⟩

theorem Quiet.andThen {a b c : MainWindow} (h1 : Quiet a b) (h2 : Quiet b c) : Quiet a c := by
  obtain ⟨hs1, l1, ht1, hl1⟩ := h1
  obtain ⟨hs2, l2, ht2, hl2⟩ := h2
  refine ⟨hs2.trans hs1, l1 ++ l2, by rw [ht2, ht1, List.append_assoc], ?_⟩
  intro e he
  rcases List.mem_append.mp he with h | h
  · exact hl1 e h
  · exact hl2 e h

/-- The fields of the session of a quiet step. -/
theorem Quiet.fields {w w' : MainWindow} (h : Quiet w w') :
    w'.currentChannelName_ = w.currentChannelName_ ∧
    w'.waitingForDvrReady_ = w.waitingForDvrReady_ ∧
    w'.reconnectAttemptCount_ = w.reconnectAttemptCount_ ∧
    w'.userStoppedWatching_ = w.userStoppedWatching_ ∧
    w'.useResilientBridgeMode_ = w.useResilientBridgeMode_ ∧
    w'.resilientBridgeTried_ = w.resilientBridgeTried_ ∧
    w'.reconnectTimer_ = w.reconnectTimer_ := by
  have hs := h.1
  simp only [MainWindow.session, Session.mk.injEq] at hs
  tauto

theorem Quiet.observations {w w' : MainWindow} (h : Quiet w w') :
    watchCalls w'.trace = watchCalls w.trace ∧
    playbackCalls w'.trace = playbackCalls w.trace ∧
    timerStarts w'.trace = timerStarts w.trace ∧
    fallbacksTaken w'.trace = fallbacksTaken w.trace := by
  obtain ⟨-, log, ht, hl⟩ := h
  rw [ht]
  exact ⟨watchCalls_with_log hl, playbackCalls_with_log hl, timerStarts_with_log hl,
    fallbacksTaken_with_log hl⟩

/-- A step that changes neither a session field nor the trace is quiet. -/
theorem quiet_of_same {w v : MainWindow} (hs : v.session = w.session)
    (ht : v.trace = w.trace) : Quiet w v :=
  ⟨hs, [], by simp [ht], by simp⟩

theorem quiet_record {e : Effect} (he : e.isRecovery = false) (w : MainWindow) :
    Quiet w (record e w) :=
  ⟨rfl, [e], rfl, by simpa using he⟩

theorem quiet_appendLog (line : QString) (w : MainWindow) : Quiet w (appendLog line w) :=
  quiet_record (e := .appendLog line) rfl w

theorem quiet_statusMessage (text : QString) (w : MainWindow) :
    Quiet w (statusMessage text w) :=
  quiet_record (e := .statusMessage text) rfl w

theorem quiet_messageBox (title : QString) (w : MainWindow) : Quiet w (messageBox title w) :=
  quiet_record (e := .messageBox title) rfl w

theorem quiet_persistChannelsFile (env : Env) (w : MainWindow) :
    Quiet w (persistChannelsFile env w).2 := by
  obtain ⟨path, disk, log, h, hl⟩ := persistChannelsFile_frame env w
  rw [h]
  exact ⟨rfl, log, rfl, hl⟩

theorem quiet_parseAndStoreLine (line : QString) (w : MainWindow) :
    Quiet w (parseAndStoreLine line w) := by
  unfold parseAndStoreLine
  simp only
  split_ifs <;> exact (quiet_of_same rfl rfl)

theorem quiet_foldl {α : Type} (f : MainWindow → α → MainWindow)
    (hf : ∀ w x, Quiet w (f w x)) (l : List α) (w : MainWindow) : Quiet w (l.foldl f w) := by
  induction l generalizing w with
  | nil => exact Quiet.same w
  | cons x rest ih => exact (hf w x).andThen (ih (f w x))

theorem quiet_appendStdOut (chunk : QString) (w : MainWindow) :
    Quiet w (appendStdOut chunk w) := by
  unfold appendStdOut
  refine Quiet.andThen (b := { w with partialStdOut_ :=
    (split '\n' (w.partialStdOut_ ++ chunk)).getLast?.getD [] }) (quiet_of_same rfl rfl) ?_
  apply quiet_foldl
  intro w x
  unfold handleStdOutLine
  simp only
  split_ifs
  · exact (quiet_appendLog _ w).andThen (quiet_parseAndStoreLine _ _)
  · exact Quiet.same w

theorem quiet_handleStdErr (chunk : QString) (w : MainWindow) :
    Quiet w (handleStdErr chunk w) := by
  unfold handleStdErr
  refine Quiet.andThen (b := { w with partialStdErr_ :=
    (split '\n' (w.partialStdErr_ ++ chunk)).getLast?.getD [] }) (quiet_of_same rfl rfl) ?_
  apply quiet_foldl
  intro w x
  unfold handleStdErrLine
  simp only
  split_ifs
  · exact quiet_appendLog _ w
  · exact Quiet.same w

theorem quiet_processFinished (env : Env) (exitCode : Int) (w : MainWindow) :
    Quiet w (processFinished env exitCode w) := by
  unfold processFinished
  have h1 : Quiet w
      (if !(trimmed w.partialStdOut_).isEmpty then
        { parseAndStoreLine (trimmed w.partialStdOut_) (appendLog (trimmed w.partialStdOut_) w)
          with partialStdOut_ := [] }
      else w) := by
    split_ifs
    · have ha := quiet_appendLog (trimmed w.partialStdOut_) w
      have hb := quiet_parseAndStoreLine (trimmed w.partialStdOut_)
        (appendLog (trimmed w.partialStdOut_) w)
      exact (ha.andThen hb).andThen (quiet_of_same rfl rfl)
    · exact Quiet.same w
  have h2 : ∀ v : MainWindow, Quiet v
      (if !(trimmed v.partialStdErr_).isEmpty then
        { appendLog (qs "stderr: " ++ trimmed v.partialStdErr_) v with partialStdErr_ := [] }
      else v) := by
    intro v
    split_ifs
    · exact (quiet_appendLog (qs "stderr: " ++ trimmed v.partialStdErr_) v).andThen
        (quiet_of_same rfl rfl)
    · exact Quiet.same v
  refine (h1.andThen (h2 _)).andThen ?_
  refine (quiet_persistChannelsFile env _).andThen ?_
  exact (quiet_appendLog _ _).andThen (quiet_statusMessage _ _)

theorem quiet_stopScan (w : MainWindow) : Quiet w (stopScan w) := by
  unfold stopScan
  split_ifs
  · exact Quiet.same w
  · exact quiet_appendLog _ w

theorem quiet_addSelectedFavorite (row : Option Nat) (w : MainWindow) :
    Quiet w (addSelectedFavorite row w) := by
  unfold addSelectedFavorite
  simp only
  split_ifs
  · exact quiet_messageBox _ w
  · exact Quiet.same w
  · exact (quiet_of_same rfl rfl)

theorem quiet_removeSelectedFavorite (row : Option Nat) (w : MainWindow) :
    Quiet w (removeSelectedFavorite row w) := by
  unfold removeSelectedFavorite
  simp only
  split_ifs <;> exact (quiet_of_same rfl rfl)

theorem quiet_lateStart (process : Proc) (ok : Bool) (w : MainWindow) :
    Quiet w (lateStart process ok w) := by
  unfold lateStart
  cases process <;> exact (quiet_of_same rfl rfl)

theorem quiet_attachLiveStream (udpPort : Nat) (w : MainWindow) :
    Quiet w (attachLiveStream udpPort w) := by
  unfold attachLiveStream
  split_ifs
  · exact quiet_appendLog _ w
  · exact (quiet_appendLog _ w).andThen (quiet_of_same rfl rfl)

/-! ## Steady steps -/

theorem Steady.stay (w : MainWindow) : Steady w w :=
  ⟨id, rfl, rfl, rfl⟩

theorem Steady.next {a b c : MainWindow} (h1 : Steady a b) (h2 : Steady b c) : Steady a c :=
  ⟨fun h => h2.countInRange (h1.countInRange h), h2.tried.trans h1.tried,
    h2.resilient.trans h1.resilient, h2.fallbacks.trans h1.fallbacks⟩

theorem Quiet.steady {w w' : MainWindow} (h : Quiet w w') : Steady w w' := by
  obtain ⟨-, -, h3, -, h5, h6, -⟩ := h.fields
  refine ⟨?_, h6, h5, h.observations.2.2.2⟩
  unfold CountInRange
  rw [h3]
  exact id

theorem steady_scheduleReconnect (reason : QString) (w : MainWindow) :
    Steady w (scheduleReconnect reason w) := by
  rw [scheduleReconnect_eq]
  split_ifs with h1 h2
  · exact Steady.stay w
  · refine ⟨id, rfl, rfl, ?_⟩
    simp [fallbacksTaken]
  · refine ⟨?_, rfl, rfl, ?_⟩
    · unfold CountInRange at *
      simp only [maxReconnectAttempts_] at *
      intro h
      constructor <;> omega
    · simp [fallbacksTaken]

/-- A reconnect attempt of `startWatchingChannel` is steady. -/
theorem steady_startWatchingChannel_reconnect (env : Env) (name : QString) (w : MainWindow) :
    Steady w (startWatchingChannel env name true w).2 := by
  obtain ⟨path, disk, log, hlog, h | ⟨-, -, h⟩ | ⟨-, -, pid, h⟩⟩ :=
    startWatchingChannel_summary env name true w
  · rw [h]
    refine ⟨id, rfl, rfl, ?_⟩
    have := fallbacksTaken_with_log (t := w.trace ++ [.enterStartWatchingChannel name true]) hlog
    simp only [List.append_assoc, List.singleton_append] at this
    simp only [this, fallbacksTaken_append]
    simp [fallbacksTaken]
  · rw [h]
    refine Steady.next ?_ (steady_scheduleReconnect _ _)
    refine ⟨id, by simp, by simp, ?_⟩
    have := fallbacksTaken_with_log (t := w.trace ++ [.enterStartWatchingChannel name true]) hlog
    simp only [List.append_assoc, List.singleton_append] at this
    simp only [this, fallbacksTaken_append]
    simp [fallbacksTaken]
  · rw [h]
    refine ⟨id, by simp, by simp, ?_⟩
    have := fallbacksTaken_with_log (t := w.trace ++ [.enterStartWatchingChannel name true]) hlog
    simp only [List.append_assoc, List.singleton_append] at this
    simp only [this, fallbacksTaken_append]
    simp [fallbacksTaken]

/-- Every call of `startWatchingChannel` keeps the counter within its bound. -/
theorem countInRange_startWatchingChannel (env : Env) (name : QString) (r : Bool)
    (w : MainWindow) (hw : CountInRange w) :
    CountInRange (startWatchingChannel env name r w).2 := by
  obtain ⟨path, disk, log, hlog, h | ⟨-, -, h⟩ | ⟨-, -, pid, h⟩⟩ :=
    startWatchingChannel_summary env name r w
  · rw [h]
    exact hw
  · rw [h]
    apply (steady_scheduleReconnect _ _).countInRange
    unfold CountInRange at *
    cases r <;> first | exact hw | simp [maxReconnectAttempts_]
  · rw [h]
    unfold CountInRange at *
    cases r <;> first | exact hw | simp [maxReconnectAttempts_]

theorem steady_startPlaybackFromDvr (env : Env) (dvrPath : QString) (w : MainWindow) :
    Steady w (startPlaybackFromDvr env dvrPath w) := by
  obtain ⟨log, state, shots, hlog, h | ⟨-, reason, h⟩ | ⟨-, h⟩⟩ :=
    startPlaybackFromDvr_summary env dvrPath w
  · rw [h]
    refine ⟨id, rfl, rfl, ?_⟩
    simp [fallbacksTaken]
  · rw [h]
    refine Steady.next ?_ (steady_scheduleReconnect _ _)
    refine ⟨id, rfl, rfl, ?_⟩
    have := fallbacksTaken_with_log (t := w.trace ++ [.enterStartPlaybackFromDvr dvrPath]) hlog
    simp only [List.append_assoc, List.singleton_append] at this
    simp only [this, fallbacksTaken_append]
    simp [fallbacksTaken]
  · rw [h]
    refine ⟨id, rfl, rfl, ?_⟩
    have := fallbacksTaken_with_log (t := w.trace ++ [.enterStartPlaybackFromDvr dvrPath]) hlog
    simp only [List.append_assoc, List.singleton_append] at this
    simp only [this, fallbacksTaken_append]
    simp [fallbacksTaken]

/-! ## Automatic steps -/

theorem Auto.idle (w : MainWindow) : Auto w w :=
  ⟨id, le_rfl, Nat.le_succ _, fun h => absurd h (lt_irrefl _), fun h => ⟨h, rfl⟩,
    fun h => ⟨h, rfl, rfl⟩, fun h => ⟨h, rfl, rfl⟩⟩

theorem Auto.followedBy {a b c : MainWindow} (h1 : Auto a b) (h2 : Auto b c) : Auto a c := by
  refine ⟨fun h => h2.countInRange (h1.countInRange h),
    le_trans h1.fallbacksMono h2.fallbacksMono, ?_, ?_, ?_, ?_, ?_⟩
  · by_cases h : fallbacksTaken a.trace < fallbacksTaken b.trace
    · have := (h2.escalatedKeeps (h1.escalatedOfFallback h)).2
      rw [this]
      exact h1.fallbacksLe
    · have hab : fallbacksTaken b.trace = fallbacksTaken a.trace :=
        le_antisymm (not_lt.mp h) h1.fallbacksMono
      rw [← hab]
      exact h2.fallbacksLe
  · intro hlt
    by_cases h : fallbacksTaken a.trace < fallbacksTaken b.trace
    · exact (h2.escalatedKeeps (h1.escalatedOfFallback h)).1
    · have hab : fallbacksTaken b.trace = fallbacksTaken a.trace :=
        le_antisymm (not_lt.mp h) h1.fallbacksMono
      exact h2.escalatedOfFallback (by rw [hab]; exact hlt)
  · intro h
    obtain ⟨hb, hfb⟩ := h1.escalatedKeeps h
    obtain ⟨hc, hfc⟩ := h2.escalatedKeeps hb
    exact ⟨hc, hfc.trans hfb⟩
  · intro h
    obtain ⟨hb, hwb, htb⟩ := h1.exhaustedKeeps h
    obtain ⟨hc, hwc, htc⟩ := h2.exhaustedKeeps hb
    exact ⟨hc, hwc.trans hwb, htc.trans htb⟩
  · intro h
    obtain ⟨hb, hwb, hpb⟩ := h1.stoppedKeeps h
    obtain ⟨hc, hwc, hpc⟩ := h2.stoppedKeeps hb
    exact ⟨hc, hwc.trans hwb, hpc.trans hpb⟩

/-- A steady step is automatic once it keeps the exhausted and the stopped states. -/
theorem Steady.autoOf {w v : MainWindow} (h : Steady w v)
    (hex : Exhausted w → Exhausted v ∧ watchCalls v.trace = watchCalls w.trace ∧
      timerStarts v.trace = timerStarts w.trace)
    (hst : StoppedByUser w → StoppedByUser v ∧ watchCalls v.trace = watchCalls w.trace ∧
      playbackCalls v.trace = playbackCalls w.trace) : Auto w v := by
  refine ⟨h.countInRange, h.fallbacks.ge, by rw [h.fallbacks]; exact Nat.le_succ _, ?_, ?_,
    hex, hst⟩
  · intro hlt
    rw [h.fallbacks] at hlt
    exact absurd hlt (lt_irrefl _)
  · intro he
    refine ⟨?_, h.fallbacks⟩
    unfold Escalated at *
    rw [h.tried, h.resilient]
    exact he

theorem Quiet.toAuto {w v : MainWindow} (h : Quiet w v) : Auto w v := by
  obtain ⟨-, h2, h3, h4, h5, h6, h7⟩ := h.fields
  obtain ⟨o1, o2, o3, -⟩ := h.observations
  refine h.steady.autoOf ?_ ?_
  · intro hex
    refine ⟨?_, o1, o3⟩
    unfold Exhausted Escalated at *
    rw [h3, h5, h6, h7]
    exact hex
  · intro hst
    refine ⟨?_, o1, o2⟩
    unfold StoppedByUser at *
    rw [h2, h4, h7]
    exact hst

theorem auto_scheduleReconnect (reason : QString) (w : MainWindow) :
    Auto w (scheduleReconnect reason w) := by
  refine (steady_scheduleReconnect reason w).autoOf ?_ ?_
  · intro hex
    obtain ⟨h1, h2, h3⟩ := hex
    rw [scheduleReconnect_eq]
    split_ifs with c1
    · exact ⟨⟨h1, h2, h3⟩, rfl, rfl⟩
    · exact ⟨⟨h1, h2, h3⟩, by simp [watchCalls], by simp [timerStarts]⟩
  · intro hst
    have : scheduleReconnect reason w = w := by
      rw [scheduleReconnect_eq, if_pos (Or.inr hst.1)]
    rw [this]
    exact ⟨hst, rfl, rfl⟩

/-- In an exhausted state `startPlaybackFromDvr` calls no watch and arms no timer. -/
theorem exhausted_startPlaybackFromDvr (env : Env) (dvrPath : QString) (w : MainWindow)
    (hex : Exhausted w) :
    Exhausted (startPlaybackFromDvr env dvrPath w) ∧
      watchCalls (startPlaybackFromDvr env dvrPath w).trace = watchCalls w.trace ∧
      timerStarts (startPlaybackFromDvr env dvrPath w).trace = timerStarts w.trace := by
  have hcall : ∀ log : List Effect, (∀ e ∈ log, e.isRecovery = false) →
      watchCalls (w.trace ++ .enterStartPlaybackFromDvr dvrPath :: log) = watchCalls w.trace ∧
      timerStarts (w.trace ++ .enterStartPlaybackFromDvr dvrPath :: log) = timerStarts w.trace := by
    intro log hlog
    have h1 := watchCalls_with_log (t := w.trace ++ [.enterStartPlaybackFromDvr dvrPath]) hlog
    have h2 := timerStarts_with_log (t := w.trace ++ [.enterStartPlaybackFromDvr dvrPath]) hlog
    simp only [List.append_assoc, List.singleton_append] at h1 h2
    rw [h1, h2]
    simp [watchCalls, timerStarts]
  obtain ⟨log, state, shots, hlog, h | ⟨-, reason, h⟩ | ⟨-, h⟩⟩ :=
    startPlaybackFromDvr_summary env dvrPath w
  · rw [h]
    exact ⟨hex, by simp [watchCalls], by simp [timerStarts]⟩
  · rw [h]
    have hmid := (auto_scheduleReconnect reason
      { w with
        waitingForDvrReady_ := false
        pendingDvrPath_ := []
        dvrStream_ := none
        streamBridgeProcess_ := state
        suppressBridgeExitReconnect_ :=
          decide (w.streamBridgeProcess_ = .NotRunning) && w.suppressBridgeExitReconnect_
        trace := w.trace ++ .enterStartPlaybackFromDvr dvrPath :: log }).exhaustedKeeps hex
    obtain ⟨h1, h2, h3⟩ := hmid
    refine ⟨h1, ?_, ?_⟩
    · rw [h2]
      exact (hcall log hlog).1
    · rw [h3]
      exact (hcall log hlog).2
  · rw [h]
    exact ⟨hex, (hcall log hlog).1, (hcall log hlog).2⟩

theorem auto_tryDynamicBridgeFallback (env : Env) (reason : QString) (w : MainWindow) :
    Auto w (tryDynamicBridgeFallback env reason w).2 := by
  rw [tryDynamicBridgeFallback_eq]
  split_ifs with hc
  · obtain ⟨hname, hstop, hres, htried⟩ := hc
    have hs := steady_startWatchingChannel_reconnect env w.currentChannelName_
      { w with
        resilientBridgeTried_ := true
        useResilientBridgeMode_ := true
        reconnectTimer_ := none
        reconnectAttemptCount_ := 0
        trace := w.trace ++ [.reconnectTimerStop, .dynamicBridgeFallback reason,
          .appendLog (qs "player: " ++ reason ++ qs "; retrying with resilient bridge mode")] }
    have hf : fallbacksTaken (startWatchingChannel env w.currentChannelName_ true
      { w with
        resilientBridgeTried_ := true
        useResilientBridgeMode_ := true
        reconnectTimer_ := none
        reconnectAttemptCount_ := 0
        trace := w.trace ++ [.reconnectTimerStop, .dynamicBridgeFallback reason,
          .appendLog (qs "player: " ++ reason ++ qs "; retrying with resilient bridge mode")] }).2.trace
        = fallbacksTaken w.trace + 1 := by
      rw [hs.fallbacks]
      simp [fallbacksTaken]
    refine ⟨?_, ?_, ?_, ?_, ?_, ?_, ?_⟩
    · intro _
      apply hs.countInRange
      simp [CountInRange, maxReconnectAttempts_]
    · rw [hf]
      exact Nat.le_succ _
    · rw [hf]
    · intro _
      exact Or.inl (by rw [hs.tried])
    · intro he
      rcases he with he | he
      · rw [htried] at he
        exact absurd he (by simp)
      · rw [hres] at he
        exact absurd he (by simp)
    · intro he
      rcases he.2.1 with he | he
      · rw [htried] at he
        exact absurd he (by simp)
      · rw [hres] at he
        exact absurd he (by simp)
    · intro hst
      have hu := hst.1
      rw [hstop] at hu
      exact absurd hu (by simp)
  · exact Auto.idle w

/-! ## Closed forms of the failure handlers -/

theorem handleZapFinished_eq (exitCode : Int) (exitStatus : ExitStatus) (w : MainWindow) :
    handleZapFinished exitCode exitStatus w =
      if w.suppressZapExitReconnect_ = false ∧ exitCode ≠ 0 ∧ w.userStoppedWatching_ = false ∧
          w.currentChannelName_ ≠ [] then
        scheduleReconnect (qs "Tuner process exited (" ++ number exitCode ++ qs ")")
          (if exitStatus ≠ .NormalExit then appendLog (qs "zap: tuner process crashed") w else w)
      else (if exitStatus ≠ .NormalExit then appendLog (qs "zap: tuner process crashed") w else w) := by
  unfold handleZapFinished
  cases exitStatus <;> cases h1 : w.suppressZapExitReconnect_ <;>
    cases h2 : w.userStoppedWatching_ <;> by_cases h3 : w.currentChannelName_ = [] <;>
    by_cases h4 : exitCode = 0 <;> simp [h1, h2, h3, h4, appendLog, record]

theorem escalateElseReconnect_eq (env : Env) (r1 r2 : QString) (w : MainWindow) :
    (match tryDynamicBridgeFallback env r1 w with
      | (true, w) => w
      | (false, w) => scheduleReconnect r2 w) = escalateElseReconnect env r1 r2 w := by
  unfold escalateElseReconnect
  rcases tryDynamicBridgeFallback env r1 w with ⟨b, w2⟩
  cases b <;> simp

theorem handleBridgeFinished_eq (env : Env) (exitCode : Int) (status : ExitStatus)
    (w : MainWindow) :
    handleBridgeFinished env exitCode status w =
      if w.suppressBridgeExitReconnect_ = false ∧ w.userStoppedWatching_ = false ∧
          w.currentChannelName_ ≠ [] then
        escalateElseReconnect env (qs "Live stream bridge exited") (qs "Live stream bridge exited")
          (appendLog (qs "ffmpeg bridge exited (code=" ++ number exitCode ++ qs ", status="
            ++ (if status = .NormalExit then qs "normal" else qs "crash") ++ qs ")") w)
      else
        appendLog (qs "ffmpeg bridge exited (code=" ++ number exitCode ++ qs ", status="
          ++ (if status = .NormalExit then qs "normal" else qs "crash") ++ qs ")") w := by
  unfold handleBridgeFinished
  simp only [escalateElseReconnect_eq]
  cases h1 : w.suppressBridgeExitReconnect_ <;> cases h2 : w.userStoppedWatching_ <;>
    by_cases h3 : w.currentChannelName_ = [] <;> simp [h1, h2, h3, appendLog, record]

theorem handleMediaStatusChanged_eq (env : Env) (status : MediaStatus) (w : MainWindow) :
    handleMediaStatusChanged env status w =
      if w.currentChannelName_ ≠ [] ∧ w.userStoppedWatching_ = false ∧ status = .InvalidMedia then
        escalateElseReconnect env (qs "Media stream became invalid")
          (qs "Media stream became invalid")
          (appendLog (qs "player: mediaStatusChanged=" ++ number status.toInt) w)
      else if w.currentChannelName_ ≠ [] ∧ w.userStoppedWatching_ = false ∧
          status = .EndOfMedia then
        escalateElseReconnect env (qs "Media reached unexpected end")
          (qs "Media stream became invalid")
          (appendLog (qs "player: mediaStatusChanged=" ++ number status.toInt) w)
      else appendLog (qs "player: mediaStatusChanged=" ++ number status.toInt) w := by
  unfold handleMediaStatusChanged
  simp only [escalateElseReconnect_eq]
  by_cases h3 : w.currentChannelName_ = []
  · simp [h3, appendLog, record]
  · cases h2 : w.userStoppedWatching_
    · by_cases hi : status = .InvalidMedia
      · subst hi
        simp only [escalateElseReconnect]
        rcases tryDynamicBridgeFallback env (qs "Media stream became invalid")
          (appendLog (qs "player: mediaStatusChanged=" ++ number MediaStatus.InvalidMedia.toInt) w)
          with ⟨b, w2⟩
        cases b <;> simp [h2, h3, appendLog, record]
      · by_cases he : status = .EndOfMedia
        · simp [h2, h3, hi, he, appendLog, record]
        · simp [h2, h3, hi, he, appendLog, record]
    · simp [h2, h3, appendLog, record]

theorem handlePlayerError_eq (env : Env) (errorText : QString) (w : MainWindow) :
    handlePlayerError env errorText w =
      if trimmed errorText = [] then w
      else if w.userStoppedWatching_ = false ∧ w.currentChannelName_ ≠ [] then
        escalateElseReconnect env (qs "Player error") (qs "Player error")
          (appendLog (qs "player: " ++ trimmed errorText) w)
      else appendLog (qs "player: " ++ trimmed errorText) w := by
  unfold handlePlayerError
  simp only [escalateElseReconnect_eq]
  by_cases h0 : trimmed errorText = []
  · simp [h0]
  · cases h2 : w.userStoppedWatching_ <;> by_cases h3 : w.currentChannelName_ = [] <;>
      simp [h0, h2, h3, appendLog, record]

theorem auto_handleZapFinished (exitCode : Int) (exitStatus : ExitStatus) (w : MainWindow) :
    Auto w (handleZapFinished exitCode exitStatus w) := by
  rw [handleZapFinished_eq]
  have h1 : Auto w (if exitStatus ≠ .NormalExit then
      appendLog (qs "zap: tuner process crashed") w else w) := by
    split_ifs
    · exact (quiet_appendLog _ w).toAuto
    · exact Auto.idle w
  by_cases hc : w.suppressZapExitReconnect_ = false ∧ exitCode ≠ 0 ∧
      w.userStoppedWatching_ = false ∧ w.currentChannelName_ ≠ []
  · rw [if_pos hc]
    exact h1.followedBy (auto_scheduleReconnect _ _)
  · rw [if_neg hc]
    exact h1

/-- Offering the escalation and falling through to `scheduleReconnect` is automatic. -/
theorem auto_escalateElseReconnect (env : Env) (r1 r2 : QString) (w : MainWindow) :
    Auto w (escalateElseReconnect env r1 r2 w) := by
  have h := auto_tryDynamicBridgeFallback env r1 w
  unfold escalateElseReconnect
  simp only
  split_ifs
  · exact h
  · exact h.followedBy (auto_scheduleReconnect r2 _)

theorem auto_handleBridgeFinished (env : Env) (exitCode : Int) (status : ExitStatus)
    (w : MainWindow) : Auto w (handleBridgeFinished env exitCode status w) := by
  rw [handleBridgeFinished_eq]
  by_cases hc : w.suppressBridgeExitReconnect_ = false ∧ w.userStoppedWatching_ = false ∧
      w.currentChannelName_ ≠ []
  · rw [if_pos hc]
    exact (Quiet.toAuto (quiet_appendLog _ w)).followedBy (auto_escalateElseReconnect env _ _ _)
  · rw [if_neg hc]
    exact Quiet.toAuto (quiet_appendLog _ w)

theorem auto_handleMediaStatusChanged (env : Env) (status : MediaStatus) (w : MainWindow) :
    Auto w (handleMediaStatusChanged env status w) := by
  rw [handleMediaStatusChanged_eq]
  by_cases hc : w.currentChannelName_ ≠ [] ∧ w.userStoppedWatching_ = false ∧
      status = .InvalidMedia
  · rw [if_pos hc]
    exact (Quiet.toAuto (quiet_appendLog _ w)).followedBy (auto_escalateElseReconnect env _ _ _)
  · rw [if_neg hc]
    by_cases hd : w.currentChannelName_ ≠ [] ∧ w.userStoppedWatching_ = false ∧
        status = .EndOfMedia
    · rw [if_pos hd]
      exact (Quiet.toAuto (quiet_appendLog _ w)).followedBy (auto_escalateElseReconnect env _ _ _)
    · rw [if_neg hd]
      exact Quiet.toAuto (quiet_appendLog _ w)

theorem auto_handlePlayerError (env : Env) (errorText : QString) (w : MainWindow) :
    Auto w (handlePlayerError env errorText w) := by
  rw [handlePlayerError_eq]
  by_cases h0 : trimmed errorText = []
  · rw [if_pos h0]
    exact Auto.idle w
  · rw [if_neg h0]
    by_cases hc : w.userStoppedWatching_ = false ∧ w.currentChannelName_ ≠ []
    · rw [if_pos hc]
      exact (Quiet.toAuto (quiet_appendLog _ w)).followedBy (auto_escalateElseReconnect env _ _ _)
    · rw [if_neg hc]
      exact Quiet.toAuto (quiet_appendLog _ w)

/-- Starting playback after a log line, as both callers of `startPlaybackFromDvr` do
while the session waits for the device. -/
theorem auto_playback_while_waiting (env : Env) (dvrPath : QString) (w v : MainWindow)
    (hq : Quiet w v) (hwait : w.waitingForDvrReady_ = true) :
    Auto w (startPlaybackFromDvr env dvrPath v) := by
  refine (hq.steady.next (steady_startPlaybackFromDvr env dvrPath v)).autoOf ?_ ?_
  · intro hex
    obtain ⟨h1, h2, h3⟩ := hq.toAuto.exhaustedKeeps hex
    obtain ⟨k1, k2, k3⟩ := exhausted_startPlaybackFromDvr env dvrPath v h1
    exact ⟨k1, k2.trans h2, k3.trans h3⟩
  · intro hst
    have := hst.2.1
    rw [hwait] at this
    exact absurd this (by simp)

theorem auto_dvrReadyTimeout (env : Env) (dvrPath : QString) (w : MainWindow) :
    Auto w (dvrReadyTimeout env dvrPath w) := by
  unfold dvrReadyTimeout
  split_ifs with h
  · simp only [Bool.and_eq_true, decide_eq_true_eq] at h
    exact auto_playback_while_waiting env dvrPath w _ (quiet_appendLog _ w) h.1
  · exact Auto.idle w

theorem auto_handleZapStdErrLine (env : Env) (w : MainWindow) (line : QString) :
    Auto w (handleZapStdErrLine env w line) := by
  unfold handleZapStdErrLine
  simp only
  split_ifs with h1 h2
  · simp only [Bool.and_eq_true] at h2
    have hw : w.waitingForDvrReady_ = true := by
      have := h2.1.1
      simpa [appendLog, record] using this
    exact auto_playback_while_waiting env _ w _
      ((quiet_appendLog _ w).andThen (quiet_appendLog _ _)) hw
  · exact (quiet_appendLog _ w).toAuto
  · exact Auto.idle w

theorem Auto.foldl {α : Type} (f : MainWindow → α → MainWindow)
    (hf : ∀ w x, Auto w (f w x)) (l : List α) (w : MainWindow) : Auto w (l.foldl f w) := by
  induction l generalizing w with
  | nil => exact Auto.idle w
  | cons x rest ih => exact (hf w x).followedBy (ih (f w x))

theorem auto_handleZapStdErr (env : Env) (text : QString) (w : MainWindow) :
    Auto w (handleZapStdErr env text w) := by
  unfold handleZapStdErr
  simp only
  split_ifs
  · exact Auto.idle w
  · exact Auto.foldl _ (auto_handleZapStdErrLine env) _ w

/-- Every step other than a command of the user is automatic. -/
theorem auto_step (env : Env) (e : Event) (w : MainWindow) (he : e.isUserCommand = false) :
    Auto w (step env e w) := by
  cases e <;> first | (simp [Event.isUserCommand] at he; done) | simp only [step]
  case stopScan => exact (quiet_stopScan w).toAuto
  case addSelectedFavorite row => exact (quiet_addSelectedFavorite row w).toAuto
  case removeSelectedFavorite row => exact (quiet_removeSelectedFavorite row w).toAuto
  case setAdapter value => exact Quiet.toAuto (quiet_of_same rfl rfl)
  case setFrontend value => exact Quiet.toAuto (quiet_of_same rfl rfl)
  case scanStdOut chunk =>
    split_ifs
    · exact (quiet_appendStdOut chunk w).toAuto
    · exact Auto.idle w
  case scanStdErr chunk =>
    split_ifs
    · exact (quiet_handleStdErr chunk w).toAuto
    · exact Auto.idle w
  case scanFinished exitCode =>
    split_ifs
    · exact Quiet.toAuto (Quiet.andThen (b := { w with scanProcess_ := .NotRunning })
        (quiet_of_same rfl rfl) (quiet_processFinished env exitCode _))
    · exact Auto.idle w
  case zapStdErr text =>
    split_ifs
    · exact auto_handleZapStdErr env text w
    · exact Auto.idle w
  case zapFinished exitCode exitStatus =>
    split_ifs
    · exact (Quiet.toAuto (w := w) (v := { w with zapProcess_ := .NotRunning })
        (quiet_of_same rfl rfl)).followedBy (auto_handleZapFinished exitCode exitStatus _)
    · exact Auto.idle w
  case bridgeFinished exitCode exitStatus =>
    split_ifs
    · exact (Quiet.toAuto (w := w) (v := { w with streamBridgeProcess_ := .NotRunning })
        (quiet_of_same rfl rfl)).followedBy (auto_handleBridgeFinished env exitCode exitStatus _)
    · exact Auto.idle w
  case lateStart process ok => exact (quiet_lateStart process ok w).toAuto
  case mediaStatusChanged status => exact auto_handleMediaStatusChanged env status w
  case playerError code errorText =>
    split_ifs
    · exact (Quiet.toAuto (quiet_appendLog _ w)).followedBy (auto_handlePlayerError env errorText _)
    · exact Auto.idle w
  case reconnectTimeout =>
    cases ht : w.reconnectTimer_ with
    | none => exact Auto.idle w
    | some delay =>
      simp only
      unfold triggerReconnect
      simp only
      split_ifs
      · refine (Steady.autoOf (v := { w with reconnectTimer_ := none })
          ⟨id, rfl, rfl, rfl⟩ ?_ ?_)
        · intro hex
          have := hex.2.2
          rw [ht] at this
          exact absurd this (by simp)
        · intro hst
          have := hst.2.2
          rw [ht] at this
          exact absurd this (by simp)
      · refine Steady.autoOf ((Steady.next (b := { w with reconnectTimer_ := none })
          ⟨id, rfl, rfl, rfl⟩ (steady_startWatchingChannel_reconnect env _ _))) ?_ ?_
        · intro hex
          have := hex.2.2
          rw [ht] at this
          exact absurd this (by simp)
        · intro hst
          have := hst.2.2
          rw [ht] at this
          exact absurd this (by simp)
  case dvrReadyShot =>
    cases hs : w.dvrReadyShots with
    | nil => exact Auto.idle w
    | cons dvrPath rest =>
      dsimp only
      exact (Quiet.toAuto (w := w) (v := { w with dvrReadyShots := rest })
        (quiet_of_same rfl rfl)).followedBy (auto_dvrReadyTimeout env dvrPath _)
  case attachShot =>
    cases hs : w.attachShots with
    | nil => exact Auto.idle w
    | cons udpPort rest =>
      dsimp only
      exact Quiet.toAuto (Quiet.andThen (b := { w with attachShots := rest })
        (quiet_of_same rfl rfl) (quiet_attachLiveStream udpPort _))

theorem run_append (w : MainWindow) (a b : List (Env × Event)) :
    run w (a ++ b) = run (run w a) b := by
  induction a generalizing w with
  | nil => rfl
  | cons p rest ih =>
    obtain ⟨env, e⟩ := p
    simp only [List.cons_append, run]
    exact ih _

/-- A run without commands of the user is automatic. -/
theorem auto_run (w : MainWindow) (events : List (Env × Event))
    (h : ∀ p ∈ events, p.2.isUserCommand = false) : Auto w (run w events) := by
  induction events generalizing w with
  | nil => exact Auto.idle w
  | cons p rest ih =>
    obtain ⟨env, e⟩ := p
    simp only [run]
    exact (auto_step env e w (h (env, e) (by simp))).followedBy
      (ih _ (fun q hq => h q (by simp [hq])))

/-! ## Commands of the user -/

theorem stops_stopWatching (w : MainWindow) : Stops w (stopWatching w) := by
  rw [stopWatching_eq]
  refine ⟨⟨rfl, rfl, rfl⟩, rfl, ?_, ?_⟩
  · simp only [watchCalls_append]
    split_ifs <;> simp [watchCalls]
  · simp only [playbackCalls_append]
    split_ifs <;> simp [playbackCalls]

/-- A quiet step after a stop is still a stop. -/
theorem Stops.then_quiet {a b c : MainWindow} (h1 : Stops a b) (h2 : Quiet b c) : Stops a c := by
  obtain ⟨-, f2, f3, f4, -, -, f7⟩ := h2.fields
  obtain ⟨o1, o2, -, -⟩ := h2.observations
  refine ⟨?_, by rw [f3]; exact h1.count, o1.trans h1.watchCalls, o2.trans h1.playbackCalls⟩
  unfold StoppedByUser
  rw [f2, f4, f7]
  exact h1.stopped

theorem openMediaFile_eq (chosenPath : QString) (w : MainWindow) :
    openMediaFile chosenPath w =
      if chosenPath = [] then w
      else
        { stopWatching w with
          userStoppedWatching_ := true
          currentChannelName_ := qs "File: " ++ fileName chosenPath
          playerSource := .localFile chosenPath
          playerPlaying := true
          trace := (stopWatching w).trace ++
            [.appendLog (qs "player: Opened local media file: " ++ chosenPath),
             .statusMessage (qs "Playing local file: " ++ fileName chosenPath)] } := by
  unfold openMediaFile
  by_cases hp : chosenPath = []
  · simp [hp]
  · simp [hp, appendLog, statusMessage, record]

theorem stops_openMediaFile (chosenPath : QString) (w : MainWindow)
    (hp : chosenPath ≠ []) : Stops w (openMediaFile chosenPath w) := by
  have h := stops_stopWatching w
  rw [openMediaFile_eq, if_neg hp]
  refine ⟨⟨rfl, h.stopped.2.1, h.stopped.2.2⟩, h.count, ?_, ?_⟩
  · simp only [watchCalls_append]
    rw [h.watchCalls]
    simp [watchCalls]
  · simp only [playbackCalls_append]
    rw [h.playbackCalls]
    simp [playbackCalls]

theorem startScan_eq (env : Env) (args : List QString) (w : MainWindow) :
    startScan env args w =
      if w.scanProcess_ ≠ .NotRunning then w
      else
        { stopWatching w with
          channelsTable_ := []
          partialStdOut_ := []
          partialStdErr_ := []
          channelLines_ := []
          scanProcess_ := env.scanStarted.state
          trace := (stopWatching w).trace ++
            [.appendLog (qs "[" ++ env.now ++ qs "] Starting: w_scan2 "
                ++ (qs " ").intercalate args),
              .scanStart (qs "w_scan2") args] ++
            (if env.scanStarted.ok = false then
              [.messageBox (qs "Failed to start"), .appendLog (qs "Failed to start w_scan2.")]
            else [.statusMessage (qs "Scanning...")]) } := by
  unfold startScan
  by_cases hs : w.scanProcess_ = .NotRunning
  · cases ho : env.scanStarted.ok <;>
      simp [hs, ho, appendLog, statusMessage, messageBox, record]
  · simp [hs]

theorem stops_startScan (env : Env) (args : List QString) (w : MainWindow)
    (hs : w.scanProcess_ = .NotRunning) : Stops w (startScan env args w) := by
  have h := stops_stopWatching w
  rw [startScan_eq, if_neg (by simp [hs])]
  refine Stops.then_quiet (b := stopWatching w) h ?_
  refine ⟨rfl, _, by simp only [List.append_assoc]; rfl, ?_⟩
  intro e he
  split_ifs at he <;> simp at he <;> rcases he with rfl | rfl | rfl | rfl <;> rfl

theorem stops_closeEvent (env : Env) (scanExitCode : Int) (w : MainWindow) :
    Stops w (closeEvent env scanExitCode w) := by
  have h : Stops w (stopWatching
      (appendLog (qs "Application closing: releasing tuner resources.") w)) := by
    have h1 := stops_stopWatching
      (appendLog (qs "Application closing: releasing tuner resources.") w)
    have h2 := (quiet_appendLog (qs "Application closing: releasing tuner resources.") w)
    exact ⟨h1.stopped, h1.count, h1.watchCalls.trans h2.observations.1,
      h1.playbackCalls.trans h2.observations.2.1⟩
  unfold closeEvent
  simp only
  split_ifs
  · refine Stops.then_quiet h ?_
    exact Quiet.andThen (b := { stopWatching
        (appendLog (qs "Application closing: releasing tuner resources.") w) with
        scanProcess_ := stopProcess (stopWatching
          (appendLog (qs "Application closing: releasing tuner resources.") w)).scanProcess_ })
      (quiet_of_same rfl rfl) (quiet_processFinished env scanExitCode _)
  · exact h

/-- What a command of the user other than a fresh watch does to a stopped session. -/
theorem stopped_step_of_user (env : Env) (e : Event) (w : MainWindow)
    (hu : e.isUserCommand = true) (hw : e.isWatchCommand = false) (hst : StoppedByUser w) :
    StoppedByUser (step env e w) ∧ watchCalls (step env e w).trace = watchCalls w.trace ∧
      playbackCalls (step env e w).trace = playbackCalls w.trace := by
  cases e <;> first
    | (simp [Event.isUserCommand] at hu; done)
    | (simp [Event.isWatchCommand] at hw; done)
    | simp only [step]
  case stopWatching =>
    have h := stops_stopWatching w
    exact ⟨h.stopped, h.watchCalls, h.playbackCalls⟩
  case openMediaFile chosenPath =>
    by_cases hp : chosenPath = []
    · have hid : openMediaFile chosenPath w = w := by simp [openMediaFile, hp]
      rw [hid]
      exact ⟨hst, rfl, rfl⟩
    · have h := stops_openMediaFile chosenPath w hp
      exact ⟨h.stopped, h.watchCalls, h.playbackCalls⟩
  case startScan args =>
    by_cases hs : w.scanProcess_ = .NotRunning
    · have h := stops_startScan env args w hs
      exact ⟨h.stopped, h.watchCalls, h.playbackCalls⟩
    · have hid : startScan env args w = w := by simp [startScan, hs]
      rw [hid]
      exact ⟨hst, rfl, rfl⟩
  case closeEvent scanExitCode =>
    have h := stops_closeEvent env scanExitCode w
    exact ⟨h.stopped, h.watchCalls, h.playbackCalls⟩

/-- A run without a fresh watch keeps a stopped session stopped, and calls neither
`startWatchingChannel` nor `startPlaybackFromDvr`. -/
theorem stopped_run (w : MainWindow) (events : List (Env × Event))
    (h : ∀ p ∈ events, p.2.isWatchCommand = false) (hst : StoppedByUser w) :
    StoppedByUser (run w events) ∧ watchCalls (run w events).trace = watchCalls w.trace ∧
      playbackCalls (run w events).trace = playbackCalls w.trace := by
  induction events generalizing w with
  | nil => exact ⟨hst, rfl, rfl⟩
  | cons p rest ih =>
    obtain ⟨env, e⟩ := p
    simp only [run]
    have hstep : StoppedByUser (step env e w) ∧
        watchCalls (step env e w).trace = watchCalls w.trace ∧
        playbackCalls (step env e w).trace = playbackCalls w.trace := by
      cases hu : e.isUserCommand
      · exact (auto_step env e w hu).stoppedKeeps hst
      · exact stopped_step_of_user env e w hu (h (env, e) (by simp)) hst
    obtain ⟨s1, s2, s3⟩ := hstep
    obtain ⟨r1, r2, r3⟩ := ih (step env e w) (fun q hq => h q (by simp [hq])) s1
    exact ⟨r1, r2.trans s2, r3.trans s3⟩

/-- Every step keeps the counter within its bound. -/
theorem countInRange_step (env : Env) (e : Event) (w : MainWindow) (hw : CountInRange w) :
    CountInRange (step env e w) := by
  cases hu : e.isUserCommand
  · exact (auto_step env e w hu).countInRange hw
  · have hzero : ∀ v : MainWindow, v.reconnectAttemptCount_ = 0 → CountInRange v := by
      intro v hv
      simp [CountInRange, hv, maxReconnectAttempts_]
    cases e <;> first | (simp [Event.isUserCommand] at hu; done) | simp only [step]
    case watchSelectedChannel row =>
      unfold watchSelectedChannel
      simp only
      split_ifs
      · exact (Quiet.toAuto (quiet_messageBox _ w)).countInRange hw
      · exact (Quiet.toAuto (quiet_messageBox _ w)).countInRange hw
      · exact countInRange_startWatchingChannel env _ false w hw
    case watchFavoriteItem item =>
      cases item with
      | none => exact hw
      | some text => exact countInRange_startWatchingChannel env _ false w hw
    case triggerQuickFavorite button =>
      unfold triggerQuickFavorite
      simp only
      split_ifs
      · exact hw
      · exact hw
      · exact countInRange_startWatchingChannel env _ false w hw
    case stopWatching => exact hzero _ (stops_stopWatching w).count
    case openMediaFile chosenPath =>
      by_cases hp : chosenPath = []
      · have hid : openMediaFile chosenPath w = w := by simp [openMediaFile, hp]
        rw [hid]
        exact hw
      · exact hzero _ (stops_openMediaFile chosenPath w hp).count
    case startScan args =>
      by_cases hs : w.scanProcess_ = .NotRunning
      · exact hzero _ (stops_startScan env args w hs).count
      · have hid : startScan env args w = w := by simp [startScan, hs]
        rw [hid]
        exact hw
    case closeEvent scanExitCode => exact hzero _ (stops_closeEvent env scanExitCode w).count

theorem countInRange_run (w : MainWindow) (events : List (Env × Event)) (hw : CountInRange w) :
    CountInRange (run w events) := by
  induction events generalizing w with
  | nil => exact hw
  | cons p rest ih =>
    obtain ⟨env, e⟩ := p
    simp only [run]
    exact ih _ (countInRange_step env e w hw)

theorem quiet_loadChannelsFileIfPresent (env : Env) (w : MainWindow) :
    Quiet w (loadChannelsFileIfPresent env w) := by
  unfold loadChannelsFileIfPresent
  by_cases h0 : env.appDataPath = []
  · simp only [h0, List.isEmpty_nil, if_true]
    exact quiet_appendLog _ w
  · simp only [List.isEmpty_iff, h0, if_false]
    have hpath : Quiet w { w with channelsFilePath_ := filePath env.appDataPath (qs "channels.conf") } :=
      quiet_of_same rfl rfl
    cases w.disk.lookup (filePath env.appDataPath (qs "channels.conf")) with
    | none => exact hpath.andThen (quiet_appendLog _ _)
    | some text =>
      dsimp only
      cases env.canReadChannelsFile with
      | false => exact hpath.andThen (quiet_appendLog _ _)
      | true =>
        simp only [Bool.not_true, Bool.false_eq_true, if_false]
        refine Quiet.andThen ?_ (quiet_appendLog _ _)
        refine Quiet.andThen (b := { w with
          channelsFilePath_ := filePath env.appDataPath (qs "channels.conf")
          channelsTable_ := []
          channelLines_ := [] }) (quiet_of_same rfl rfl) ?_
        apply quiet_foldl
        intro v x
        dsimp only
        split_ifs
        · exact quiet_parseAndStoreLine _ v
        · exact Quiet.same v

/-- A freshly constructed window has the session of the member initialisers. -/
theorem construct_session (env : Env) (storedFavorites : List QString)
    (hints disk : List (QString × QString)) :
    (construct env storedFavorites hints disk).session = MainWindow.fresh.session := by
  unfold construct
  exact (quiet_loadChannelsFileIfPresent env _).1

/-! ## The claims -/

/-- Once the escalation no longer applies, `tryDynamicBridgeFallback` does nothing and
the recovery decision is `scheduleReconnect` alone. -/
theorem escalated_no_fallback (env : Env) (r1 r2 : QString) (w : MainWindow)
    (h : Escalated w) :
    tryDynamicBridgeFallback env r1 w = (false, w) ∧
      escalateElseReconnect env r1 r2 w = scheduleReconnect r2 w := by
  have h1 : tryDynamicBridgeFallback env r1 w = (false, w) := by
    rw [tryDynamicBridgeFallback_eq]
    apply if_neg
    rintro ⟨-, -, h3, h4⟩
    rcases h with h | h
    · rw [h4] at h
      exact absurd h (by simp)
    · rw [h3] at h
      exact absurd h (by simp)
  refine ⟨h1, ?_⟩
  unfold escalateElseReconnect
  rw [h1]
  simp

/-- C1: in every event sequence that holds no command of the user (so no fresh
`startWatchingChannel` and no `stopWatching`), `tryDynamicBridgeFallback` acts at most
once; and once it has acted, at every later point of the sequence no further
escalation has been taken, `tryDynamicBridgeFallback` returns false without touching
the state, and the recovery decision is that of `scheduleReconnect` alone. -/
theorem escalation_at_most_once (w : MainWindow) (events : List (Env × Event))
    (hNoUser : ∀ p ∈ events, p.2.isUserCommand = false) :
    fallbacksTaken (run w events).trace ≤ fallbacksTaken w.trace + 1 ∧
    ∀ pre mid post, events = pre ++ mid ++ post →
      fallbacksTaken w.trace < fallbacksTaken (run w pre).trace →
      fallbacksTaken (run w (pre ++ mid)).trace = fallbacksTaken (run w pre).trace ∧
      ∀ env r1 r2,
        tryDynamicBridgeFallback env r1 (run w (pre ++ mid)) = (false, run w (pre ++ mid)) ∧
        escalateElseReconnect env r1 r2 (run w (pre ++ mid)) =
          scheduleReconnect r2 (run w (pre ++ mid)) := by
  refine ⟨(auto_run w events hNoUser).fallbacksLe, ?_⟩
  intro pre mid post hsplit hlt
  have hpre : ∀ p ∈ pre, p.2.isUserCommand = false := by
    intro p hp
    exact hNoUser p (by rw [hsplit]; simp [hp])
  have hmid : ∀ p ∈ mid, p.2.isUserCommand = false := by
    intro p hp
    exact hNoUser p (by rw [hsplit]; simp [hp])
  have hesc : Escalated (run w pre) := (auto_run w pre hpre).escalatedOfFallback hlt
  have hkeep := (auto_run (run w pre) mid hmid).escalatedKeeps hesc
  rw [run_append]
  exact ⟨hkeep.2, fun env r1 r2 => escalated_no_fallback env r1 r2 _ hkeep.1⟩

/-- Witness of C1: two player errors while watching; the first escalates, the second
does not. -/
theorem escalation_at_most_once_witness :
    fallbacksTaken (run watchingWindow twoPlayerErrors).trace ≤
        fallbacksTaken watchingWindow.trace + 1 ∧
      fallbacksTaken watchingWindow.trace = 0 ∧
      fallbacksTaken (run watchingWindow [(envOk, .playerError 1 (qs "demuxer"))]).trace = 1 ∧
      fallbacksTaken (run watchingWindow twoPlayerErrors).trace = 1 ∧
      (run watchingWindow twoPlayerErrors).reconnectTimer_ = some 1700 :=
  have h := escalation_at_most_once watchingWindow twoPlayerErrors (by decide)
  ⟨h.1, by decide, by decide,
    ((h.2 [(envOk, .playerError 1 (qs "demuxer"))] [(envOk, .playerError 1 (qs "demuxer"))] []
      (by decide) (by decide)).1).trans (by decide), by decide⟩

theorem watchCalls_scheduleReconnect (reason : QString) (w : MainWindow) :
    watchCalls (scheduleReconnect reason w).trace = watchCalls w.trace := by
  rw [scheduleReconnect_eq]
  split_ifs <;> simp [watchCalls]

theorem watchCalls_call_log (t log : List Effect) (name : QString) (r : Bool)
    (hlog : ∀ e ∈ log, e.isRecovery = false) :
    watchCalls (t ++ .enterStartWatchingChannel name r :: log) = watchCalls t ++ [(name, r)] := by
  have h := watchCalls_with_log (t := t ++ [.enterStartWatchingChannel name r]) hlog
  simp only [List.append_assoc, List.singleton_append] at h
  rw [h]
  simp [watchCalls]

/-- Every call of `startWatchingChannel` shows as exactly one call in the trace. -/
theorem watchCalls_startWatchingChannel (env : Env) (name : QString) (r : Bool)
    (w : MainWindow) :
    watchCalls (startWatchingChannel env name r w).2.trace = watchCalls w.trace ++ [(name, r)] := by
  obtain ⟨path, disk, log, hlog, hs | ⟨-, -, hs⟩ | ⟨-, -, pid, hs⟩⟩ :=
    startWatchingChannel_summary env name r w
  · rw [hs]
    exact watchCalls_call_log _ _ _ _ hlog
  · rw [hs, watchCalls_scheduleReconnect]
    exact watchCalls_call_log _ _ _ _ hlog
  · rw [hs]
    exact watchCalls_call_log _ _ _ _ hlog

/-- C2: in every reachable state the attempt counter lies between 0 and
`maxReconnectAttempts_`, which is 6; and `scheduleReconnect`, called with the counter
at the bound on an active session that is not user-stopped, leaves the counter and the
reconnect timer as they are, starts no timer, and only reports the terminal failure. -/
theorem reconnect_attempts_bounded :
    (∀ w, Reachable w →
      0 ≤ w.reconnectAttemptCount_ ∧ w.reconnectAttemptCount_ ≤ maxReconnectAttempts_) ∧
    maxReconnectAttempts_ = 6 ∧
    (∀ reason w, w.currentChannelName_ ≠ [] → w.userStoppedWatching_ = false →
      w.reconnectAttemptCount_ = maxReconnectAttempts_ →
      (scheduleReconnect reason w).reconnectAttemptCount_ = w.reconnectAttemptCount_ ∧
      (scheduleReconnect reason w).reconnectTimer_ = w.reconnectTimer_ ∧
      timerStarts (scheduleReconnect reason w).trace = timerStarts w.trace ∧
      scheduleReconnect reason w =
        { w with trace := w.trace ++
          [.appendLog (qs "Reconnect failed after maximum attempts."),
           .statusMessage (qs "Reconnect failed for " ++ w.currentChannelName_)] }) := by
  refine ⟨?_, rfl, ?_⟩
  · rintro w ⟨env, favs, hints, disk, events, rfl⟩
    apply countInRange_run
    have h := construct_session env favs hints disk
    have hc : (construct env favs hints disk).reconnectAttemptCount_ = 0 :=
      congrArg Session.reconnectAttemptCount_ h
    simp [CountInRange, hc, maxReconnectAttempts_]
  · intro reason w hn hu hc
    have h : scheduleReconnect reason w =
        { w with trace := w.trace ++
          [.appendLog (qs "Reconnect failed after maximum attempts."),
           .statusMessage (qs "Reconnect failed for " ++ w.currentChannelName_)] } := by
      rw [scheduleReconnect_eq, if_neg (by simp [hn, hu]), if_pos (by rw [hc])]
    rw [h]
    exact ⟨rfl, rfl, by simp [timerStarts], rfl⟩

/-- Witness of C2: the window in which the retries are used up is reachable, its
counter is 6, and one more `scheduleReconnect` changes neither counter nor timer. -/
theorem reconnect_attempts_bounded_witness :
    (0 ≤ givenUpWindow.reconnectAttemptCount_ ∧
      givenUpWindow.reconnectAttemptCount_ ≤ maxReconnectAttempts_) ∧
    givenUpWindow.reconnectAttemptCount_ = 6 ∧
    (scheduleReconnect (qs "Player error") givenUpWindow).reconnectAttemptCount_ = 6 ∧
    (scheduleReconnect (qs "Player error") givenUpWindow).reconnectTimer_ = none :=
  have h := reconnect_attempts_bounded
  have hs := h.2.2 (qs "Player error") givenUpWindow (by decide) (by decide) (by decide)
  ⟨h.1 givenUpWindow ⟨envOk, [qs "KTVU"], [],
      [(qs "/data/channels.conf", qs "KTVU:515000000:8VSB:49:52:3\n")], lockKeepsFailing, rfl⟩,
    by decide, hs.1.trans (by decide), hs.2.1.trans (by decide)⟩

/-- C3: on an active session that is not user-stopped, with the counter at n below
the bound, `scheduleReconnect` sets the counter to n+1 and arms the single-shot
reconnect timer with exactly 800 + (n+1)*900 ms, leaving the channel name as it is;
and when that timer fires, the timer is no longer pending and `triggerReconnect`
runs `startWatchingChannel` with `reconnectAttempt = true` for the current channel
name.  (The counter is an `int`; on its reachable range 0..6 the C++ arithmetic
cannot overflow.) -/
theorem scheduleReconnect_backoff (reason : QString) (w : MainWindow) (n : Int)
    (hActive : w.currentChannelName_ ≠ []) (hNotStopped : w.userStoppedWatching_ = false)
    (hn : w.reconnectAttemptCount_ = n) (hlt : n < maxReconnectAttempts_) :
    (scheduleReconnect reason w).reconnectAttemptCount_ = n + 1 ∧
    (scheduleReconnect reason w).reconnectTimer_ = some (800 + (n + 1) * 900) ∧
    timerStarts (scheduleReconnect reason w).trace =
      timerStarts w.trace ++ [800 + (n + 1) * 900] ∧
    (scheduleReconnect reason w).currentChannelName_ = w.currentChannelName_ ∧
    ∀ env,
      step env .reconnectTimeout (scheduleReconnect reason w) =
        (startWatchingChannel env w.currentChannelName_ true
          { scheduleReconnect reason w with reconnectTimer_ := none }).2 ∧
      watchCalls (step env .reconnectTimeout (scheduleReconnect reason w)).trace =
        watchCalls w.trace ++ [(w.currentChannelName_, true)] := by
  have h : scheduleReconnect reason w =
      { w with
        reconnectAttemptCount_ := w.reconnectAttemptCount_ + 1
        reconnectTimer_ := some (800 + (w.reconnectAttemptCount_ + 1) * 900)
        trace := w.trace ++
          [.appendLog (qs "Reconnect attempt " ++ number (w.reconnectAttemptCount_ + 1)
              ++ qs "/" ++ number maxReconnectAttempts_ ++ qs " in "
              ++ number (800 + (w.reconnectAttemptCount_ + 1) * 900) ++ qs " ms ("
              ++ reason ++ qs ")"),
           .statusMessage (qs "Reconnecting to " ++ w.currentChannelName_ ++ qs "..."),
           .reconnectTimerStart (800 + (w.reconnectAttemptCount_ + 1) * 900)] } := by
    rw [scheduleReconnect_eq, if_neg (by simp [hActive, hNotStopped]),
      if_neg (by rw [hn]; exact not_le.mpr hlt)]
  have hstep : ∀ env, step env .reconnectTimeout (scheduleReconnect reason w) =
      (startWatchingChannel env w.currentChannelName_ true
        { scheduleReconnect reason w with reconnectTimer_ := none }).2 := by
    intro env
    rw [h]
    simp [step, triggerReconnect, hActive, hNotStopped]
  refine ⟨by rw [h, ← hn], by rw [h, ← hn], ?_, by rw [h], ?_⟩
  · rw [h, ← hn]
    simp [timerStarts]
  · intro env
    refine ⟨hstep env, ?_⟩
    rw [hstep env, watchCalls_startWatchingChannel, h]
    simp [watchCalls]

/-- Witness of C3: the first reconnect of a watched channel is armed with 1700 ms. -/
theorem scheduleReconnect_backoff_witness :
    (scheduleReconnect (qs "Player error") watchingWindow).reconnectAttemptCount_ = 0 + 1 ∧
    (scheduleReconnect (qs "Player error") watchingWindow).reconnectTimer_ = some 1700 :=
  have h := scheduleReconnect_backoff (qs "Player error") watchingWindow 0
    (by decide) (by decide) (by decide) (by decide)
  ⟨h.1, h.2.1⟩

/-- C4: `tryDynamicBridgeFallback` returns true exactly when the channel name is not
empty, the session is not user-stopped, and neither resilient flag is set.  When it
returns false the state is unchanged.  When it returns true, it has set both flags,
stopped the reconnect timer and zeroed the counter, and the state it returns is the
one `startWatchingChannel` yields for the same channel name with
`reconnectAttempt = true` from there; both flags are still set in it. -/
theorem tryDynamicBridgeFallback_spec (env : Env) (reason : QString) (w : MainWindow) :
    ((tryDynamicBridgeFallback env reason w).1 = true ↔
      (w.currentChannelName_ ≠ [] ∧ w.userStoppedWatching_ = false ∧
        w.useResilientBridgeMode_ = false ∧ w.resilientBridgeTried_ = false)) ∧
    tryDynamicBridgeFallback env reason w =
      (if w.currentChannelName_ ≠ [] ∧ w.userStoppedWatching_ = false ∧
          w.useResilientBridgeMode_ = false ∧ w.resilientBridgeTried_ = false then
        (true, (startWatchingChannel env w.currentChannelName_ true
          { w with
            resilientBridgeTried_ := true
            useResilientBridgeMode_ := true
            reconnectTimer_ := none
            reconnectAttemptCount_ := 0
            trace := w.trace ++ [.reconnectTimerStop, .dynamicBridgeFallback reason,
              .appendLog (qs "player: " ++ reason ++ qs "; retrying with resilient bridge mode")] }).2)
      else (false, w)) ∧
    ((tryDynamicBridgeFallback env reason w).1 = true →
      (tryDynamicBridgeFallback env reason w).2.resilientBridgeTried_ = true ∧
      (tryDynamicBridgeFallback env reason w).2.useResilientBridgeMode_ = true ∧
      watchCalls (tryDynamicBridgeFallback env reason w).2.trace =
        watchCalls w.trace ++ [(w.currentChannelName_, true)]) := by
  have heq := tryDynamicBridgeFallback_eq env reason w
  refine ⟨?_, heq, ?_⟩
  · rw [heq]
    split_ifs with hc
    · simp [hc]
    · simp only [Bool.false_eq_true, false_iff]
      exact hc
  · rw [heq]
    split_ifs with hc
    · intro _
      have hs := steady_startWatchingChannel_reconnect env w.currentChannelName_
        { w with
          resilientBridgeTried_ := true
          useResilientBridgeMode_ := true
          reconnectTimer_ := none
          reconnectAttemptCount_ := 0
          trace := w.trace ++ [.reconnectTimerStop, .dynamicBridgeFallback reason,
            .appendLog (qs "player: " ++ reason ++ qs "; retrying with resilient bridge mode")] }
      refine ⟨hs.tried, hs.resilient, ?_⟩
      rw [watchCalls_startWatchingChannel]
      simp [watchCalls]
    · intro h
      exact absurd h (by simp)

/-- Witness of C4: on the watching window the escalation applies. -/
theorem tryDynamicBridgeFallback_spec_witness :
    (tryDynamicBridgeFallback envOk (qs "Player error") watchingWindow).1 = true ∧
    (tryDynamicBridgeFallback envOk (qs "Player error") watchingWindow).2.resilientBridgeTried_
      = true :=
  have h := tryDynamicBridgeFallback_spec envOk (qs "Player error") watchingWindow
  ⟨by decide, (h.2.2 (by decide)).1⟩

/-- Counterexample to C5 as stated: while KTVU is watched (active, not user-stopped,
exit not suppressed, escalation still applicable), the exit of the lock process with
code 1 is not offered to `tryDynamicBridgeFallback`: the handler goes straight to
`scheduleReconnect`, arming the timer with 1700 ms. -/
theorem lock_exit_offers_no_escalation :
    watchingWindow.currentChannelName_ = qs "KTVU" ∧
    watchingWindow.userStoppedWatching_ = false ∧
    watchingWindow.suppressZapExitReconnect_ = false ∧
    (tryDynamicBridgeFallback envOk (qs "Tuner process exited (1)") watchingWindow).1 = true ∧
    handleZapFinished 1 .NormalExit watchingWindow ≠
      escalateElseReconnect envOk (qs "Tuner process exited (1)")
        (qs "Tuner process exited (1)") watchingWindow ∧
    handleZapFinished 1 .NormalExit watchingWindow =
      scheduleReconnect (qs "Tuner process exited (1)") watchingWindow ∧
    fallbacksTaken (handleZapFinished 1 .NormalExit watchingWindow).trace = 0 ∧
    (handleZapFinished 1 .NormalExit watchingWindow).reconnectTimer_ = some 1700 := by
  decide

/-- C5, amended: when a channel is active and the session is not user-stopped, the
handlers of four failure sources (exit of the bridge process if not suppressed,
player status InvalidMedia, player status EndOfMedia, non-blank player error text)
first offer the escalation and call `scheduleReconnect` only if it returned false;
the handler of the exit of the lock process with a non-zero code, if not suppressed,
calls `scheduleReconnect` directly. -/
theorem failure_sources_recovery (env : Env) (w : MainWindow)
    (hActive : w.currentChannelName_ ≠ []) (hNotStopped : w.userStoppedWatching_ = false) :
    (∀ exitCode status, w.suppressBridgeExitReconnect_ = false →
      handleBridgeFinished env exitCode status w =
        escalateElseReconnect env (qs "Live stream bridge exited")
          (qs "Live stream bridge exited")
          (appendLog (qs "ffmpeg bridge exited (code=" ++ number exitCode ++ qs ", status="
            ++ (if status = .NormalExit then qs "normal" else qs "crash") ++ qs ")") w)) ∧
    handleMediaStatusChanged env .InvalidMedia w =
      escalateElseReconnect env (qs "Media stream became invalid")
        (qs "Media stream became invalid")
        (appendLog (qs "player: mediaStatusChanged=" ++ number MediaStatus.InvalidMedia.toInt) w) ∧
    handleMediaStatusChanged env .EndOfMedia w =
      escalateElseReconnect env (qs "Media reached unexpected end")
        (qs "Media stream became invalid")
        (appendLog (qs "player: mediaStatusChanged=" ++ number MediaStatus.EndOfMedia.toInt) w) ∧
    (∀ errorText, trimmed errorText ≠ [] →
      handlePlayerError env errorText w =
        escalateElseReconnect env (qs "Player error") (qs "Player error")
          (appendLog (qs "player: " ++ trimmed errorText) w)) ∧
    (∀ exitCode exitStatus, w.suppressZapExitReconnect_ = false → exitCode ≠ 0 →
      handleZapFinished exitCode exitStatus w =
        scheduleReconnect (qs "Tuner process exited (" ++ number exitCode ++ qs ")")
          (if exitStatus ≠ .NormalExit then appendLog (qs "zap: tuner process crashed") w
            else w)) ∧
    (∀ r1 r2 v, escalateElseReconnect env r1 r2 v =
      if (tryDynamicBridgeFallback env r1 v).1 = true then (tryDynamicBridgeFallback env r1 v).2
      else scheduleReconnect r2 (tryDynamicBridgeFallback env r1 v).2) := by
  refine ⟨?_, ?_, ?_, ?_, ?_, ?_⟩
  · intro exitCode status hs
    rw [handleBridgeFinished_eq, if_pos ⟨hs, hNotStopped, hActive⟩]
  · rw [handleMediaStatusChanged_eq, if_pos ⟨hActive, hNotStopped, rfl⟩]
  · rw [handleMediaStatusChanged_eq, if_neg (by simp), if_pos ⟨hActive, hNotStopped, rfl⟩]
  · intro errorText ht
    rw [handlePlayerError_eq, if_neg ht, if_pos ⟨hNotStopped, hActive⟩]
  · intro exitCode exitStatus hs hc
    rw [handleZapFinished_eq, if_pos ⟨hs, hc, hNotStopped, hActive⟩]
  · intro r1 r2 v
    rfl

/-- Witness of C5, amended: a player error on the watching window is escalated; the
exit of the lock process with code 1 is sent to `scheduleReconnect`. -/
theorem failure_sources_recovery_witness :
    handlePlayerError envOk (qs "demuxer") watchingWindow =
      escalateElseReconnect envOk (qs "Player error") (qs "Player error")
        (appendLog (qs "player: " ++ trimmed (qs "demuxer")) watchingWindow) ∧
    handleZapFinished 1 .NormalExit watchingWindow =
      scheduleReconnect (qs "Tuner process exited (" ++ number 1 ++ qs ")")
        (if ExitStatus.NormalExit ≠ .NormalExit then
          appendLog (qs "zap: tuner process crashed") watchingWindow
          else watchingWindow) :=
  have h := failure_sources_recovery envOk watchingWindow (by decide) (by decide)
  ⟨h.2.2.2.1 (qs "demuxer") (by decide), h.2.2.2.2.1 1 .NormalExit (by decide) (by decide)⟩

/-- Counterexample to C6 as stated: the bridge dies while KTVU is watched and the
lock process can no longer be started.  Handling that one event takes the escalation
(`tryDynamicBridgeFallback` returns true) and still leaves the reconnect timer armed
with 1700 ms and the counter at 1, set by the `startWatchingChannel` it re-ran. -/
theorem escalation_and_reconnect_in_one_event :
    fallbacksTaken (run idleWindow bridgeDiesLockFails.dropLast).trace = 0 ∧
    (run idleWindow bridgeDiesLockFails.dropLast).streamBridgeProcess_ = .Running ∧
    fallbacksTaken (run idleWindow bridgeDiesLockFails).trace = 1 ∧
    (run idleWindow bridgeDiesLockFails).reconnectTimer_ = some 1700 ∧
    (run idleWindow bridgeDiesLockFails).reconnectAttemptCount_ = 1 ∧
    timerStarts (run idleWindow bridgeDiesLockFails).trace = [1700] := by
  decide

theorem persistChannelsFile_ok_iff (env : Env) (w : MainWindow) :
    (persistChannelsFile env w).1 = true ↔
      (w.channelLines_ ≠ [] ∧ env.appDataPath ≠ [] ∧
        ¬(env.dirExists = false ∧ env.mkpathOk = false) ∧ env.canWriteChannelsFile = true) := by
  rw [persistChannelsFile_eq]
  split_ifs with h1 h2 h3 h4 <;> simp_all

/-- Whether `persistChannelsFile` succeeds depends on the catalog and the outcomes
only. -/
theorem persistChannelsFile_ok_congr (env : Env) (w v : MainWindow)
    (h : v.channelLines_ = w.channelLines_) :
    (persistChannelsFile env v).1 = (persistChannelsFile env w).1 := by
  have h1 := persistChannelsFile_ok_iff env v
  have h2 := persistChannelsFile_ok_iff env w
  rw [h] at h1
  cases hv : (persistChannelsFile env v).1 <;> cases hw : (persistChannelsFile env w).1 <;>
    simp_all

/-- The reconnect timer and the counter after a reconnect attempt of
`startWatchingChannel` that starts with the timer stopped and the counter at zero on
an active session: armed with 1700 ms and 1 exactly when the lock process was tried
and did not start. -/
theorem startWatchingChannel_after_escalation (env : Env) (w : MainWindow)
    (hname : w.currentChannelName_ ≠ []) (ht : w.reconnectTimer_ = none)
    (hc : w.reconnectAttemptCount_ = 0) :
    (((persistChannelsFile env w).1 = true ∧ env.zapExe ≠ [] ∧ env.zapStarted.ok = false) →
      (startWatchingChannel env w.currentChannelName_ true w).2.reconnectTimer_ = some 1700 ∧
      (startWatchingChannel env w.currentChannelName_ true w).2.reconnectAttemptCount_ = 1 ∧
      timerStarts (startWatchingChannel env w.currentChannelName_ true w).2.trace =
        timerStarts w.trace ++ [1700]) ∧
    (¬((persistChannelsFile env w).1 = true ∧ env.zapExe ≠ [] ∧ env.zapStarted.ok = false) →
      (startWatchingChannel env w.currentChannelName_ true w).2.reconnectTimer_ = none ∧
      (startWatchingChannel env w.currentChannelName_ true w).2.reconnectAttemptCount_ = 0 ∧
      timerStarts (startWatchingChannel env w.currentChannelName_ true w).2.trace =
        timerStarts w.trace) := by
  have hok : (persistChannelsFile env
      (record (.enterStartWatchingChannel w.currentChannelName_ true) w)).1 =
      (persistChannelsFile env w).1 := persistChannelsFile_ok_congr env w _ rfl
  obtain ⟨path, disk, log, hw1, hlog⟩ := persistChannelsFile_frame env
    (record (.enterStartWatchingChannel w.currentChannelName_ true) w)
  have h3 : timerStarts log = [] := (observations_of_no_recovery hlog).2.2.1
  rw [startWatchingChannel_eq, if_neg hname, hok, hw1]
  constructor
  · rintro ⟨hp, hz, hs⟩
    rw [if_neg (by simp [hp]), if_neg hz, if_pos hs]
    simp only [prepareWatch_eq, startZap_eq, appendLog, record, scheduleReconnect_eq]
    rw [if_neg (by simp [hname]), if_neg (by simp [hc, maxReconnectAttempts_])]
    simp only [hc]
    refine ⟨by norm_num, by norm_num, ?_⟩
    simp only [timerStarts_append, h3]
    simp [timerStarts]
  · intro hnot
    by_cases hp : (persistChannelsFile env w).1 = false
    · rw [if_pos hp]
      simp only [messageBox, record]
      refine ⟨ht, hc, ?_⟩
      simp only [timerStarts_append, h3]
      simp [timerStarts]
    rw [if_neg hp]
    by_cases hz : env.zapExe = []
    · rw [if_pos hz]
      simp only [messageBox, record]
      refine ⟨ht, hc, ?_⟩
      simp only [timerStarts_append, h3]
      simp [timerStarts]
    rw [if_neg hz]
    have hs : ¬ env.zapStarted.ok = false := by
      intro hs
      exact hnot ⟨by simpa using hp, hz, hs⟩
    rw [if_neg hs]
    simp only [prepareWatch_eq, startZap_eq, awaitDvr_eq, record]
    refine ⟨by simp, by simp [hc], ?_⟩
    simp only [timerStarts_append, h3]
    simp [timerStarts]

/-- C6, amended: when handling a failure event makes `tryDynamicBridgeFallback`
return true, the handler does not call `scheduleReconnect` itself: its result is the
state the escalation returned.  In that state the reconnect timer is armed (with
1700 ms, the counter at 1) exactly when the `startWatchingChannel` the escalation
re-ran got as far as starting the lock process and that start failed; in every other
outcome no timer is armed and the counter is zero. -/
theorem escalation_excludes_handler_reconnect (env : Env) (reason reconnectReason : QString)
    (w : MainWindow) (h : (tryDynamicBridgeFallback env reason w).1 = true) :
    escalateElseReconnect env reason reconnectReason w =
      (tryDynamicBridgeFallback env reason w).2 ∧
    (((persistChannelsFile env w).1 = true ∧ env.zapExe ≠ [] ∧ env.zapStarted.ok = false) →
      (tryDynamicBridgeFallback env reason w).2.reconnectTimer_ = some 1700 ∧
      (tryDynamicBridgeFallback env reason w).2.reconnectAttemptCount_ = 1 ∧
      timerStarts (tryDynamicBridgeFallback env reason w).2.trace =
        timerStarts w.trace ++ [1700]) ∧
    (¬((persistChannelsFile env w).1 = true ∧ env.zapExe ≠ [] ∧ env.zapStarted.ok = false) →
      (tryDynamicBridgeFallback env reason w).2.reconnectTimer_ = none ∧
      (tryDynamicBridgeFallback env reason w).2.reconnectAttemptCount_ = 0 ∧
      timerStarts (tryDynamicBridgeFallback env reason w).2.trace = timerStarts w.trace) := by
  refine ⟨by simp [escalateElseReconnect, h], ?_⟩
  have heq := tryDynamicBridgeFallback_eq env reason w
  by_cases hc : w.currentChannelName_ ≠ [] ∧ w.userStoppedWatching_ = false ∧
      w.useResilientBridgeMode_ = false ∧ w.resilientBridgeTried_ = false
  · rw [if_pos hc] at heq
    rw [heq]
    have hmain := startWatchingChannel_after_escalation env
      { w with
        resilientBridgeTried_ := true
        useResilientBridgeMode_ := true
        reconnectTimer_ := none
        reconnectAttemptCount_ := 0
        trace := w.trace ++ [.reconnectTimerStop, .dynamicBridgeFallback reason,
          .appendLog (qs "player: " ++ reason ++ qs "; retrying with resilient bridge mode")] }
      hc.1 rfl rfl
    have hok := persistChannelsFile_ok_congr env w
      { w with
        resilientBridgeTried_ := true
        useResilientBridgeMode_ := true
        reconnectTimer_ := none
        reconnectAttemptCount_ := 0
        trace := w.trace ++ [.reconnectTimerStop, .dynamicBridgeFallback reason,
          .appendLog (qs "player: " ++ reason ++ qs "; retrying with resilient bridge mode")] }
      rfl
    rw [hok] at hmain
    have htr : timerStarts (w.trace ++ [.reconnectTimerStop, .dynamicBridgeFallback reason,
        .appendLog (qs "player: " ++ reason ++ qs "; retrying with resilient bridge mode")]) =
        timerStarts w.trace := by
      simp [timerStarts]
    simp only [htr] at hmain
    exact hmain
  · rw [if_neg hc] at heq
    rw [heq] at h
    exact absurd h (by simp)

/-- Witness of C6, amended: an escalation whose lock process starts arms no timer. -/
theorem escalation_excludes_handler_reconnect_witness :
    (tryDynamicBridgeFallback envOk (qs "Player error") watchingWindow).1 = true ∧
    escalateElseReconnect envOk (qs "Player error") (qs "Player error") watchingWindow =
      (tryDynamicBridgeFallback envOk (qs "Player error") watchingWindow).2 ∧
    (tryDynamicBridgeFallback envOk (qs "Player error") watchingWindow).2.reconnectTimer_ = none ∧
    (tryDynamicBridgeFallback envZapFails (qs "Player error") watchingWindow).2.reconnectTimer_
      = some 1700 :=
  have h := escalation_excludes_handler_reconnect envOk (qs "Player error") (qs "Player error")
    watchingWindow (by decide)
  have h' := escalation_excludes_handler_reconnect envZapFails (qs "Player error")
    (qs "Player error") watchingWindow (by decide)
  ⟨by decide, h.1, (h.2.2 (by decide)).1, (h'.2.1 (by decide)).1⟩

/-- Counterexample to C7 as stated.  First: after the lock process has kept failing
and `scheduleReconnect` has reported the terminal failure, the session still holds
its channel name (the status text is not `Idle`), and a later player error is
escalated: `startWatchingChannel` is called again and, the lock process failing once
more, the reconnect timer is armed.  Second: after eight player errors the terminal
failure has been reported while the timer armed by the sixth reconnect is still
pending; when it fires, `startWatchingChannel` is called. -/
theorem terminal_failure_is_not_final :
    (Effect.appendLog (qs "Reconnect failed after maximum attempts.") ∈ givenUpWindow.trace ∧
      givenUpWindow.reconnectAttemptCount_ = maxReconnectAttempts_ ∧
      givenUpWindow.reconnectTimer_ = none ∧
      givenUpWindow.currentChannelName_ = qs "KTVU" ∧
      playbackStatusText givenUpWindow ≠ qs "Idle" ∧
      watchCalls (step envZapFails (.playerError 1 (qs "demuxer")) givenUpWindow).trace =
        watchCalls givenUpWindow.trace ++ [(qs "KTVU", true)] ∧
      (step envZapFails (.playerError 1 (qs "demuxer")) givenUpWindow).reconnectTimer_ =
        some 1700) ∧
    (Effect.appendLog (qs "Reconnect failed after maximum attempts.") ∈
        (run watchingWindow eightPlayerErrors).trace ∧
      (run watchingWindow eightPlayerErrors).reconnectAttemptCount_ = maxReconnectAttempts_ ∧
      (run watchingWindow eightPlayerErrors).reconnectTimer_ = some 6200 ∧
      watchCalls (step envOk .reconnectTimeout (run watchingWindow eightPlayerErrors)).trace =
        watchCalls (run watchingWindow eightPlayerErrors).trace ++ [(qs "KTVU", true)]) := by
  decide

/-- C7, amended: once the retries are used up (the counter at the bound, the
escalation no longer applicable, no reconnect timer pending), every later sequence of
events other than commands of the user (exits of the processes, status and errors of
the player, firings of the timers) leaves it so: `startWatchingChannel` is not called,
no reconnect timer is started, the counter stays at the bound, and no timer is
pending. -/
theorem used_up_stays_used_up (w : MainWindow) (events : List (Env × Event))
    (hNoUser : ∀ p ∈ events, p.2.isUserCommand = false) (hUsedUp : Exhausted w) :
    watchCalls (run w events).trace = watchCalls w.trace ∧
    timerStarts (run w events).trace = timerStarts w.trace ∧
    maxReconnectAttempts_ ≤ (run w events).reconnectAttemptCount_ ∧
    (run w events).reconnectTimer_ = none ∧
    Exhausted (run w events) := by
  obtain ⟨h1, h2, h3⟩ := (auto_run w events hNoUser).exhaustedKeeps hUsedUp
  exact ⟨h2, h3, h1.1, h1.2.2, h1⟩

/-- Witness of C7, amended: after the escalation and all retries are used up, a lock
exit, a bridge exit, two player notifications and a firing of the timer change
nothing of it. -/
theorem used_up_stays_used_up_witness :
    Exhausted usedUpWindow ∧
    watchCalls (run usedUpWindow
      [(envOk, .zapFinished 1 .NormalExit), (envOk, .bridgeFinished 1 .CrashExit),
        (envOk, .mediaStatusChanged .InvalidMedia), (envOk, .playerError 1 (qs "demuxer")),
        (envOk, .reconnectTimeout)]).trace = watchCalls usedUpWindow.trace :=
  have hex : Exhausted usedUpWindow := ⟨by decide, Or.inl (by decide), by decide⟩
  ⟨hex, (used_up_stays_used_up usedUpWindow _ (by decide) hex).1⟩

/-- C8: after `stopWatching` the reconnect timer is stopped, and no watch happens
until the user starts one: a firing of `triggerReconnect` or of the device-ready
timeout callback changes nothing, every failure handler (lock exit, bridge exit,
player status, player error) calls neither `startWatchingChannel` nor
`startPlaybackFromDvr`, and so does every sequence of events that holds no fresh
watch command. -/
theorem no_watch_after_stop (w : MainWindow) :
    (stopWatching w).reconnectTimer_ = none ∧
    (∀ env, triggerReconnect env (stopWatching w) = stopWatching w) ∧
    (∀ env dvrPath, dvrReadyTimeout env dvrPath (stopWatching w) = stopWatching w) ∧
    (∀ exitCode exitStatus,
      watchCalls (handleZapFinished exitCode exitStatus (stopWatching w)).trace =
        watchCalls (stopWatching w).trace ∧
      playbackCalls (handleZapFinished exitCode exitStatus (stopWatching w)).trace =
        playbackCalls (stopWatching w).trace) ∧
    (∀ env exitCode exitStatus,
      watchCalls (handleBridgeFinished env exitCode exitStatus (stopWatching w)).trace =
        watchCalls (stopWatching w).trace ∧
      playbackCalls (handleBridgeFinished env exitCode exitStatus (stopWatching w)).trace =
        playbackCalls (stopWatching w).trace) ∧
    (∀ env status,
      watchCalls (handleMediaStatusChanged env status (stopWatching w)).trace =
        watchCalls (stopWatching w).trace ∧
      playbackCalls (handleMediaStatusChanged env status (stopWatching w)).trace =
        playbackCalls (stopWatching w).trace) ∧
    (∀ env errorText,
      watchCalls (handlePlayerError env errorText (stopWatching w)).trace =
        watchCalls (stopWatching w).trace ∧
      playbackCalls (handlePlayerError env errorText (stopWatching w)).trace =
        playbackCalls (stopWatching w).trace) ∧
    (∀ events : List (Env × Event), (∀ p ∈ events, p.2.isWatchCommand = false) →
      watchCalls (run (stopWatching w) events).trace = watchCalls (stopWatching w).trace ∧
      playbackCalls (run (stopWatching w) events).trace =
        playbackCalls (stopWatching w).trace ∧
      (run (stopWatching w) events).userStoppedWatching_ = true ∧
      (run (stopWatching w) events).reconnectTimer_ = none) := by
  have hst : StoppedByUser (stopWatching w) := (stops_stopWatching w).stopped
  refine ⟨hst.2.2, ?_, ?_, ?_, ?_, ?_, ?_, ?_⟩
  · intro env
    unfold triggerReconnect
    rw [if_pos (by simp [hst.1])]
  · intro env dvrPath
    unfold dvrReadyTimeout
    rw [if_neg (by simp [hst.2.1])]
  · intro exitCode exitStatus
    exact ((auto_handleZapFinished exitCode exitStatus _).stoppedKeeps hst).2
  · intro env exitCode exitStatus
    exact ((auto_handleBridgeFinished env exitCode exitStatus _).stoppedKeeps hst).2
  · intro env status
    exact ((auto_handleMediaStatusChanged env status _).stoppedKeeps hst).2
  · intro env errorText
    exact ((auto_handlePlayerError env errorText _).stoppedKeeps hst).2
  · intro events hev
    obtain ⟨h1, h2, h3⟩ := stopped_run (stopWatching w) events hev hst
    exact ⟨h2, h3, h1.1, h1.2.2⟩

/-- Witness of C8: the user stops a watch whose reconnect timer is pending; the
firing of that timer, a lock exit and a player error afterwards call nothing. -/
theorem no_watch_after_stop_witness :
    (run watchingWindow twoPlayerErrors).reconnectTimer_ = some 1700 ∧
    watchCalls (run (stopWatching (run watchingWindow twoPlayerErrors))
      [(envOk, .reconnectTimeout), (envOk, .zapFinished 1 .NormalExit),
        (envOk, .playerError 1 (qs "demuxer"))]).trace =
      watchCalls (stopWatching (run watchingWindow twoPlayerErrors)).trace :=
  ⟨by decide, ((no_watch_after_stop (run watchingWindow twoPlayerErrors)).2.2.2.2.2.2.2
    [(envOk, .reconnectTimeout), (envOk, .zapFinished 1 .NormalExit),
      (envOk, .playerError 1 (qs "demuxer"))] (by decide)).1⟩

/-- C9: `stopWatching` is idempotent on the state apart from the trace of effects: a
second call changes no member variable and no Qt object; and after it the session is
user-stopped, the counter zero, both resilient flags false, the wait for the device
over, and channel name, program id and pending device path empty. -/
theorem stopWatching_idempotent (w : MainWindow) :
    { stopWatching (stopWatching w) with trace := (stopWatching w).trace } = stopWatching w ∧
    (stopWatching w).userStoppedWatching_ = true ∧
    (stopWatching w).reconnectAttemptCount_ = 0 ∧
    (stopWatching w).useResilientBridgeMode_ = false ∧
    (stopWatching w).resilientBridgeTried_ = false ∧
    (stopWatching w).waitingForDvrReady_ = false ∧
    (stopWatching w).currentChannelName_ = [] ∧
    (stopWatching w).currentProgramId_ = [] ∧
    (stopWatching w).pendingDvrPath_ = [] ∧
    (stopWatching w).reconnectTimer_ = none ∧
    (stopWatching w).zapProcess_ = .NotRunning ∧
    (stopWatching w).streamBridgeProcess_ = .NotRunning ∧
    (stopWatching w).dvrStream_ = none := by
  refine ⟨?_, ?_⟩
  · rw [stopWatching_eq (stopWatching w)]
    rw [stopWatching_eq w]
    simp
  · rw [stopWatching_eq w]
    simp

theorem messageBoxes_append (t u : List Effect) :
    messageBoxes (t ++ u) = messageBoxes t ++ messageBoxes u := by
  simp [messageBoxes]

/-- The program id looked up depends on the hints, the catalog and the channels file
only. -/
theorem programIdForChannel_congr (env : Env) (w v : MainWindow) (name : QString)
    (h1 : v.xspfProgramByChannel_ = w.xspfProgramByChannel_)
    (h2 : v.channelLines_ = w.channelLines_) (h3 : v.disk = w.disk)
    (h4 : v.channelsFilePath_ = w.channelsFilePath_) :
    programIdForChannel env v name = programIdForChannel env w name := by
  unfold programIdForChannel
  rw [h1, h2, h3, h4]

/-- What `persistChannelsFile` does to the message boxes, the timer starts and the
process starts of a trace: nothing. -/
theorem persistChannelsFile_log (env : Env) (w : MainWindow) :
    ∃ log, (persistChannelsFile env w).2.trace = w.trace ++ log ∧
      messageBoxes log = [] ∧ timerStarts log = [] := by
  rw [persistChannelsFile_eq]
  split_ifs
  · exact ⟨[], by simp, rfl, rfl⟩
  · exact ⟨_, rfl, rfl, rfl⟩
  · exact ⟨_, rfl, rfl, rfl⟩
  · exact ⟨_, rfl, rfl, rfl⟩
  · exact ⟨_, rfl, rfl, rfl⟩

/-- Counterexample to C10 as stated.  With an empty channel name
`startWatchingChannel` returns false and does nothing but note the call: no error is
surfaced and no reconnect scheduled.  And when the lock process fails to start at the
sixth reconnect attempt, it returns false, shows no message box and arms no timer:
the counter is at the bound. -/
theorem watch_can_fail_without_reconnect :
    (startWatchingChannel envOk [] false watchingWindow).1 = false ∧
    (startWatchingChannel envOk [] false watchingWindow).2 =
      record (.enterStartWatchingChannel [] false) watchingWindow ∧
    (run idleWindow lockKeepsFailing.dropLast).reconnectAttemptCount_ = 6 ∧
    (run idleWindow lockKeepsFailing.dropLast).currentChannelName_ = qs "KTVU" ∧
    (startWatchingChannel envZapFails (qs "KTVU") true
      (run idleWindow lockKeepsFailing.dropLast)).1 = false ∧
    (startWatchingChannel envZapFails (qs "KTVU") true
      (run idleWindow lockKeepsFailing.dropLast)).2.reconnectTimer_ = none ∧
    timerStarts (startWatchingChannel envZapFails (qs "KTVU") true
      (run idleWindow lockKeepsFailing.dropLast)).2.trace =
      timerStarts (run idleWindow lockKeepsFailing.dropLast).trace ∧
    messageBoxes (startWatchingChannel envZapFails (qs "KTVU") true
      (run idleWindow lockKeepsFailing.dropLast)).2.trace = [] := by
  decide

/-- C10, amended: `startWatchingChannel` ends in exactly one of four ways.  (1) It
returns true, the lock process runs, and the session holds the requested name, the
program id `programIdForChannel` gives for it, the pending path
`/dev/dvb/adapter<A>/dvr0` and the wait for the device.  (2) The name is empty: it
returns false and does nothing but note the call.  (3) A precondition fails (the
catalog cannot be persisted or the lock executable is missing): it returns false,
shows one message box, starts no process and leaves the session as it was.  (4) The
lock process fails to start: it returns false, shows no message box, logs the
failure and calls `scheduleReconnect`; if the session held a channel name, this arms
the reconnect timer when the counter is below the bound, and reports the terminal
failure, arming nothing, when it is at the bound. -/
theorem startWatchingChannel_outcomes (env : Env) (name : QString) (r : Bool)
    (w : MainWindow) :
    ((startWatchingChannel env name r w).1 = true ∧
      (startWatchingChannel env name r w).2.zapProcess_ = .Running ∧
      (startWatchingChannel env name r w).2.currentChannelName_ = name ∧
      (startWatchingChannel env name r w).2.currentProgramId_ =
        programIdForChannel env (startWatchingChannel env name r w).2 name ∧
      (startWatchingChannel env name r w).2.pendingDvrPath_ =
        dvrPathFor (startWatchingChannel env name r w).2.adapterSpin_ ∧
      (startWatchingChannel env name r w).2.waitingForDvrReady_ = true ∧
      (∃ args, Effect.zapStart env.zapExe args ∈ (startWatchingChannel env name r w).2.trace)) ∨
    ((startWatchingChannel env name r w).1 = false ∧ name = [] ∧
      (startWatchingChannel env name r w).2 = record (.enterStartWatchingChannel name r) w) ∨
    ((startWatchingChannel env name r w).1 = false ∧ name ≠ [] ∧
      ((persistChannelsFile env w).1 = false ∨ env.zapExe = []) ∧
      (∃ title, messageBoxes (startWatchingChannel env name r w).2.trace =
        messageBoxes w.trace ++ [title]) ∧
      (startWatchingChannel env name r w).2.session = w.session ∧
      (startWatchingChannel env name r w).2.zapProcess_ = w.zapProcess_ ∧
      timerStarts (startWatchingChannel env name r w).2.trace = timerStarts w.trace) ∨
    ((startWatchingChannel env name r w).1 = false ∧ name ≠ [] ∧
      env.zapStarted.ok = false ∧
      messageBoxes (startWatchingChannel env name r w).2.trace = messageBoxes w.trace ∧
      (∃ args, Effect.zapStart env.zapExe args ∈ (startWatchingChannel env name r w).2.trace) ∧
      Effect.appendLog (qs "Failed to start dvbv5-zap for " ++ name) ∈
        (startWatchingChannel env name r w).2.trace ∧
      (w.currentChannelName_ ≠ [] →
        ((bif r then w.reconnectAttemptCount_ else 0) < maxReconnectAttempts_ →
          (startWatchingChannel env name r w).2.reconnectAttemptCount_ =
            (bif r then w.reconnectAttemptCount_ else 0) + 1 ∧
          (startWatchingChannel env name r w).2.reconnectTimer_ =
            some (800 + ((bif r then w.reconnectAttemptCount_ else 0) + 1) * 900) ∧
          timerStarts (startWatchingChannel env name r w).2.trace = timerStarts w.trace ++
            [800 + ((bif r then w.reconnectAttemptCount_ else 0) + 1) * 900]) ∧
        (maxReconnectAttempts_ ≤ (bif r then w.reconnectAttemptCount_ else 0) →
          (startWatchingChannel env name r w).2.reconnectTimer_ = none ∧
          timerStarts (startWatchingChannel env name r w).2.trace = timerStarts w.trace ∧
          Effect.appendLog (qs "Reconnect failed after maximum attempts.") ∈
            (startWatchingChannel env name r w).2.trace))) := by
  have hok : (persistChannelsFile env (record (.enterStartWatchingChannel name r) w)).1 =
      (persistChannelsFile env w).1 := persistChannelsFile_ok_congr env w _ rfl
  obtain ⟨path, disk, log, hw1, -⟩ :=
    persistChannelsFile_frame env (record (.enterStartWatchingChannel name r) w)
  obtain ⟨log', hl1, hl2, hl3⟩ :=
    persistChannelsFile_log env (record (.enterStartWatchingChannel name r) w)
  have hlog : log = log' := by
    have := congrArg MainWindow.trace hw1
    rw [hl1] at this
    simpa using this.symm
  subst hlog
  rw [startWatchingChannel_eq, hok, hw1]
  by_cases hn : name = []
  · rw [if_pos hn]
    exact Or.inr (Or.inl ⟨rfl, hn, rfl⟩)
  rw [if_neg hn]
  by_cases hp : (persistChannelsFile env w).1 = false
  · rw [if_pos hp]
    refine Or.inr (Or.inr (Or.inl ⟨rfl, hn, Or.inl hp, ⟨qs "No channel list", ?_⟩, rfl, rfl, ?_⟩))
    · simp only [messageBox, record, messageBoxes_append, hl2]
      simp [messageBoxes]
    · simp only [messageBox, record, timerStarts_append, hl3]
      simp [timerStarts]
  rw [if_neg hp]
  by_cases hz : env.zapExe = []
  · rw [if_pos hz]
    refine Or.inr (Or.inr (Or.inl ⟨rfl, hn, Or.inr hz, ⟨qs "Missing dependency", ?_⟩, rfl, rfl, ?_⟩))
    · simp only [messageBox, record, messageBoxes_append, hl2]
      simp [messageBoxes]
    · simp only [messageBox, record, timerStarts_append, hl3]
      simp [timerStarts]
  rw [if_neg hz]
  by_cases hs : env.zapStarted.ok = false
  · rw [if_pos hs]
    refine Or.inr (Or.inr (Or.inr ⟨rfl, hn, hs, ?_, ?_, ?_, ?_⟩))
    · simp only [prepareWatch_eq, startZap_eq, appendLog, record, scheduleReconnect_eq]
      split_ifs <;> simp only [messageBoxes_append, hl2] <;> simp [messageBoxes]
    · refine ⟨zapArguments { w with channelsFilePath_ := path } name, ?_⟩
      simp only [prepareWatch_eq, startZap_eq, appendLog, record, scheduleReconnect_eq]
      split_ifs <;> simp [zapArguments]
    · simp only [prepareWatch_eq, startZap_eq, appendLog, record, scheduleReconnect_eq]
      split_ifs <;> simp
    · intro hw
      simp only [prepareWatch_eq, startZap_eq, appendLog, record, scheduleReconnect_eq]
      rw [if_neg (by simp [hw])]
      constructor
      · intro hlt
        have hlt' : ¬ maxReconnectAttempts_ ≤ (if r = true then w.reconnectAttemptCount_ else 0) := by
          cases r <;> simpa using hlt
        rw [if_neg hlt']
        refine ⟨by cases r <;> simp, by cases r <;> simp, ?_⟩
        simp only [timerStarts_append, hl3]
        cases r <;> simp [timerStarts]
      · intro hge
        have hge' : maxReconnectAttempts_ ≤ (if r = true then w.reconnectAttemptCount_ else 0) := by
          cases r <;> simpa using hge
        rw [if_pos hge']
        refine ⟨rfl, ?_, by simp⟩
        simp only [timerStarts_append, hl3]
        simp [timerStarts]
  · rw [if_neg hs]
    have hs' : env.zapStarted = .started := by
      cases h : env.zapStarted <;> simp_all [StartOutcome.ok]
    refine Or.inl ⟨rfl, ?_, ?_, ?_, ?_, ?_, ?_⟩
    · simp [awaitDvr_eq, startZap_eq, hs', StartOutcome.state]
    · simp [awaitDvr_eq]
    · simp only [awaitDvr_eq]
      exact programIdForChannel_congr env _ _ name rfl rfl rfl rfl
    · simp [awaitDvr_eq, startZap_eq, prepareWatch_eq, record]
    · simp [awaitDvr_eq]
    · refine ⟨zapArguments { w with channelsFilePath_ := path } name, ?_⟩
      simp [awaitDvr_eq, startZap_eq, prepareWatch_eq, record, zapArguments]

/-- Witness of C10, amended: a reconnect attempt of the watched channel whose lock
process fails to start returns false and arms the reconnect timer with 1700 ms. -/
theorem startWatchingChannel_outcomes_witness :
    (startWatchingChannel envZapFails (qs "KTVU") true watchingWindow).1 = false ∧
    (startWatchingChannel envZapFails (qs "KTVU") true watchingWindow).2.reconnectTimer_ =
      some 1700 := by
  rcases startWatchingChannel_outcomes envZapFails (qs "KTVU") true watchingWindow with
    h | h | h | h
  · exact absurd h.1 (by decide)
  · exact absurd h.2.1 (by decide)
  · exact absurd h.2.2.1 (by decide)
  · exact ⟨h.1, (((h.2.2.2.2.2.2 (by decide)).1 (by decide)).2.1).trans (by decide)⟩

/-! ## Strings: splitting and trimming -/

theorem split_ne_nil (sep : Char) (s : QString) : split sep s ≠ [] := by
  unfold split
  exact List.splitOnP_ne_nil _ _

theorem intercalate_split (sep : Char) (s : QString) :
    [sep].intercalate (split sep s) = s := by
  unfold split
  exact List.intercalate_splitOn s sep

theorem split_intercalate (sep : Char) (ls : List QString) (hx : ∀ l ∈ ls, sep ∉ l)
    (hls : ls ≠ []) : split sep ([sep].intercalate ls) = ls := by
  unfold split
  exact List.splitOn_intercalate ls sep hx hls

/-- No field of a split holds the separator. -/
theorem sep_not_mem_split (sep : Char) (s : QString) : ∀ l ∈ split sep s, sep ∉ l := by
  unfold split List.splitOn
  induction s with
  | nil => simp
  | cons c cs ih =>
    rw [List.splitOnP_cons]
    split_ifs with h
    · intro l hl
      rcases List.mem_cons.mp hl with rfl | hl
      · simp
      · exact ih l hl
    · intro l hl
      rcases hsp : List.splitOnP (fun x => x == sep) cs with _ | ⟨p, ps⟩
      · exact absurd hsp (List.splitOnP_ne_nil _ _)
      · rw [hsp] at hl ih
        simp only [List.modifyHead, List.mem_cons] at hl
        rcases hl with rfl | hl
        · intro hmem
          rcases List.mem_cons.mp hmem with rfl | hmem
          · simp at h
          · exact ih p (by simp) hmem
        · exact ih l (by simp [hl])

/-- Every character of a field of a split is a character of the string. -/
theorem mem_of_mem_split (sep : Char) (s : QString) :
    ∀ l ∈ split sep s, ∀ x ∈ l, x ∈ s := by
  unfold split List.splitOn
  induction s with
  | nil => simp
  | cons c cs ih =>
    rw [List.splitOnP_cons]
    split_ifs with h
    · intro l hl x hx
      rcases List.mem_cons.mp hl with rfl | hl
      · simp at hx
      · exact List.mem_cons_of_mem _ (ih l hl x hx)
    · intro l hl x hx
      rcases hsp : List.splitOnP (fun x => x == sep) cs with _ | ⟨p, ps⟩
      · exact absurd hsp (List.splitOnP_ne_nil _ _)
      · rw [hsp] at hl ih
        simp only [List.modifyHead, List.mem_cons] at hl
        rcases hl with rfl | hl
        · rcases List.mem_cons.mp hx with rfl | hx
          · simp
          · exact List.mem_cons_of_mem _ (ih p (by simp) x hx)
        · exact List.mem_cons_of_mem _ (ih l (by simp [hl]) x hx)

/-! ## Modulation normalization -/

theorem normalizeZapLine_short (line : QString) (h : (split ':' line).length < 3) :
    normalizeZapLine line = line := by
  unfold normalizeZapLine
  simp only [if_pos h]

theorem normalizeZapLine_other (line : QString)
    (h8 : toUpper (trimmed ((split ':' line).getD 2 [])) ≠ qs "VSB_8")
    (h16 : toUpper (trimmed ((split ':' line).getD 2 [])) ≠ qs "VSB_16") :
    normalizeZapLine line = line := by
  unfold normalizeZapLine
  by_cases h : (split ':' line).length < 3
  · simp only [if_pos h]
  · simp only [if_neg h, if_neg h8, if_neg h16]
    exact intercalate_split ':' line

theorem normalizeZapLine_replaced (line x : QString) (h : 3 ≤ (split ':' line).length)
    (hx : ':' ∉ x)
    (hn : normalizeZapLine line = (qs ":").intercalate ((split ':' line).set 2 x)) :
    split ':' (normalizeZapLine line) = (split ':' line).set 2 x := by
  rw [hn]
  apply split_intercalate
  · intro l hl
    rcases List.mem_or_eq_of_mem_set hl with hl | rfl
    · exact sep_not_mem_split ':' line l hl
    · exact hx
  · intro hnil
    have := congrArg List.length hnil
    rw [List.length_set, List.length_nil] at this
    omega

theorem normalizeZapLine_vsb8 (line : QString) (h : 3 ≤ (split ':' line).length)
    (h8 : toUpper (trimmed ((split ':' line).getD 2 [])) = qs "VSB_8") :
    normalizeZapLine line = (qs ":").intercalate ((split ':' line).set 2 (qs "8VSB")) := by
  unfold normalizeZapLine
  simp only [if_neg (not_lt.mpr h), if_pos h8]

theorem normalizeZapLine_vsb16 (line : QString) (h : 3 ≤ (split ':' line).length)
    (h16 : toUpper (trimmed ((split ':' line).getD 2 [])) = qs "VSB_16") :
    normalizeZapLine line = (qs ":").intercalate ((split ':' line).set 2 (qs "16VSB")) := by
  unfold normalizeZapLine
  have h8 : toUpper (trimmed ((split ':' line).getD 2 [])) ≠ qs "VSB_8" := by
    rw [h16]; decide
  simp only [if_neg (not_lt.mpr h), if_neg h8, if_pos h16]

/-- The fields of a normalized line: those of the line, with field 2 replaced by a
modulation name when the line has three fields or more. -/
theorem split_normalizeZapLine (line : QString) :
    ∃ x, split ':' (normalizeZapLine line) = (split ':' line).set 2 x ∧
      normalizeZapLine line = (qs ":").intercalate ((split ':' line).set 2 x) ∧
      ':' ∉ x ∧
      (x = (split ':' line).getD 2 [] ∨ x = qs "8VSB" ∨ x = qs "16VSB") := by
  have hself : (split ':' line).set 2 ((split ':' line).getD 2 []) = split ':' line := by
    apply List.ext_getElem
    · simp
    · intro i h1 h2
      rw [List.getElem_set]
      split_ifs with hi
      · subst hi
        rw [List.getD_eq_getElem?_getD, List.getElem?_eq_getElem h2]
        rfl
      · rfl
  have hcolon : ':' ∉ (split ':' line).getD 2 [] := by
    by_cases h : 2 < (split ':' line).length
    · rw [List.getD_eq_getElem?_getD, List.getElem?_eq_getElem h]
      exact sep_not_mem_split ':' line _ (List.getElem_mem _)
    · rw [List.getD_eq_getElem?_getD, List.getElem?_eq_none (by omega)]
      simp
  have hkeep : normalizeZapLine line = line →
      ∃ x, split ':' (normalizeZapLine line) = (split ':' line).set 2 x ∧
      normalizeZapLine line = (qs ":").intercalate ((split ':' line).set 2 x) ∧
      ':' ∉ x ∧
      (x = (split ':' line).getD 2 [] ∨ x = qs "8VSB" ∨ x = qs "16VSB") := by
    intro hl
    refine ⟨(split ':' line).getD 2 [], ?_, ?_, hcolon, Or.inl rfl⟩
    · rw [hl, hself]
    · rw [hl, hself]
      exact (intercalate_split ':' line).symm
  by_cases h : (split ':' line).length < 3
  · exact hkeep (normalizeZapLine_short line h)
  by_cases h8 : toUpper (trimmed ((split ':' line).getD 2 [])) = qs "VSB_8"
  · have hn := normalizeZapLine_vsb8 line (not_lt.mp h) h8
    exact ⟨qs "8VSB", normalizeZapLine_replaced line _ (not_lt.mp h) (by decide) hn, hn,
      by decide, Or.inr (Or.inl rfl)⟩
  by_cases h16 : toUpper (trimmed ((split ':' line).getD 2 [])) = qs "VSB_16"
  · have hn := normalizeZapLine_vsb16 line (not_lt.mp h) h16
    exact ⟨qs "16VSB", normalizeZapLine_replaced line _ (not_lt.mp h) (by decide) hn, hn,
      by decide, Or.inr (Or.inr rfl)⟩
  exact hkeep (normalizeZapLine_other line h8 h16)

theorem length_split_normalizeZapLine (line : QString) :
    (split ':' (normalizeZapLine line)).length = (split ':' line).length := by
  obtain ⟨x, hx, -⟩ := split_normalizeZapLine line
  rw [hx, List.length_set]

theorem getD_split_normalizeZapLine (line : QString) (i : Nat) (hi : i ≠ 2) :
    (split ':' (normalizeZapLine line)).getD i [] = (split ':' line).getD i [] := by
  obtain ⟨x, hx, -⟩ := split_normalizeZapLine line
  rw [hx, List.getD_eq_getElem?_getD, List.getD_eq_getElem?_getD,
    List.getElem?_set_ne (Ne.symm hi)]

theorem normalizeZapLine_idem (line : QString) :
    normalizeZapLine (normalizeZapLine line) = normalizeZapLine line := by
  by_cases h : (split ':' line).length < 3
  · rw [normalizeZapLine_short line h, normalizeZapLine_short line h]
  have h3 : 3 ≤ (split ':' line).length := not_lt.mp h
  have hget : ∀ x : QString, ((split ':' line).set 2 x).getD 2 [] = x := by
    intro x
    rw [List.getD_eq_getElem?_getD, List.getElem?_set_self (by omega)]
    rfl
  by_cases h8 : toUpper (trimmed ((split ':' line).getD 2 [])) = qs "VSB_8"
  · have hn := normalizeZapLine_vsb8 line h3 h8
    have hs := normalizeZapLine_replaced line _ h3 (by decide) hn
    apply normalizeZapLine_other
    · rw [hs, hget]; decide
    · rw [hs, hget]; decide
  by_cases h16 : toUpper (trimmed ((split ':' line).getD 2 [])) = qs "VSB_16"
  · have hn := normalizeZapLine_vsb16 line h3 h16
    have hs := normalizeZapLine_replaced line _ h3 (by decide) hn
    apply normalizeZapLine_other
    · rw [hs, hget]; decide
    · rw [hs, hget]; decide
  rw [normalizeZapLine_other line h8 h16, normalizeZapLine_other line h8 h16]

/-! ## Parsing scanner lines -/

/-- Closed form of `parseAndStoreLine`, on the fields of the line itself. -/
theorem parseAndStoreLine_eq (line : QString) (w : MainWindow) :
    parseAndStoreLine line w =
      if rejectsLine line = true then w
      else
        { w with
          channelLines_ :=
            if normalizeZapLine line ∈ w.channelLines_ then w.channelLines_
            else w.channelLines_ ++ [normalizeZapLine line]
          channelsTable_ := w.channelsTable_ ++
            [(trimmed ((split ':' line).getD 0 []), providerOf line, normalizeZapLine line)] } := by
  unfold parseAndStoreLine rejectsLine providerOf
  simp only [length_split_normalizeZapLine, getD_split_normalizeZapLine line 0 (by decide),
    getD_split_normalizeZapLine line 10 (by decide)]
  by_cases h1 : ((qs "#").isPrefixOf line || (qs "stderr:").isPrefixOf line) = true
  · rw [if_pos h1, if_pos (by rw [h1]; rfl)]
  rw [if_neg h1]
  have h1' := eq_false_of_ne_true h1
  by_cases h2 : (split ':' line).length < 3
  · rw [if_pos h2, if_pos (by rw [h1', decide_eq_true h2]; rfl)]
  rw [if_neg h2]
  by_cases h3 : (trimmed ((split ':' line).getD 0 [])).isEmpty = true
  · rw [if_pos h3, if_pos (by rw [h3]; simp)]
  rw [if_neg h3]
  have hr : ((qs "#").isPrefixOf line || (qs "stderr:").isPrefixOf line ||
      decide ((split ':' line).length < 3) ||
      (trimmed ((split ':' line).getD 0 [])).isEmpty) = false := by
    rw [h1', decide_eq_false h2, eq_false_of_ne_true h3]
    rfl
  rw [hr]
  simp only [Bool.false_eq_true, if_false]
  by_cases hm : normalizeZapLine line ∈ w.channelLines_
  · by_cases h10 : 10 < (split ':' line).length
    · by_cases hp : trimmed ((split ':' line).getD 10 []) = []
      · simp [hm, h10, hp]
      · simp [hm, h10, hp]
    · simp [hm, h10]
  · by_cases h10 : 10 < (split ':' line).length
    · by_cases hp : trimmed ((split ':' line).getD 10 []) = []
      · simp [hm, h10, hp]
      · simp [hm, h10, hp]
    · simp [hm, h10]

/-! ## Trimming -/

theorem trimmed_eq_self_iff (s : QString) :
    trimmed s = s ↔
      (∀ c, s.head? = some c → isSpace c = false) ∧
      (∀ c, s.getLast? = some c → isSpace c = false) := by
  have hhead : List.dropWhile isSpace s = s ↔ ∀ c, s.head? = some c → isSpace c = false := by
    rw [List.dropWhile_eq_self_iff]
    cases s with
    | nil => simp
    | cons a t => simp
  have hlast : List.rdropWhile isSpace s = s ↔
      ∀ c, s.getLast? = some c → isSpace c = false := by
    rw [List.rdropWhile_eq_self_iff]
    constructor
    · intro h c hc
      have hne : s ≠ [] := by
        intro hs
        rw [hs] at hc
        simp at hc
      have h2 := h hne
      rw [List.getLast?_eq_getLast _ hne] at hc
      cases hc
      simpa using h2
    · intro h hne
      have := h (s.getLast hne) (List.getLast?_eq_getLast _ hne)
      simp [this]
  unfold trimmed
  constructor
  · intro h
    have hpre : (List.rdropWhile isSpace (List.dropWhile isSpace s)).length ≤
        (List.dropWhile isSpace s).length := (List.rdropWhile_prefix isSpace _).length_le
    have hsuf : (List.dropWhile isSpace s).length ≤ s.length :=
      (List.dropWhile_suffix isSpace).length_le
    have hlen : (List.dropWhile isSpace s).length = s.length := by
      rw [h] at hpre
      omega
    have hd : List.dropWhile isSpace s = s :=
      (List.dropWhile_suffix isSpace).eq_of_length hlen
    rw [hd] at h
    exact ⟨hhead.mp hd, hlast.mp h⟩
  · rintro ⟨h1, h2⟩
    rw [hhead.mpr h1, hlast.mpr h2]

/-- The newline `readLine` leaves at the end of a line is trimmed away. -/
theorem trimmed_append_newline (s : QString) : trimmed (s ++ ['\n']) = trimmed s := by
  unfold trimmed
  rw [List.dropWhile_append]
  split_ifs with h
  · have hs : List.dropWhile isSpace s = [] := by simpa using h
    rw [hs]
    decide
  · exact List.rdropWhile_concat_pos _ _ _ (by decide)

/-- A trimmed line followed by its newline comes back when trimmed. -/
theorem trimmed_line_newline (s : QString) (h : trimmed s = s) :
    trimmed (s ++ ['\n']) = s := by
  rw [trimmed_append_newline, h]

/-! ## Reading a text file line by line -/

theorem readLines_line (e rest : QString) (h : '\n' ∉ e) :
    readLines (e ++ '\n' :: rest) = (e ++ ['\n']) :: readLines rest := by
  induction e with
  | nil => simp [readLines]
  | cons c cs ih =>
    have hc : c ≠ '\n' := by
      intro hc
      exact h (by simp [hc])
    have hcs : '\n' ∉ cs := by
      intro hm
      exact h (List.mem_cons_of_mem _ hm)
    have ih2 := ih hcs
    rw [List.cons_append, readLines, if_neg hc, ih2]
    rfl

/-- The lines read back from the text `persistChannelsFile` writes. -/
theorem readLines_channelsFileText (c : List QString) (h : ∀ e ∈ c, '\n' ∉ e) :
    readLines (channelsFileText c) = c.map (fun e => e ++ ['\n']) := by
  unfold channelsFileText
  induction c with
  | nil => simp [readLines]
  | cons e rest ih =>
    have he : '\n' ∉ e := h e (by simp)
    have hrest : ∀ x ∈ rest, '\n' ∉ x := fun x hx => h x (by simp [hx])
    have hq : qs "\n" = ['\n'] := rfl
    simp only [List.map_cons, List.flatten_cons, hq, List.append_assoc, List.singleton_append]
    rw [readLines_line e _ he]
    simp only [hq] at ih
    rw [ih hrest]

/-! ## The entries of the catalog -/

theorem intercalate_cons_cons (sep a b : QString) (ls : List QString) :
    sep.intercalate (a :: b :: ls) = a ++ sep ++ sep.intercalate (b :: ls) := by
  simp [List.intercalate, List.intersperse]

/-- A line of three fields or more and its normalized form, side by side: they differ
in field 2 at most. -/
theorem normalizeZapLine_shape (line : QString) (h : 3 ≤ (split ':' line).length) :
    ∃ f0 f1 f2 x t,
      line = f0 ++ ':' :: (f1 ++ ':' :: (f2 ++ t)) ∧
      normalizeZapLine line = f0 ++ ':' :: (f1 ++ ':' :: (x ++ t)) ∧
      (x = f2 ∨ x = qs "8VSB" ∨ x = qs "16VSB") ∧
      f0 = (split ':' line).getD 0 [] ∧ ':' ∉ f0 ∧
      (t = [] ∨ ∃ r, t = ':' :: r) := by
  obtain ⟨x, -, hn, -, hx⟩ := split_normalizeZapLine line
  have hl := (intercalate_split ':' line).symm
  have hno := sep_not_mem_split ':' line
  rcases hp : split ':' line with _ | ⟨f0, _ | ⟨f1, _ | ⟨f2, rest⟩⟩⟩
  · rw [hp] at h; simp at h
  · rw [hp] at h; simp at h
  · rw [hp] at h; simp at h
  rw [hp] at hn hl hx hno
  have hq : qs ":" = [':'] := rfl
  have hx' : x = f2 ∨ x = qs "8VSB" ∨ x = qs "16VSB" := by simpa using hx
  cases rest with
  | nil =>
    refine ⟨f0, f1, f2, x, [], ?_, ?_, hx', by simp, hno f0 (by simp), Or.inl rfl⟩
    · rw [hl]
      simp [List.intercalate, List.intersperse]
    · rw [hn, hq]
      simp [List.intercalate, List.intersperse]
  | cons r rs =>
    refine ⟨f0, f1, f2, x, ':' :: [':'].intercalate (r :: rs), ?_, ?_, hx', by simp,
      hno f0 (by simp), Or.inr ⟨_, rfl⟩⟩
    · rw [hl]
      simp [List.intercalate, List.intersperse]
    · rw [hn, hq]
      simp [List.intercalate, List.intersperse]

theorem isPrefixOf_hash_field (f0 r r' : QString) :
    (qs "#").isPrefixOf (f0 ++ ':' :: r) = (qs "#").isPrefixOf (f0 ++ ':' :: r') := by
  have hq : qs "#" = ['#'] := rfl
  rw [hq]
  cases f0 with
  | nil => simp [List.isPrefixOf]
  | cons d f => simp [List.isPrefixOf]

theorem isPrefixOf_field (p f0 r : QString) (hp : ':' ∉ p) (hf : ':' ∉ f0) :
    (p ++ [':']).isPrefixOf (f0 ++ ':' :: r) = decide (p = f0) := by
  induction p generalizing f0 with
  | nil =>
    cases f0 with
    | nil => simp [List.isPrefixOf]
    | cons d f =>
      have hd : d ≠ ':' := by
        intro hd
        exact hf (by simp [hd])
      simp [List.isPrefixOf, hd, Ne.symm hd]
  | cons c p ih =>
    have hc : c ≠ ':' := by
      intro hc
      exact hp (by simp [hc])
    cases f0 with
    | nil => simp [List.isPrefixOf, hc]
    | cons d f =>
      have ih2 := ih f (fun hm => hp (List.mem_cons_of_mem _ hm))
        (fun hm => hf (List.mem_cons_of_mem _ hm))
      have hstep : (c :: p ++ [':']).isPrefixOf (d :: f ++ ':' :: r) =
          (c == d && (p ++ [':']).isPrefixOf (f ++ ':' :: r)) := rfl
      rw [hstep, ih2]
      by_cases hcd : c = d
      · subst hcd
        by_cases hpf : p = f <;> simp [hpf]
      · simp [hcd]

theorem isPrefixOf_stderr_field (f0 r r' : QString) (hf : ':' ∉ f0) :
    (qs "stderr:").isPrefixOf (f0 ++ ':' :: r) = (qs "stderr:").isPrefixOf (f0 ++ ':' :: r') := by
  have hq : qs "stderr:" = qs "stderr" ++ [':'] := rfl
  rw [hq, isPrefixOf_field _ _ _ (by decide) hf, isPrefixOf_field _ _ _ (by decide) hf]

/-- A line and its normalized form are rejected together. -/
theorem rejectsLine_normalizeZapLine (line : QString) :
    rejectsLine (normalizeZapLine line) = rejectsLine line := by
  by_cases h : (split ':' line).length < 3
  · rw [normalizeZapLine_short line h]
  obtain ⟨f0, f1, f2, x, t, hl, hn, -, -, hf0, -⟩ := normalizeZapLine_shape line (not_lt.mp h)
  unfold rejectsLine
  rw [length_split_normalizeZapLine, getD_split_normalizeZapLine line 0 (by decide)]
  have h1 : (qs "#").isPrefixOf (normalizeZapLine line) = (qs "#").isPrefixOf line := by
    rw [hn]
    conv_rhs => rw [hl]
    exact isPrefixOf_hash_field _ _ _
  have h2 : (qs "stderr:").isPrefixOf (normalizeZapLine line) =
      (qs "stderr:").isPrefixOf line := by
    rw [hn]
    conv_rhs => rw [hl]
    exact isPrefixOf_stderr_field _ _ _ hf0
  rw [h1, h2]

/-- The normalized form of a trimmed single line that is not rejected is an entry. -/
theorem catalogEntry_normalizeZapLine (line : QString) (hnl : '\n' ∉ line)
    (htrim : trimmed line = line) (hacc : rejectsLine line = false) :
    CatalogEntry (normalizeZapLine line) := by
  have h3 : 3 ≤ (split ':' line).length := by
    by_contra hlt
    have : rejectsLine line = true := by
      unfold rejectsLine
      rw [decide_eq_true (not_le.mp hlt)]
      simp
    rw [this] at hacc
    exact absurd hacc (by simp)
  obtain ⟨f0, f1, f2, x, t, hl, hn, hx, -, -, ht⟩ := normalizeZapLine_shape line h3
  refine ⟨?_, ?_, ?_, normalizeZapLine_idem line⟩
  · rw [hl] at hnl
    rw [hn]
    rcases hx with rfl | rfl | rfl
    · exact hnl
    · intro hm
      apply hnl
      simp only [List.mem_append, List.mem_cons] at hm ⊢
      rcases hm with hm | hm | hm | hm | hm | hm
      · exact Or.inl hm
      · exact Or.inr (Or.inl hm)
      · exact Or.inr (Or.inr (Or.inl hm))
      · exact Or.inr (Or.inl hm)
      · exact absurd hm (by decide)
      · exact Or.inr (Or.inr (Or.inr (Or.inr (Or.inr hm))))
    · intro hm
      apply hnl
      simp only [List.mem_append, List.mem_cons] at hm ⊢
      rcases hm with hm | hm | hm | hm | hm | hm
      · exact Or.inl hm
      · exact Or.inr (Or.inl hm)
      · exact Or.inr (Or.inr (Or.inl hm))
      · exact Or.inr (Or.inl hm)
      · exact absurd hm (by decide)
      · exact Or.inr (Or.inr (Or.inr (Or.inr (Or.inr hm))))
  · rcases hx with rfl | hx
    · rw [hn, ← hl]
      exact htrim
    have hline := (trimmed_eq_self_iff line).mp htrim
    rw [trimmed_eq_self_iff]
    have hxl : x.getLast? = some 'B' ∧ x ≠ [] := by
      rcases hx with rfl | rfl <;> exact ⟨by decide, by decide⟩
    constructor
    · intro c hc
      apply hline.1 c
      rw [hn] at hc
      rw [hl]
      cases f0 with
      | nil => simpa using hc
      | cons d f => simpa using hc
    · intro c hc
      rw [hn] at hc
      rcases ht with rfl | ⟨r, rfl⟩
      · have he : f0 ++ ':' :: (f1 ++ ':' :: (x ++ [])) = (f0 ++ ':' :: (f1 ++ [':'])) ++ x := by
          simp
        rw [he, List.getLast?_append_of_ne_nil _ hxl.2, hxl.1] at hc
        cases hc
        decide
      · apply hline.2 c
        have he : ∀ y : QString, f0 ++ ':' :: (f1 ++ ':' :: (y ++ ':' :: r)) =
            (f0 ++ ':' :: (f1 ++ ':' :: y)) ++ (':' :: r) := by
          intro y
          simp
        rw [he, List.getLast?_append_of_ne_nil _ (by simp)] at hc
        rw [hl, he, List.getLast?_append_of_ne_nil _ (by simp)]
        exact hc
  · rw [rejectsLine_normalizeZapLine]
    exact hacc

theorem parseAndStoreLine_channelLines (line : QString) (w : MainWindow) :
    (parseAndStoreLine line w).channelLines_ =
      if rejectsLine line = true ∨ normalizeZapLine line ∈ w.channelLines_ then w.channelLines_
      else w.channelLines_ ++ [normalizeZapLine line] := by
  rw [parseAndStoreLine_eq]
  by_cases h1 : rejectsLine line = true
  · simp [h1]
  · by_cases h2 : normalizeZapLine line ∈ w.channelLines_ <;> simp [h1, h2]

theorem catalogEntry_ne_nil (e : QString) (h : CatalogEntry e) : e ≠ [] := by
  rintro rfl
  exact absurd h.2.2.1 (by decide)

theorem catalogOk_parseAndStoreLine (line : QString) (w : MainWindow) (hnl : '\n' ∉ line)
    (htrim : trimmed line = line) (h : CatalogOk w.channelLines_) :
    CatalogOk (parseAndStoreLine line w).channelLines_ := by
  rw [parseAndStoreLine_channelLines]
  split_ifs with hc
  · exact h
  · have hacc : rejectsLine line = false := by
      cases hr : rejectsLine line
      · rfl
      · exact absurd (Or.inl hr) hc
    have hnew : normalizeZapLine line ∉ w.channelLines_ := fun hm => hc (Or.inr hm)
    constructor
    · rw [List.nodup_append]
      refine ⟨h.1, List.nodup_singleton _, ?_⟩
      intro a ha hb
      rw [List.mem_singleton] at hb
      subst hb
      exact hnew ha
    · intro e he
      rcases List.mem_append.mp he with he | he
      · exact h.2 e he
      · rw [List.mem_singleton] at he
        subst he
        exact catalogEntry_normalizeZapLine line hnl htrim hacc

theorem catalogOk_feedLines (lines : List QString) (w : MainWindow)
    (hlines : ∀ l ∈ lines, '\n' ∉ l ∧ trimmed l = l) (h : CatalogOk w.channelLines_) :
    CatalogOk (feedLines lines w).channelLines_ := by
  unfold feedLines
  induction lines generalizing w with
  | nil => exact h
  | cons l rest ih =>
    rw [List.foldl_cons]
    apply ih
    · intro x hx
      exact hlines x (List.mem_cons_of_mem _ hx)
    · have hl := hlines l (List.mem_cons_self _ _)
      exact catalogOk_parseAndStoreLine l w hl.1 hl.2 h

/-- The loop of `loadChannelsFileIfPresent` over the lines of a persisted catalog puts
every entry back, in order. -/
theorem load_loop (todo : List QString) (w : MainWindow)
    (hok : CatalogOk (w.channelLines_ ++ todo)) :
    ((todo.map (fun e => e ++ ['\n'])).foldl
      (fun w rawLine =>
        let line := trimmed rawLine
        if !line.isEmpty then parseAndStoreLine line w else w) w).channelLines_ =
      w.channelLines_ ++ todo := by
  induction todo generalizing w with
  | nil => simp
  | cons e rest ih =>
    have he : CatalogEntry e := hok.2 e (by simp)
    have hne : e ≠ [] := catalogEntry_ne_nil e he
    have hnew : e ∉ w.channelLines_ := by
      intro hm
      have hnd := hok.1
      rw [List.nodup_append] at hnd
      exact hnd.2.2 hm (by simp)
    have hstep : (parseAndStoreLine e w).channelLines_ = w.channelLines_ ++ [e] := by
      rw [parseAndStoreLine_channelLines, he.2.2.2, if_neg]
      rintro (h | h)
      · rw [he.2.2.1] at h
        exact absurd h (by simp)
      · exact hnew h
    rw [List.map_cons, List.foldl_cons]
    simp only [trimmed_line_newline e he.2.1]
    have hne' : (!e.isEmpty) = true := by
      cases e with
      | nil => exact absurd rfl hne
      | cons a t => rfl
    rw [if_pos hne']
    rw [ih (parseAndStoreLine e w) (by rw [hstep, List.append_assoc]; exact hok), hstep,
      List.append_assoc]
    rfl

/-- The catalog `loadChannelsFileIfPresent` ends with, when the file is there and can
be read. -/
theorem loadChannelsFileIfPresent_channelLines (env : Env) (w : MainWindow) (text : QString)
    (hdir : env.appDataPath ≠ [])
    (hfile : w.disk.lookup (filePath env.appDataPath (qs "channels.conf")) = some text)
    (hread : env.canReadChannelsFile = true) :
    (loadChannelsFileIfPresent env w).channelLines_ =
      ((readLines text).foldl
        (fun w rawLine =>
          let line := trimmed rawLine
          if !line.isEmpty then parseAndStoreLine line w else w)
        { w with
          channelsFilePath_ := filePath env.appDataPath (qs "channels.conf")
          channelsTable_ := []
          channelLines_ := [] }).channelLines_ := by
  unfold loadChannelsFileIfPresent
  have hd : env.appDataPath.isEmpty = false := by
    cases h : env.appDataPath with
    | nil => exact absurd h hdir
    | cons a t => rfl
  simp only [hd, Bool.false_eq_true, if_false, hfile, hread, Bool.not_true, appendLog, record]

/-! ## The catalog in every reachable state -/

theorem mem_of_mem_trimmed (s : QString) (x : Char) (h : x ∈ trimmed s) : x ∈ s := by
  unfold trimmed at h
  exact (List.dropWhile_suffix isSpace).subset
    ((List.rdropWhile_prefix isSpace _).subset h)

theorem trimmed_idem (s : QString) : trimmed (trimmed s) = trimmed s := by
  rw [trimmed_eq_self_iff]
  constructor
  · intro c hc
    unfold trimmed at hc
    have hpre := List.rdropWhile_prefix isSpace (List.dropWhile isSpace s)
    obtain ⟨t, ht⟩ := hpre
    have hd : (List.dropWhile isSpace s).head? = some c := by
      rw [← ht, List.head?_append, hc]
      rfl
    have hne : List.dropWhile isSpace s ≠ [] := by
      intro h
      rw [h] at hd
      simp at hd
    have := List.head_dropWhile_not isSpace s hne
    rw [List.head?_eq_head hne] at hd
    cases hd
    simpa using this
  · intro c hc
    unfold trimmed at hc
    have hne : List.rdropWhile isSpace (List.dropWhile isSpace s) ≠ [] := by
      intro h
      rw [h] at hc
      simp at hc
    have := List.rdropWhile_last_not isSpace _ hne
    rw [List.getLast?_eq_getLast _ hne] at hc
    cases hc
    simpa using this

theorem readLines_mem (text : QString) :
    ∀ raw ∈ readLines text, ∃ body, '\n' ∉ body ∧ (raw = body ++ ['\n'] ∨ raw = body) := by
  induction text with
  | nil => simp [readLines]
  | cons c cs ih =>
    intro raw hraw
    rw [readLines] at hraw
    split_ifs at hraw with hc
    · rcases List.mem_cons.mp hraw with rfl | hraw
      · exact ⟨[], by simp, Or.inl (by simp [hc])⟩
      · exact ih raw hraw
    · rcases hr : readLines cs with _ | ⟨l, ls⟩
      · rw [hr] at hraw
        simp only [List.mem_singleton] at hraw
        subst hraw
        exact ⟨[c], by simpa using Ne.symm hc, Or.inr rfl⟩
      · rw [hr] at hraw ih
        simp only [List.mem_cons] at hraw
        rcases hraw with rfl | hraw
        · obtain ⟨body, hb, hl | hl⟩ := ih l (by simp)
          · exact ⟨c :: body, by simpa [hb] using Ne.symm hc, Or.inl (by simp [hl])⟩
          · exact ⟨c :: body, by simpa [hb] using Ne.symm hc, Or.inr (by simp [hl])⟩
        · exact ih raw (by simp [hraw])

theorem newline_not_mem_trimmed_readLine (text raw : QString) (h : raw ∈ readLines text) :
    '\n' ∉ trimmed raw := by
  obtain ⟨body, hb, rfl | rfl⟩ := readLines_mem text raw h
  · rw [trimmed_append_newline]
    exact fun hm => hb (mem_of_mem_trimmed _ _ hm)
  · exact fun hm => hb (mem_of_mem_trimmed _ _ hm)

theorem keepsCatalog_same (w : MainWindow) : KeepsCatalog w w := ⟨rfl, rfl⟩

theorem keepsCatalog_then {a b c : MainWindow} (h1 : KeepsCatalog a b) (h2 : KeepsCatalog b c) :
    KeepsCatalog a c :=
  ⟨h2.1.trans h1.1, h2.2.trans h1.2⟩

theorem keepsCatalog_record (e : Effect) (w : MainWindow) : KeepsCatalog w (record e w) :=
  ⟨rfl, rfl⟩

theorem keepsCatalog_foldl {α : Type} (f : MainWindow → α → MainWindow)
    (hf : ∀ w x, KeepsCatalog w (f w x)) (l : List α) (w : MainWindow) :
    KeepsCatalog w (l.foldl f w) := by
  induction l generalizing w with
  | nil => exact keepsCatalog_same w
  | cons x rest ih => exact keepsCatalog_then (hf w x) (ih (f w x))

theorem keepsCatalog_scheduleReconnect (reason : QString) (w : MainWindow) :
    KeepsCatalog w (scheduleReconnect reason w) := by
  rw [scheduleReconnect_eq]
  split_ifs <;> exact ⟨rfl, rfl⟩

theorem keepsCatalog_persistChannelsFile (env : Env) (w : MainWindow) :
    KeepsCatalog w (persistChannelsFile env w).2 := by
  obtain ⟨path, disk, log, h, -⟩ := persistChannelsFile_frame env w
  rw [h]
  exact ⟨rfl, rfl⟩

theorem keepsCatalog_startWatchingChannel (env : Env) (name : QString) (r : Bool)
    (w : MainWindow) : KeepsCatalog w (startWatchingChannel env name r w).2 := by
  obtain ⟨path, disk, log, -, hs | ⟨-, -, hs⟩ | ⟨-, -, pid, hs⟩⟩ :=
    startWatchingChannel_summary env name r w
  · rw [hs]
    exact ⟨rfl, rfl⟩
  · rw [hs]
    exact keepsCatalog_then ⟨rfl, rfl⟩ (keepsCatalog_scheduleReconnect _ _)
  · rw [hs]
    exact ⟨rfl, rfl⟩

theorem keepsCatalog_startPlaybackFromDvr (env : Env) (dvrPath : QString) (w : MainWindow) :
    KeepsCatalog w (startPlaybackFromDvr env dvrPath w) := by
  obtain ⟨log, state, shots, -, hs | ⟨-, reason, hs⟩ | ⟨-, hs⟩⟩ :=
    startPlaybackFromDvr_summary env dvrPath w
  · rw [hs]
    exact ⟨rfl, rfl⟩
  · rw [hs]
    exact keepsCatalog_then ⟨rfl, rfl⟩ (keepsCatalog_scheduleReconnect _ _)
  · rw [hs]
    exact ⟨rfl, rfl⟩

theorem keepsCatalog_stopWatching (w : MainWindow) : KeepsCatalog w (stopWatching w) := by
  rw [stopWatching_eq]
  exact ⟨rfl, rfl⟩

theorem keepsCatalog_tryDynamicBridgeFallback (env : Env) (reason : QString) (w : MainWindow) :
    KeepsCatalog w (tryDynamicBridgeFallback env reason w).2 := by
  rw [tryDynamicBridgeFallback_eq]
  split_ifs
  · exact keepsCatalog_then ⟨rfl, rfl⟩ (keepsCatalog_startWatchingChannel _ _ _ _)
  · exact ⟨rfl, rfl⟩

theorem keepsCatalog_escalateElseReconnect (env : Env) (r1 r2 : QString) (w : MainWindow) :
    KeepsCatalog w (escalateElseReconnect env r1 r2 w) := by
  unfold escalateElseReconnect
  simp only
  split_ifs
  · exact keepsCatalog_tryDynamicBridgeFallback env r1 w
  · exact keepsCatalog_then (keepsCatalog_tryDynamicBridgeFallback env r1 w)
      (keepsCatalog_scheduleReconnect _ _)

theorem keepsCatalog_handleZapFinished (exitCode : Int) (exitStatus : ExitStatus)
    (w : MainWindow) : KeepsCatalog w (handleZapFinished exitCode exitStatus w) := by
  rw [handleZapFinished_eq]
  have h1 : KeepsCatalog w (if exitStatus ≠ .NormalExit then
      appendLog (qs "zap: tuner process crashed") w else w) := by
    split_ifs
    · exact ⟨rfl, rfl⟩
    · exact ⟨rfl, rfl⟩
  by_cases hc : w.suppressZapExitReconnect_ = false ∧ exitCode ≠ 0 ∧
      w.userStoppedWatching_ = false ∧ w.currentChannelName_ ≠ []
  · rw [if_pos hc]
    exact keepsCatalog_then h1 (keepsCatalog_scheduleReconnect _ _)
  · rw [if_neg hc]
    exact h1

theorem keepsCatalog_handleBridgeFinished (env : Env) (exitCode : Int) (status : ExitStatus)
    (w : MainWindow) : KeepsCatalog w (handleBridgeFinished env exitCode status w) := by
  rw [handleBridgeFinished_eq]
  by_cases hc : w.suppressBridgeExitReconnect_ = false ∧ w.userStoppedWatching_ = false ∧
      w.currentChannelName_ ≠ []
  · rw [if_pos hc]
    exact keepsCatalog_then (keepsCatalog_record _ w) (keepsCatalog_escalateElseReconnect _ _ _ _)
  · rw [if_neg hc]
    exact keepsCatalog_record _ w

theorem keepsCatalog_handleMediaStatusChanged (env : Env) (status : MediaStatus)
    (w : MainWindow) : KeepsCatalog w (handleMediaStatusChanged env status w) := by
  rw [handleMediaStatusChanged_eq]
  split_ifs
  · exact keepsCatalog_then (keepsCatalog_record _ w) (keepsCatalog_escalateElseReconnect _ _ _ _)
  · exact keepsCatalog_then (keepsCatalog_record _ w) (keepsCatalog_escalateElseReconnect _ _ _ _)
  · exact keepsCatalog_record _ w

theorem keepsCatalog_handlePlayerError (env : Env) (errorText : QString) (w : MainWindow) :
    KeepsCatalog w (handlePlayerError env errorText w) := by
  rw [handlePlayerError_eq]
  split_ifs
  · exact keepsCatalog_same w
  · exact keepsCatalog_then (keepsCatalog_record _ w) (keepsCatalog_escalateElseReconnect _ _ _ _)
  · exact keepsCatalog_record _ w

theorem keepsCatalog_triggerReconnect (env : Env) (w : MainWindow) :
    KeepsCatalog w (triggerReconnect env w) := by
  unfold triggerReconnect
  split_ifs
  · exact keepsCatalog_same w
  · exact keepsCatalog_startWatchingChannel _ _ _ _

theorem keepsCatalog_dvrReadyTimeout (env : Env) (dvrPath : QString) (w : MainWindow) :
    KeepsCatalog w (dvrReadyTimeout env dvrPath w) := by
  unfold dvrReadyTimeout
  split_ifs
  · exact keepsCatalog_then (keepsCatalog_record _ w) (keepsCatalog_startPlaybackFromDvr _ _ _)
  · exact keepsCatalog_same w

theorem keepsCatalog_attachLiveStream (udpPort : Nat) (w : MainWindow) :
    KeepsCatalog w (attachLiveStream udpPort w) := by
  unfold attachLiveStream
  split_ifs
  · exact keepsCatalog_record _ w
  · exact ⟨rfl, rfl⟩

theorem keepsCatalog_handleZapStdErr (env : Env) (text : QString) (w : MainWindow) :
    KeepsCatalog w (handleZapStdErr env text w) := by
  unfold handleZapStdErr
  simp only
  split_ifs
  · exact keepsCatalog_same w
  · apply keepsCatalog_foldl
    intro v line
    unfold handleZapStdErrLine
    simp only
    split_ifs
    · exact keepsCatalog_then (keepsCatalog_then (keepsCatalog_record _ v) (keepsCatalog_record _ _))
        (keepsCatalog_startPlaybackFromDvr _ _ _)
    · exact keepsCatalog_record _ v
    · exact keepsCatalog_same v

theorem keepsCatalog_handleStdErr (chunk : QString) (w : MainWindow) :
    KeepsCatalog w (handleStdErr chunk w) := by
  unfold handleStdErr
  refine keepsCatalog_then (b := { w with partialStdErr_ :=
    (split '\n' (w.partialStdErr_ ++ chunk)).getLast?.getD [] }) ⟨rfl, rfl⟩ ?_
  apply keepsCatalog_foldl
  intro v x
  unfold handleStdErrLine
  simp only
  split_ifs
  · exact keepsCatalog_record _ v
  · exact keepsCatalog_same v

theorem catalogInv_of_keeps {w v : MainWindow} (h : KeepsCatalog w v) (hw : CatalogInv w) :
    CatalogInv v := by
  unfold CatalogInv
  rw [h.1, h.2]
  exact hw

theorem catalogInv_parseAndStoreLine (raw : QString) (w : MainWindow)
    (hraw : '\n' ∉ trimmed raw) (hw : CatalogInv w) :
    CatalogInv (parseAndStoreLine (trimmed raw) w) := by
  refine ⟨catalogOk_parseAndStoreLine _ w hraw (trimmed_idem raw) hw.1, ?_⟩
  rw [parseAndStoreLine_eq]
  split_ifs <;> exact hw.2

theorem catalogInv_appendStdOut (chunk : QString) (w : MainWindow) (hw : CatalogInv w) :
    CatalogInv (appendStdOut chunk w) := by
  unfold appendStdOut
  have hparts := sep_not_mem_split '\n' (w.partialStdOut_ ++ chunk)
  have hlast : '\n' ∉ (split '\n' (w.partialStdOut_ ++ chunk)).getLast?.getD [] := by
    cases hl : (split '\n' (w.partialStdOut_ ++ chunk)).getLast? with
    | none => simp
    | some l => exact hparts l (List.mem_of_getLast?_eq_some hl)
  have hstart : CatalogInv { w with partialStdOut_ :=
      (split '\n' (w.partialStdOut_ ++ chunk)).getLast?.getD [] } := ⟨hw.1, hlast⟩
  have hfold : ∀ (l : List QString) (v : MainWindow), (∀ x ∈ l, '\n' ∉ x) → CatalogInv v →
      CatalogInv (l.foldl handleStdOutLine v) := by
    intro l
    induction l with
    | nil => exact fun v _ hv => hv
    | cons x rest ih =>
      intro v hl hv
      rw [List.foldl_cons]
      apply ih _ (fun y hy => hl y (List.mem_cons_of_mem _ hy))
      unfold handleStdOutLine
      simp only
      split_ifs
      · apply catalogInv_parseAndStoreLine
        · exact fun hm => hl x (List.mem_cons_self _ _) (mem_of_mem_trimmed _ _ hm)
        · exact catalogInv_of_keeps (keepsCatalog_record _ v) hv
      · exact hv
  exact hfold _ _ (fun x hx => hparts x (List.dropLast_subset _ hx)) hstart

theorem catalogInv_processFinished (env : Env) (exitCode : Int) (w : MainWindow)
    (hw : CatalogInv w) : CatalogInv (processFinished env exitCode w) := by
  unfold processFinished
  have h1 : CatalogInv
      (if !(trimmed w.partialStdOut_).isEmpty then
        { parseAndStoreLine (trimmed w.partialStdOut_) (appendLog (trimmed w.partialStdOut_) w)
          with partialStdOut_ := [] }
      else w) := by
    split_ifs
    · have hp := catalogInv_parseAndStoreLine w.partialStdOut_
        (appendLog (trimmed w.partialStdOut_) w)
        (fun hm => hw.2 (mem_of_mem_trimmed _ _ hm))
        (catalogInv_of_keeps (keepsCatalog_record _ w) hw)
      exact ⟨hp.1, by simp⟩
    · exact hw
  have h2 : ∀ v : MainWindow, KeepsCatalog v
      (if !(trimmed v.partialStdErr_).isEmpty then
        { appendLog (qs "stderr: " ++ trimmed v.partialStdErr_) v with partialStdErr_ := [] }
      else v) := by
    intro v
    split_ifs
    · exact ⟨rfl, rfl⟩
    · exact keepsCatalog_same v
  refine catalogInv_of_keeps ?_ h1
  refine keepsCatalog_then (h2 _) ?_
  refine keepsCatalog_then (keepsCatalog_persistChannelsFile env _) ?_
  exact keepsCatalog_then (keepsCatalog_record _ _) (keepsCatalog_record _ _)

theorem catalogInv_empty (w : MainWindow) (h1 : w.channelLines_ = [])
    (h2 : w.partialStdOut_ = []) : CatalogInv w := by
  unfold CatalogInv CatalogOk
  rw [h1, h2]
  simp

theorem catalogInv_step (env : Env) (e : Event) (w : MainWindow) (hw : CatalogInv w) :
    CatalogInv (step env e w) := by
  cases e <;> simp only [step]
  case watchSelectedChannel row =>
    unfold watchSelectedChannel
    simp only
    split_ifs
    · exact catalogInv_of_keeps (keepsCatalog_record _ w) hw
    · exact catalogInv_of_keeps (keepsCatalog_record _ w) hw
    · exact catalogInv_of_keeps (keepsCatalog_startWatchingChannel _ _ _ _) hw
  case watchFavoriteItem item =>
    cases item with
    | none => exact hw
    | some text => exact catalogInv_of_keeps (keepsCatalog_startWatchingChannel _ _ _ _) hw
  case triggerQuickFavorite button =>
    unfold triggerQuickFavorite
    simp only
    split_ifs
    · exact hw
    · exact hw
    · exact catalogInv_of_keeps (keepsCatalog_startWatchingChannel _ _ _ _) hw
  case stopWatching => exact catalogInv_of_keeps (keepsCatalog_stopWatching w) hw
  case openMediaFile path =>
    rw [openMediaFile_eq]
    split_ifs
    · exact hw
    · exact catalogInv_of_keeps
        (keepsCatalog_then (keepsCatalog_stopWatching w) ⟨rfl, rfl⟩) hw
  case startScan args =>
    rw [startScan_eq]
    split_ifs
    · exact hw
    · exact catalogInv_empty _ rfl rfl
    · exact catalogInv_empty _ rfl rfl
  case stopScan =>
    unfold stopScan
    split_ifs
    · exact hw
    · exact catalogInv_of_keeps (keepsCatalog_record _ w) hw
  case closeEvent code =>
    unfold closeEvent
    have h1 : CatalogInv (stopWatching
        (appendLog (qs "Application closing: releasing tuner resources.") w)) :=
      catalogInv_of_keeps
        (keepsCatalog_then (keepsCatalog_record _ w) (keepsCatalog_stopWatching _)) hw
    simp only
    split_ifs
    · exact catalogInv_processFinished env code _
        (catalogInv_of_keeps ⟨rfl, rfl⟩ h1)
    · exact h1
  case addSelectedFavorite row =>
    unfold addSelectedFavorite
    simp only
    split_ifs
    · exact catalogInv_of_keeps (keepsCatalog_record _ w) hw
    · exact hw
    · exact catalogInv_of_keeps ⟨rfl, rfl⟩ hw
  case removeSelectedFavorite row =>
    unfold removeSelectedFavorite
    simp only
    split_ifs <;> exact catalogInv_of_keeps ⟨rfl, rfl⟩ hw
  case setAdapter value => exact catalogInv_of_keeps ⟨rfl, rfl⟩ hw
  case setFrontend value => exact catalogInv_of_keeps ⟨rfl, rfl⟩ hw
  case scanStdOut chunk =>
    split_ifs
    · exact catalogInv_appendStdOut chunk w hw
    · exact hw
  case scanStdErr chunk =>
    split_ifs
    · exact catalogInv_of_keeps (keepsCatalog_handleStdErr chunk w) hw
    · exact hw
  case scanFinished code =>
    split_ifs
    · exact catalogInv_processFinished env code _ (catalogInv_of_keeps ⟨rfl, rfl⟩ hw)
    · exact hw
  case zapStdErr text =>
    split_ifs
    · exact catalogInv_of_keeps (keepsCatalog_handleZapStdErr env text w) hw
    · exact hw
  case zapFinished code status =>
    split_ifs
    · exact catalogInv_of_keeps
        (keepsCatalog_then (b := { w with zapProcess_ := .NotRunning }) ⟨rfl, rfl⟩
          (keepsCatalog_handleZapFinished _ _ _)) hw
    · exact hw
  case bridgeFinished code status =>
    split_ifs
    · exact catalogInv_of_keeps
        (keepsCatalog_then (b := { w with streamBridgeProcess_ := .NotRunning }) ⟨rfl, rfl⟩
          (keepsCatalog_handleBridgeFinished _ _ _ _)) hw
    · exact hw
  case lateStart process ok =>
    unfold lateStart
    cases process <;> exact catalogInv_of_keeps ⟨rfl, rfl⟩ hw
  case mediaStatusChanged status =>
    exact catalogInv_of_keeps (keepsCatalog_handleMediaStatusChanged env status w) hw
  case playerError code text =>
    split_ifs
    · exact catalogInv_of_keeps
        (keepsCatalog_then (keepsCatalog_record _ w) (keepsCatalog_handlePlayerError _ _ _)) hw
    · exact hw
  case reconnectTimeout =>
    cases ht : w.reconnectTimer_ with
    | none => exact hw
    | some d =>
      exact catalogInv_of_keeps
        (keepsCatalog_then (b := { w with reconnectTimer_ := none }) ⟨rfl, rfl⟩
          (keepsCatalog_triggerReconnect _ _)) hw
  case dvrReadyShot =>
    cases hs : w.dvrReadyShots with
    | nil => exact hw
    | cons p rest =>
      exact catalogInv_of_keeps
        (keepsCatalog_then (b := { w with dvrReadyShots := rest }) ⟨rfl, rfl⟩
          (keepsCatalog_dvrReadyTimeout _ _ _)) hw
  case attachShot =>
    cases hs : w.attachShots with
    | nil => exact hw
    | cons p rest =>
      exact catalogInv_of_keeps
        (keepsCatalog_then (b := { w with attachShots := rest }) ⟨rfl, rfl⟩
          (keepsCatalog_attachLiveStream _ _)) hw

theorem catalogInv_run (w : MainWindow) (events : List (Env × Event)) (hw : CatalogInv w) :
    CatalogInv (run w events) := by
  induction events generalizing w with
  | nil => exact hw
  | cons p rest ih =>
    obtain ⟨env, e⟩ := p
    exact ih _ (catalogInv_step env e w hw)

theorem catalogInv_loadChannelsFileIfPresent (env : Env) (w : MainWindow)
    (hw : CatalogInv w) : CatalogInv (loadChannelsFileIfPresent env w) := by
  unfold loadChannelsFileIfPresent
  by_cases h0 : env.appDataPath = []
  · simp only [h0, List.isEmpty_nil, if_true]
    exact catalogInv_of_keeps (keepsCatalog_record _ w) hw
  · simp only [List.isEmpty_iff, h0, if_false]
    cases w.disk.lookup (filePath env.appDataPath (qs "channels.conf")) with
    | none => exact catalogInv_of_keeps (keepsCatalog_then ⟨rfl, rfl⟩ (keepsCatalog_record _ _)) hw
    | some text =>
      dsimp only
      cases env.canReadChannelsFile with
      | false =>
        exact catalogInv_of_keeps (keepsCatalog_then ⟨rfl, rfl⟩ (keepsCatalog_record _ _)) hw
      | true =>
        simp only [Bool.not_true, Bool.false_eq_true, if_false]
        refine catalogInv_of_keeps (keepsCatalog_record _ _) ?_
        have hstart : CatalogInv { w with
            channelsFilePath_ := filePath env.appDataPath (qs "channels.conf")
            channelsTable_ := []
            channelLines_ := [] } := ⟨⟨List.nodup_nil, by simp⟩, hw.2⟩
        have hfold : ∀ (l : List QString) (v : MainWindow),
            (∀ x ∈ l, '\n' ∉ trimmed x) → CatalogInv v →
            CatalogInv (l.foldl (fun w rawLine =>
              let line := trimmed rawLine
              if !line.isEmpty then parseAndStoreLine line w else w) v) := by
          intro l
          induction l with
          | nil => exact fun v _ hv => hv
          | cons x rest ih =>
            intro v hl hv
            rw [List.foldl_cons]
            apply ih _ (fun y hy => hl y (List.mem_cons_of_mem _ hy))
            dsimp only
            split_ifs
            · exact catalogInv_parseAndStoreLine x v (hl x (List.mem_cons_self _ _)) hv
            · exact hv
        exact hfold _ _ (fun x hx => newline_not_mem_trimmed_readLine text x hx) hstart

/-- In every state the program reaches the catalog holds entries without duplicates:
what `parseAndStoreLine` is given is always a trimmed single line, cut from the scan
output at the newlines or read from the channels file. -/
theorem catalogInv_reachable (w : MainWindow) (h : Reachable w) : CatalogInv w := by
  obtain ⟨env, favs, hints, disk, events, rfl⟩ := h
  apply catalogInv_run
  unfold construct
  exact catalogInv_loadChannelsFileIfPresent env _ (catalogInv_empty _ rfl rfl)

/-! ## Which spellings of a modulation name are renamed -/

theorem char_toUpper_cases (c : Char) :
    (97 ≤ c.toNat ∧ c.toNat ≤ 122 ∧ c.toUpper = Char.ofNat (c.toNat - 32)) ∨
    (¬(97 ≤ c.toNat ∧ c.toNat ≤ 122) ∧ c.toUpper = c) := by
  unfold Char.toUpper
  by_cases h : c.toNat ≥ 97 ∧ c.toNat ≤ 122
  · exact Or.inl ⟨h.1, h.2, by simp only [h, and_self, if_true]⟩
  · exact Or.inr ⟨h, by simp only [h, if_false]⟩

/-- The characters whose upper case is a given capital letter: the letter itself and
its small form. -/
theorem char_toUpper_eq_capital (c : Char) (k : Nat) (hk : 65 ≤ k ∧ k ≤ 90) :
    c.toUpper = Char.ofNat k ↔ c = Char.ofNat k ∨ c = Char.ofNat (k + 32) := by
  have hof : ∀ m : Nat, m ≤ 200 → (Char.ofNat m).toNat = m := by
    intro m hm
    interval_cases m <;> rfl
  rcases char_toUpper_cases c with ⟨h1, h2, hu⟩ | ⟨hn, hu⟩
  · rw [hu]
    constructor
    · intro h
      have h3 := congrArg Char.toNat h
      rw [hof _ (by omega), hof _ (by omega)] at h3
      right
      rw [← Char.ofNat_toNat c]
      congr 1
      omega
    · rintro (h | h)
      · have h3 := congrArg Char.toNat h
        rw [hof _ (by omega)] at h3
        omega
      · have h3 := congrArg Char.toNat h
        rw [hof _ (by omega)] at h3
        rw [h3]
        simp
  · rw [hu]
    constructor
    · exact Or.inl
    · rintro (h | h)
      · exact h
      · have h3 := congrArg Char.toNat h
        rw [hof _ (by omega)] at h3
        exact absurd ⟨by omega, by omega⟩ hn

/-- A character that is no letter is the upper case of itself only. -/
theorem char_toUpper_eq_other (c : Char) (k : Nat) (hk : k < 65 ∨ (90 < k ∧ k < 97)) :
    c.toUpper = Char.ofNat k ↔ c = Char.ofNat k := by
  have hof : ∀ m : Nat, m ≤ 200 → (Char.ofNat m).toNat = m := by
    intro m hm
    interval_cases m <;> rfl
  rcases char_toUpper_cases c with ⟨h1, h2, hu⟩ | ⟨hn, hu⟩
  · rw [hu]
    constructor
    · intro h
      have h3 := congrArg Char.toNat h
      rw [hof _ (by omega), hof _ (by omega)] at h3
      omega
    · intro h
      have h3 := congrArg Char.toNat h
      rw [hof _ (by omega)] at h3
      omega
  · rw [hu]

/-- The strings whose upper case is `VSB_8`: the twelve spellings in capital and small
letters, the long s counting as an s. -/
theorem toUpper_eq_vsb8_iff (s : QString) :
    toUpper s = qs "VSB_8" ↔
      ∃ a b c, s = [a, b, c, '_', '8'] ∧ (a = 'V' ∨ a = 'v') ∧
        (b = 'S' ∨ b = 's' ∨ b = Char.ofNat 0x17f) ∧ (c = 'B' ∨ c = 'b') := by
  have hV := fun c => char_toUpper_eq_capital c 86 (by decide)
  have hS := fun c => char_toUpper_eq_capital c 83 (by decide)
  have hB := fun c => char_toUpper_eq_capital c 66 (by decide)
  have hU := fun c => char_toUpper_eq_other c 95 (by decide)
  have h8 := fun c => char_toUpper_eq_other c 56 (by decide)
  have hl : ∀ c : Char, c.toNat = 0x17f ↔ c = Char.ofNat 0x17f := by
    intro c
    constructor
    · intro h
      rw [← Char.ofNat_toNat c, h]
    · intro h
      rw [h]
      rfl
  have hq : qs "VSB_8" = [Char.ofNat 86, Char.ofNat 83, Char.ofNat 66, Char.ofNat 95,
      Char.ofNat 56] := by decide
  have hup : ∀ (c : Char) (k : Nat), Char.ofNat k ≠ 'S' →
      ((if c.toNat = 0x17f then 'S' else c.toUpper) = Char.ofNat k ↔
        c.toNat ≠ 0x17f ∧ c.toUpper = Char.ofNat k) := by
    intro c k hk
    by_cases h : c.toNat = 0x17f
    · simp only [h, if_true, ne_eq, not_true_eq_false, false_and, iff_false]
      exact fun h2 => hk h2.symm
    · simp only [h, if_false, ne_eq, not_false_eq_true, true_and]
  have hupS : ∀ c : Char, ((if c.toNat = 0x17f then 'S' else c.toUpper) = Char.ofNat 83 ↔
      c.toNat = 0x17f ∨ c.toUpper = Char.ofNat 83) := by
    intro c
    by_cases h : c.toNat = 0x17f
    · simp only [h, if_true, true_or, iff_true]
    · simp only [h, if_false, false_or]
  unfold toUpper
  rw [hq]
  constructor
  · intro h
    rcases s with _ | ⟨a, _ | ⟨b, _ | ⟨c, _ | ⟨d, _ | ⟨e, _ | ⟨f, t⟩⟩⟩⟩⟩⟩ <;>
      simp only [List.map_nil, List.map_cons, List.cons.injEq, reduceCtorEq, and_false,
        and_true, false_and] at h
    obtain ⟨ha, hb, hc, hd, he⟩ := h
    rw [hup _ _ (by decide), hV] at ha
    rw [hupS, hS, hl] at hb
    rw [hup _ _ (by decide), hB] at hc
    rw [hup _ _ (by decide), hU] at hd
    rw [hup _ _ (by decide), h8] at he
    refine ⟨a, b, c, ?_, ha.2, ?_, hc.2⟩
    · rw [hd.2, he.2]
    · rcases hb with hb | hb | hb
      · exact Or.inr (Or.inr hb)
      · exact Or.inl hb
      · exact Or.inr (Or.inl hb)
  · rintro ⟨a, b, c, rfl, ha, hb, hc⟩
    rcases ha with rfl | rfl <;> rcases hb with rfl | rfl | rfl <;> rcases hc with rfl | rfl <;>
      decide

/-- The strings whose upper case is `VSB_16`. -/
theorem toUpper_eq_vsb16_iff (s : QString) :
    toUpper s = qs "VSB_16" ↔
      ∃ a b c, s = [a, b, c, '_', '1', '6'] ∧ (a = 'V' ∨ a = 'v') ∧
        (b = 'S' ∨ b = 's' ∨ b = Char.ofNat 0x17f) ∧ (c = 'B' ∨ c = 'b') := by
  have hV := fun c => char_toUpper_eq_capital c 86 (by decide)
  have hS := fun c => char_toUpper_eq_capital c 83 (by decide)
  have hB := fun c => char_toUpper_eq_capital c 66 (by decide)
  have hU := fun c => char_toUpper_eq_other c 95 (by decide)
  have h1 := fun c => char_toUpper_eq_other c 49 (by decide)
  have h6 := fun c => char_toUpper_eq_other c 54 (by decide)
  have hl : ∀ c : Char, c.toNat = 0x17f ↔ c = Char.ofNat 0x17f := by
    intro c
    constructor
    · intro h
      rw [← Char.ofNat_toNat c, h]
    · intro h
      rw [h]
      rfl
  have hq : qs "VSB_16" = [Char.ofNat 86, Char.ofNat 83, Char.ofNat 66, Char.ofNat 95,
      Char.ofNat 49, Char.ofNat 54] := by decide
  have hup : ∀ (c : Char) (k : Nat), Char.ofNat k ≠ 'S' →
      ((if c.toNat = 0x17f then 'S' else c.toUpper) = Char.ofNat k ↔
        c.toNat ≠ 0x17f ∧ c.toUpper = Char.ofNat k) := by
    intro c k hk
    by_cases h : c.toNat = 0x17f
    · simp only [h, if_true, ne_eq, not_true_eq_false, false_and, iff_false]
      exact fun h2 => hk h2.symm
    · simp only [h, if_false, ne_eq, not_false_eq_true, true_and]
  have hupS : ∀ c : Char, ((if c.toNat = 0x17f then 'S' else c.toUpper) = Char.ofNat 83 ↔
      c.toNat = 0x17f ∨ c.toUpper = Char.ofNat 83) := by
    intro c
    by_cases h : c.toNat = 0x17f
    · simp only [h, if_true, true_or, iff_true]
    · simp only [h, if_false, false_or]
  unfold toUpper
  rw [hq]
  constructor
  · intro h
    rcases s with _ | ⟨a, _ | ⟨b, _ | ⟨c, _ | ⟨d, _ | ⟨e, _ | ⟨f, _ | ⟨g, t⟩⟩⟩⟩⟩⟩⟩ <;>
      simp only [List.map_nil, List.map_cons, List.cons.injEq, reduceCtorEq, and_false,
        and_true, false_and] at h
    obtain ⟨ha, hb, hc, hd, he, hf⟩ := h
    rw [hup _ _ (by decide), hV] at ha
    rw [hupS, hS, hl] at hb
    rw [hup _ _ (by decide), hB] at hc
    rw [hup _ _ (by decide), hU] at hd
    rw [hup _ _ (by decide), h1] at he
    rw [hup _ _ (by decide), h6] at hf
    refine ⟨a, b, c, ?_, ha.2, ?_, hc.2⟩
    · rw [hd.2, he.2, hf.2]
    · rcases hb with hb | hb | hb
      · exact Or.inr (Or.inr hb)
      · exact Or.inl hb
      · exact Or.inr (Or.inl hb)
  · rintro ⟨a, b, c, rfl, ha, hb, hc⟩
    rcases ha with rfl | rfl <;> rcases hb with rfl | rfl | rfl <;> rcases hc with rfl | rfl <;>
      decide

/-! ## The claims on the reset of the attempt state and on the idle coordinator -/

theorem scheduleReconnect_flags (reason : QString) (w : MainWindow) :
    (scheduleReconnect reason w).useResilientBridgeMode_ = w.useResilientBridgeMode_ ∧
    (scheduleReconnect reason w).resilientBridgeTried_ = w.resilientBridgeTried_ := by
  rw [scheduleReconnect_eq]
  split_ifs <;> exact ⟨rfl, rfl⟩

/-- C11: a fresh `startWatchingChannel` (`reconnectAttempt = false`) that passes its
preconditions starts the lock process from the state `prepareWatch` leaves, in which
the attempt counter is 0 and both resilient flags are false; both flags are false when
it returns, and the counter is still 0 when the lock process has started.  A reconnect attempt
(`reconnectAttempt = true`) leaves both resilient flags as they were in every case,
and leaves the counter as it was when the lock process starts. -/
theorem startWatchingChannel_attempt_state (env : Env) (name : QString) (w : MainWindow) :
    (name ≠ [] → (persistChannelsFile env w).1 = true → env.zapExe ≠ [] →
      (prepareWatch false
        (persistChannelsFile env (record (.enterStartWatchingChannel name false) w)).2
        ).reconnectAttemptCount_ = 0 ∧
      (prepareWatch false
        (persistChannelsFile env (record (.enterStartWatchingChannel name false) w)).2
        ).useResilientBridgeMode_ = false ∧
      (prepareWatch false
        (persistChannelsFile env (record (.enterStartWatchingChannel name false) w)).2
        ).resilientBridgeTried_ = false ∧
      startWatchingChannel env name false w =
        (if env.zapStarted.ok = false then
          (false, scheduleReconnect (qs "Failed to start tuner process")
            (appendLog (qs "Failed to start dvbv5-zap for " ++ name)
              (startZap env name (prepareWatch false
                (persistChannelsFile env
                  (record (.enterStartWatchingChannel name false) w)).2)).2))
        else (true, awaitDvr env name
          (startZap env name (prepareWatch false
            (persistChannelsFile env
              (record (.enterStartWatchingChannel name false) w)).2)).2)) ∧
      (startWatchingChannel env name false w).2.useResilientBridgeMode_ = false ∧
      (startWatchingChannel env name false w).2.resilientBridgeTried_ = false ∧
      ((startWatchingChannel env name false w).1 = true →
        (startWatchingChannel env name false w).2.reconnectAttemptCount_ = 0)) ∧
    ((startWatchingChannel env name true w).2.useResilientBridgeMode_ =
        w.useResilientBridgeMode_ ∧
      (startWatchingChannel env name true w).2.resilientBridgeTried_ =
        w.resilientBridgeTried_ ∧
      ((startWatchingChannel env name true w).1 = true →
        (startWatchingChannel env name true w).2.reconnectAttemptCount_ =
          w.reconnectAttemptCount_)) := by
  constructor
  · intro hn hp hz
    have hok : (persistChannelsFile env (record (.enterStartWatchingChannel name false) w)).1 =
        (persistChannelsFile env w).1 := persistChannelsFile_ok_congr env w _ rfl
    have heq : startWatchingChannel env name false w =
        (if env.zapStarted.ok = false then
          (false, scheduleReconnect (qs "Failed to start tuner process")
            (appendLog (qs "Failed to start dvbv5-zap for " ++ name)
              (startZap env name (prepareWatch false
                (persistChannelsFile env
                  (record (.enterStartWatchingChannel name false) w)).2)).2))
        else (true, awaitDvr env name
          (startZap env name (prepareWatch false
            (persistChannelsFile env
              (record (.enterStartWatchingChannel name false) w)).2)).2)) := by
      rw [startWatchingChannel_eq, if_neg hn, hok, if_neg (by rw [hp]; simp), if_neg hz]
    refine ⟨?_, ?_, ?_, heq, ?_, ?_, ?_⟩
    · rw [prepareWatch_eq]; rfl
    · rw [prepareWatch_eq]; rfl
    · rw [prepareWatch_eq]; rfl
    · rw [heq]
      split_ifs
      · rw [(scheduleReconnect_flags _ _).1]
        simp [appendLog, record, startZap_eq, prepareWatch_eq]
      · simp [awaitDvr_eq, startZap_eq, prepareWatch_eq]
    · rw [heq]
      split_ifs
      · rw [(scheduleReconnect_flags _ _).2]
        simp [appendLog, record, startZap_eq, prepareWatch_eq]
      · simp [awaitDvr_eq, startZap_eq, prepareWatch_eq]
    · rw [heq]
      split_ifs
      · intro h
        exact absurd h (by simp)
      · intro _
        simp [awaitDvr_eq, startZap_eq, prepareWatch_eq]
  · obtain ⟨path, disk, log, -, hs | ⟨-, -, hs⟩ | ⟨-, -, pid, hs⟩⟩ :=
      startWatchingChannel_summary env name true w
    · rw [hs]
      exact ⟨rfl, rfl, fun h => absurd h (by simp)⟩
    · rw [hs]
      refine ⟨?_, ?_, fun h => absurd h (by simp)⟩
      · rw [(scheduleReconnect_flags _ _).1]
        simp
      · rw [(scheduleReconnect_flags _ _).2]
        simp
    · rw [hs]
      exact ⟨by simp, by simp, fun _ => by simp⟩

/-- Witness of C11: a fresh watch of the window in which the retries are used up
starts again from counter 0 and the conservative bridge mode; a reconnect attempt of
it keeps the counter at 6 and the flags. -/
theorem startWatchingChannel_attempt_state_witness :
    usedUpWindow.reconnectAttemptCount_ = 6 ∧
    usedUpWindow.useResilientBridgeMode_ = true ∧
    (startWatchingChannel envOk (qs "KTVU") false usedUpWindow).2.reconnectAttemptCount_ = 0 ∧
    (startWatchingChannel envOk (qs "KTVU") false usedUpWindow).2.useResilientBridgeMode_ =
      false ∧
    (startWatchingChannel envOk (qs "KTVU") true usedUpWindow).2.reconnectAttemptCount_ = 6 ∧
    (startWatchingChannel envOk (qs "KTVU") true usedUpWindow).2.useResilientBridgeMode_ = true :=
  have h := startWatchingChannel_attempt_state envOk (qs "KTVU") usedUpWindow
  have hf := h.1 (by decide) (by decide) (by decide)
  ⟨by decide, by decide,
    hf.2.2.2.2.2.2 (by decide),
    hf.2.2.2.2.1,
    (h.2.2.2 (by decide)).trans (by decide),
    h.2.1.trans (by decide)⟩

/-- C12: when the channel name of the session is empty, or the session is
user-stopped, the recovery coordinator takes no action: `scheduleReconnect`,
`tryDynamicBridgeFallback` (which returns false) and `triggerReconnect` leave the
state as it is, and the handlers of the lock exit, of the bridge exit, of the media
status and of the player error do nothing but write to the log; so the session is
unchanged, no timer is armed and no process is started. -/
theorem recovery_idle_without_session (w : MainWindow)
    (hIdle : w.currentChannelName_ = [] ∨ w.userStoppedWatching_ = true) :
    (∀ reason, scheduleReconnect reason w = w) ∧
    (∀ env reason, tryDynamicBridgeFallback env reason w = (false, w)) ∧
    (∀ env, triggerReconnect env w = w) ∧
    (∀ exitCode exitStatus, OnlyLogs w (handleZapFinished exitCode exitStatus w)) ∧
    (∀ env exitCode exitStatus, OnlyLogs w (handleBridgeFinished env exitCode exitStatus w)) ∧
    (∀ env status, OnlyLogs w (handleMediaStatusChanged env status w)) ∧
    (∀ env errorText, OnlyLogs w (handlePlayerError env errorText w)) ∧
    (∀ v, OnlyLogs w v →
      v.session = w.session ∧ v.reconnectTimer_ = w.reconnectTimer_ ∧
      timerStarts v.trace = timerStarts w.trace ∧
      v.scanProcess_ = w.scanProcess_ ∧ v.zapProcess_ = w.zapProcess_ ∧
      v.streamBridgeProcess_ = w.streamBridgeProcess_ ∧
      watchCalls v.trace = watchCalls w.trace ∧
      playbackCalls v.trace = playbackCalls w.trace) := by
  have hlog : ∀ line, OnlyLogs w (appendLog line w) := by
    intro line
    exact ⟨[.appendLog line], rfl, by simp⟩
  have hself : OnlyLogs w w := ⟨[], by simp, by simp⟩
  have hnot : ¬(w.userStoppedWatching_ = false ∧ w.currentChannelName_ ≠ []) := by
    rintro ⟨h1, h2⟩
    rcases hIdle with h | h
    · exact h2 h
    · rw [h] at h1
      exact absurd h1 (by simp)
  refine ⟨?_, ?_, ?_, ?_, ?_, ?_, ?_, ?_⟩
  · intro reason
    rw [scheduleReconnect_eq, if_pos hIdle]
  · intro env reason
    rw [tryDynamicBridgeFallback_eq, if_neg]
    rintro ⟨h1, h2, -⟩
    exact hnot ⟨h2, h1⟩
  · intro env
    unfold triggerReconnect
    rw [if_pos]
    rcases hIdle with h | h
    · simp [h]
    · simp [h]
  · intro exitCode exitStatus
    rw [handleZapFinished_eq, if_neg]
    · split_ifs
      · exact hlog _
      · exact hself
    · rintro ⟨-, -, h1, h2⟩
      exact hnot ⟨h1, h2⟩
  · intro env exitCode exitStatus
    rw [handleBridgeFinished_eq, if_neg]
    · exact hlog _
    · rintro ⟨-, h1, h2⟩
      exact hnot ⟨h1, h2⟩
  · intro env status
    rw [handleMediaStatusChanged_eq, if_neg, if_neg]
    · exact hlog _
    · rintro ⟨h1, h2, -⟩
      exact hnot ⟨h2, h1⟩
    · rintro ⟨h1, h2, -⟩
      exact hnot ⟨h2, h1⟩
  · intro env errorText
    rw [handlePlayerError_eq]
    by_cases h0 : trimmed errorText = []
    · rw [if_pos h0]
      exact hself
    · rw [if_neg h0, if_neg hnot]
      exact hlog _
  · rintro v ⟨log, rfl, hl⟩
    have hnr : ∀ e ∈ log, e.isRecovery = false := by
      intro e he
      obtain ⟨line, rfl⟩ := hl e he
      rfl
    have hobs := observations_of_no_recovery hnr
    refine ⟨rfl, rfl, ?_, rfl, rfl, rfl, ?_, ?_⟩
    · simp only [timerStarts_append, hobs.2.2.1, List.append_nil]
    · simp only [watchCalls_append, hobs.1, List.append_nil]
    · simp only [playbackCalls_append, hobs.2.1, List.append_nil]

/-- Witness of C12: on the freshly constructed window, which has no channel name, a
crash of the lock process is logged and nothing else happens. -/
theorem recovery_idle_without_session_witness :
    scheduleReconnect (qs "Player error") idleWindow = idleWindow ∧
    tryDynamicBridgeFallback envOk (qs "Player error") idleWindow = (false, idleWindow) ∧
    (handleZapFinished 1 .CrashExit idleWindow).session = idleWindow.session ∧
    timerStarts (handleZapFinished 1 .CrashExit idleWindow).trace = timerStarts idleWindow.trace :=
  have h := recovery_idle_without_session idleWindow (Or.inl (by decide))
  have hz := h.2.2.2.2.2.2.2 _ (h.2.2.2.1 1 .CrashExit)
  ⟨h.1 _, h.2.1 _ _, hz.1, hz.2.2.1⟩

/-! ## The claims on the channel catalog -/

/-- C13: a line that starts with `#`, starts with `stderr:`, has fewer than three
colon-delimited fields, or whose first field is empty after trimming, produces no
record: `parseAndStoreLine` leaves the catalog list and the channel table, and
with them the whole state, as they are. -/
theorem parseAndStoreLine_rejects (line : QString) (w : MainWindow)
    (h : (qs "#").isPrefixOf line = true ∨ (qs "stderr:").isPrefixOf line = true ∨
      (split ':' line).length < 3 ∨ trimmed ((split ':' line).getD 0 []) = []) :
    (parseAndStoreLine line w).channelLines_ = w.channelLines_ ∧
    (parseAndStoreLine line w).channelsTable_ = w.channelsTable_ ∧
    parseAndStoreLine line w = w := by
  have hr : rejectsLine line = true := by
    unfold rejectsLine
    rcases h with h | h | h | h
    · rw [h]; rfl
    · rw [h]; simp
    · rw [decide_eq_true h]; simp
    · rw [h]; simp
  have hw : parseAndStoreLine line w = w := by
    rw [parseAndStoreLine_eq, if_pos hr]
  rw [hw]
  exact ⟨rfl, rfl, rfl⟩

/-- Witness of C13: a comment, a tagged diagnostic line, a line of two fields and a
line with a blank name are all dropped. -/
theorem parseAndStoreLine_rejects_witness :
    parseAndStoreLine (qs "# channels") idleWindow = idleWindow ∧
    parseAndStoreLine (qs "stderr: KTVU:515000000:8VSB") idleWindow = idleWindow ∧
    parseAndStoreLine (qs "KTVU:515000000") idleWindow = idleWindow ∧
    parseAndStoreLine (qs " :515000000:8VSB") idleWindow = idleWindow :=
  ⟨(parseAndStoreLine_rejects (qs "# channels") idleWindow (Or.inl (by decide))).2.2,
    (parseAndStoreLine_rejects (qs "stderr: KTVU:515000000:8VSB") idleWindow
      (Or.inr (Or.inl (by decide)))).2.2,
    (parseAndStoreLine_rejects (qs "KTVU:515000000") idleWindow
      (Or.inr (Or.inr (Or.inl (by decide))))).2.2,
    (parseAndStoreLine_rejects (qs " :515000000:8VSB") idleWindow
      (Or.inr (Or.inr (Or.inr (by decide))))).2.2⟩

/-- C14: a line with fewer than three colon-delimited fields is returned unchanged.
For a line with three fields or more, `normalizeZapLine` returns the fields joined by
colons with field 2 replaced by `8VSB` when that field, trimmed and in upper case, is
`VSB_8`, and by `16VSB` when it is `VSB_16`; in every other case the line is returned
character for character.  In all cases the number of fields and every field other
than field 2 are those of the line. -/
theorem normalizeZapLine_spec (line : QString) :
    ((split ':' line).length < 3 → normalizeZapLine line = line) ∧
    (3 ≤ (split ':' line).length →
      (toUpper (trimmed ((split ':' line).getD 2 [])) = qs "VSB_8" →
        normalizeZapLine line = (qs ":").intercalate ((split ':' line).set 2 (qs "8VSB")) ∧
        split ':' (normalizeZapLine line) = (split ':' line).set 2 (qs "8VSB")) ∧
      (toUpper (trimmed ((split ':' line).getD 2 [])) = qs "VSB_16" →
        normalizeZapLine line = (qs ":").intercalate ((split ':' line).set 2 (qs "16VSB")) ∧
        split ':' (normalizeZapLine line) = (split ':' line).set 2 (qs "16VSB")) ∧
      (toUpper (trimmed ((split ':' line).getD 2 [])) ≠ qs "VSB_8" →
        toUpper (trimmed ((split ':' line).getD 2 [])) ≠ qs "VSB_16" →
        normalizeZapLine line = line)) ∧
    (split ':' (normalizeZapLine line)).length = (split ':' line).length ∧
    (∀ i, i ≠ 2 → (split ':' (normalizeZapLine line)).get? i = (split ':' line).get? i) := by
  refine ⟨normalizeZapLine_short line, ?_, length_split_normalizeZapLine line, ?_⟩
  · intro h3
    refine ⟨?_, ?_, normalizeZapLine_other line⟩
    · intro h8
      have hn := normalizeZapLine_vsb8 line h3 h8
      exact ⟨hn, normalizeZapLine_replaced line _ h3 (by decide) hn⟩
    · intro h16
      have hn := normalizeZapLine_vsb16 line h3 h16
      exact ⟨hn, normalizeZapLine_replaced line _ h3 (by decide) hn⟩
  · intro i hi
    obtain ⟨x, hx, -⟩ := split_normalizeZapLine line
    rw [hx, List.get?_eq_getElem?, List.get?_eq_getElem?, List.getElem?_set_ne (Ne.symm hi)]

/-- Witness of C14: the modulation of a scanner line is renamed whatever its case and
padding, the other fields stay, and a line of two fields is left alone. -/
theorem normalizeZapLine_spec_witness :
    normalizeZapLine (qs "KTVU:515000000: vsb_8 :49:52:3") = qs "KTVU:515000000:8VSB:49:52:3" ∧
    normalizeZapLine (qs "KQED:569000000:VSB_16:49:52:1") = qs "KQED:569000000:16VSB:49:52:1" ∧
    normalizeZapLine (qs "KTVU:515000000:QAM_256:49:52:3") = qs "KTVU:515000000:QAM_256:49:52:3" ∧
    normalizeZapLine (qs "VSB_8:VSB_8") = qs "VSB_8:VSB_8" :=
  ⟨(((normalizeZapLine_spec (qs "KTVU:515000000: vsb_8 :49:52:3")).2.1 (by decide)).1
      (by decide)).1.trans (by decide),
    (((normalizeZapLine_spec (qs "KQED:569000000:VSB_16:49:52:1")).2.1 (by decide)).2.1
      (by decide)).1.trans (by decide),
    ((normalizeZapLine_spec (qs "KTVU:515000000:QAM_256:49:52:3")).2.1 (by decide)).2.2
      (by decide) (by decide),
    (normalizeZapLine_spec (qs "VSB_8:VSB_8")).1 (by decide)⟩

/-- C15: modulation normalization is idempotent: for every string,
`normalizeZapLine (normalizeZapLine line) = normalizeZapLine line`. -/
theorem normalizeZapLine_idempotent (line : QString) :
    normalizeZapLine (normalizeZapLine line) = normalizeZapLine line :=
  normalizeZapLine_idem line

/-- C16: for every line `parseAndStoreLine` accepts, the record added to the channel
table has as name the trimmed field 0, as raw line the normalized line, and as
provider the trimmed field 10 when the line has more than ten fields and that field
is not blank, and `Unknown` otherwise; the fields are those of the line as well as
those of the normalized line. -/
theorem parseAndStoreLine_record (line : QString) (w : MainWindow)
    (hAccepted : rejectsLine line = false) :
    (parseAndStoreLine line w).channelsTable_ = w.channelsTable_ ++
      [(trimmed ((split ':' line).getD 0 []),
        (if 10 < (split ':' line).length ∧ trimmed ((split ':' line).getD 10 []) ≠ [] then
          trimmed ((split ':' line).getD 10 [])
        else qs "Unknown"),
        normalizeZapLine line)] ∧
    (split ':' (normalizeZapLine line)).getD 0 [] = (split ':' line).getD 0 [] ∧
    (split ':' (normalizeZapLine line)).getD 10 [] = (split ':' line).getD 10 [] ∧
    (split ':' (normalizeZapLine line)).length = (split ':' line).length := by
  refine ⟨?_, getD_split_normalizeZapLine line 0 (by decide),
    getD_split_normalizeZapLine line 10 (by decide), length_split_normalizeZapLine line⟩
  rw [parseAndStoreLine_eq, hAccepted]
  simp [providerOf]

/-- Witness of C16: a scanner line with the modulation `VSB_8` and a provider in field
10, and one without provider. -/
theorem parseAndStoreLine_record_witness :
    (parseAndStoreLine (qs "BBC One:515000000:VSB_8:49:52:501:0:0:0:0: Crystal Palace :x")
        MainWindow.fresh).channelsTable_ =
      [(qs "BBC One", qs "Crystal Palace",
        qs "BBC One:515000000:8VSB:49:52:501:0:0:0:0: Crystal Palace :x")] ∧
    (parseAndStoreLine (qs "BBC One:515000000:VSB_8:49:52:501") MainWindow.fresh).channelsTable_ =
      [(qs "BBC One", qs "Unknown", qs "BBC One:515000000:8VSB:49:52:501")] :=
  ⟨(parseAndStoreLine_record
      (qs "BBC One:515000000:VSB_8:49:52:501:0:0:0:0: Crystal Palace :x") MainWindow.fresh
      (by decide)).1.trans (by decide),
    (parseAndStoreLine_record (qs "BBC One:515000000:VSB_8:49:52:501") MainWindow.fresh
      (by decide)).1.trans (by decide)⟩

/-- C17: the catalog after `parseAndStoreLine` is the catalog before, or the catalog
before with the normalized line appended at its end; the latter exactly when the line
is accepted and its normalized form is not in the catalog yet.  So a catalog without
duplicates stays without duplicates, and over any sequence of lines the catalog before
is a prefix of the catalog after: the entries keep their order. -/
theorem parseAndStoreLine_append_only (line : QString) (w : MainWindow) :
    ((parseAndStoreLine line w).channelLines_ = w.channelLines_ ∨
      (parseAndStoreLine line w).channelLines_ = w.channelLines_ ++ [normalizeZapLine line]) ∧
    ((parseAndStoreLine line w).channelLines_ = w.channelLines_ ++ [normalizeZapLine line] ↔
      (rejectsLine line = false ∧ normalizeZapLine line ∉ w.channelLines_)) ∧
    (w.channelLines_.Nodup → (parseAndStoreLine line w).channelLines_.Nodup) ∧
    (∀ lines : List QString,
      w.channelLines_ <+: (feedLines lines w).channelLines_ ∧
      (w.channelLines_.Nodup → (feedLines lines w).channelLines_.Nodup)) := by
  have hstep : ∀ (l : QString) (v : MainWindow),
      (v.channelLines_ <+: (parseAndStoreLine l v).channelLines_) ∧
      (v.channelLines_.Nodup → (parseAndStoreLine l v).channelLines_.Nodup) := by
    intro l v
    rw [parseAndStoreLine_channelLines]
    split_ifs with hc
    · exact ⟨List.prefix_refl _, id⟩
    · refine ⟨List.prefix_append _ _, fun hnd => ?_⟩
      rw [List.nodup_append]
      refine ⟨hnd, List.nodup_singleton _, ?_⟩
      intro a ha hb
      rw [List.mem_singleton] at hb
      subst hb
      exact hc (Or.inr ha)
  refine ⟨?_, ?_, (hstep line w).2, ?_⟩
  · rw [parseAndStoreLine_channelLines]
    split_ifs
    · exact Or.inl rfl
    · exact Or.inr rfl
  · rw [parseAndStoreLine_channelLines]
    split_ifs with hc
    · constructor
      · intro h
        have := congrArg List.length h
        simp at this
      · rintro ⟨h1, h2⟩
        rcases hc with hc | hc
        · rw [h1] at hc
          exact absurd hc (by simp)
        · exact absurd hc h2
    · constructor
      · intro _
        constructor
        · cases hr : rejectsLine line
          · rfl
          · exact absurd (Or.inl hr) hc
        · exact fun hm => hc (Or.inr hm)
      · intro _
        rfl
  · intro lines
    unfold feedLines
    induction lines generalizing w with
    | nil => exact ⟨List.prefix_refl _, id⟩
    | cons l rest ih =>
      rw [List.foldl_cons]
      have h1 := hstep l w
      have h2 := ih (parseAndStoreLine l w)
      exact ⟨h1.1.trans h2.1, fun hnd => h2.2 (h1.2 hnd)⟩

/-- Witness of C17: a line already in the catalog of the idle window, in another
spelling of its modulation, changes nothing; a new line is appended. -/
theorem parseAndStoreLine_append_only_witness :
    idleWindow.channelLines_ = [qs "KTVU:515000000:8VSB:49:52:3"] ∧
    (parseAndStoreLine (qs "KTVU:515000000:vsb_8:49:52:3") idleWindow).channelLines_ =
      [qs "KTVU:515000000:8VSB:49:52:3"] ∧
    (parseAndStoreLine (qs "KQED:569000000:VSB_8:49:52:1") idleWindow).channelLines_ =
      [qs "KTVU:515000000:8VSB:49:52:3", qs "KQED:569000000:8VSB:49:52:1"] ∧
    (parseAndStoreLine (qs "KQED:569000000:VSB_8:49:52:1") idleWindow).channelLines_.Nodup :=
  have h := parseAndStoreLine_append_only (qs "KQED:569000000:VSB_8:49:52:1") idleWindow
  ⟨by decide, by decide, (h.2.1.mpr ⟨by decide, by decide⟩).trans (by decide),
    h.2.2.1 (by decide)⟩

/-! ## The round trip of the catalog through the channels file -/

/-- A catalog of entries without duplicates, not empty, is written by
`persistChannelsFile` to a writable directory, and `loadChannelsFileIfPresent` reads
it back from the file as it is, whatever catalog the loading state holds in memory. -/
theorem round_trip_of_catalogOk (env env' : Env) (w v : MainWindow)
    (hok : CatalogOk w.channelLines_) (hNonEmpty : w.channelLines_ ≠ [])
    (hWritable : env.appDataPath ≠ [] ∧ (env.dirExists = true ∨ env.mkpathOk = true) ∧
      env.canWriteChannelsFile = true)
    (hSameDir : env'.appDataPath = env.appDataPath)
    (hReadable : env'.canReadChannelsFile = true)
    (hDisk : v.disk = (persistChannelsFile env w).2.disk) :
    (persistChannelsFile env w).1 = true ∧
    (persistChannelsFile env w).2.disk.lookup (filePath env.appDataPath (qs "channels.conf")) =
      some (channelsFileText w.channelLines_) ∧
    (loadChannelsFileIfPresent env' v).channelLines_ = w.channelLines_ := by
  obtain ⟨hdir, hmk, hwrite⟩ := hWritable
  have hp : persistChannelsFile env w =
      (true, { w with
        channelsFilePath_ := filePath env.appDataPath (qs "channels.conf")
        disk := (filePath env.appDataPath (qs "channels.conf"),
          channelsFileText w.channelLines_) :: w.disk
        trace := w.trace ++ [.appendLog (qs "Channels saved: "
          ++ filePath env.appDataPath (qs "channels.conf"))] }) := by
    rw [persistChannelsFile_eq, if_neg hNonEmpty, if_neg hdir, if_neg, if_neg]
    · rw [hwrite]
      simp
    · rintro ⟨h1, h2⟩
      rcases hmk with h | h
      · rw [h1] at h
        exact absurd h (by simp)
      · rw [h2] at h
        exact absurd h (by simp)
  have hfile : (persistChannelsFile env w).2.disk.lookup
      (filePath env.appDataPath (qs "channels.conf")) =
      some (channelsFileText w.channelLines_) := by
    rw [hp]
    simp [List.lookup]
  refine ⟨by rw [hp], hfile, ?_⟩
  rw [← hSameDir, ← hDisk] at hfile
  rw [loadChannelsFileIfPresent_channelLines env' _ _ (by rw [hSameDir]; exact hdir) hfile
    hReadable]
  rw [readLines_channelsFileText _ (fun e he => (hok.2 e he).1)]
  rw [load_loop]
  · rfl
  · exact hok

/-- The round trip holds for the catalog of every state the program reaches. -/
theorem round_trip_reachable (env env' : Env) (w : MainWindow) (hw : Reachable w)
    (hNonEmpty : w.channelLines_ ≠ [])
    (hWritable : env.appDataPath ≠ [] ∧ (env.dirExists = true ∨ env.mkpathOk = true) ∧
      env.canWriteChannelsFile = true)
    (hSameDir : env'.appDataPath = env.appDataPath)
    (hReadable : env'.canReadChannelsFile = true) :
    (persistChannelsFile env w).1 = true ∧
    (loadChannelsFileIfPresent env' (persistChannelsFile env w).2).channelLines_ =
      w.channelLines_ ∧
    (∀ v : MainWindow, v.disk = (persistChannelsFile env w).2.disk →
      (loadChannelsFileIfPresent env' v).channelLines_ = w.channelLines_) := by
  have hok := (catalogInv_reachable w hw).1
  have h := round_trip_of_catalogOk env env' w _ hok hNonEmpty hWritable hSameDir hReadable rfl
  exact ⟨h.1, h.2.2, fun v hv =>
    (round_trip_of_catalogOk env env' w v hok hNonEmpty hWritable hSameDir hReadable hv).2.2⟩

/-- C18: a catalog built by feeding trimmed lines to `parseAndStoreLine`, starting
from an empty catalog, survives the round trip.  If it is not empty and the
directory is writable, `persistChannelsFile` returns true and writes each entry
followed by a newline.  `loadChannelsFileIfPresent`, run afterwards in any state that
has the file written, whatever catalog that state holds in memory, ends with exactly
the entries written, in the same order: so it does in the state `persistChannelsFile`
left, and in the window the constructor builds on that disk when the program is
started again.  For an empty catalog `persistChannelsFile` returns false.  (A line
holds no newline: what is fed is cut from the scan output at the newlines or read
from the file line by line.) -/
theorem persist_load_round_trip (env env' : Env) (lines : List QString) (w0 : MainWindow)
    (hLines : ∀ l ∈ lines, '\n' ∉ l ∧ trimmed l = l)
    (hStart : w0.channelLines_ = [])
    (hNonEmpty : (feedLines lines w0).channelLines_ ≠ [])
    (hWritable : env.appDataPath ≠ [] ∧ (env.dirExists = true ∨ env.mkpathOk = true) ∧
      env.canWriteChannelsFile = true)
    (hSameDir : env'.appDataPath = env.appDataPath)
    (hReadable : env'.canReadChannelsFile = true) :
    (persistChannelsFile env (feedLines lines w0)).1 = true ∧
    (persistChannelsFile env (feedLines lines w0)).2.disk.lookup
        (filePath env.appDataPath (qs "channels.conf")) =
      some (channelsFileText (feedLines lines w0).channelLines_) ∧
    (loadChannelsFileIfPresent env' (persistChannelsFile env (feedLines lines w0)).2).channelLines_
      = (feedLines lines w0).channelLines_ ∧
    (∀ v : MainWindow, v.disk = (persistChannelsFile env (feedLines lines w0)).2.disk →
      (loadChannelsFileIfPresent env' v).channelLines_ = (feedLines lines w0).channelLines_) ∧
    (∀ (storedFavorites : List QString) (hints : List (QString × QString)),
      (construct env' storedFavorites hints
        (persistChannelsFile env (feedLines lines w0)).2.disk).channelLines_ =
        (feedLines lines w0).channelLines_) ∧
    (∀ (e : Env) (w : MainWindow), w.channelLines_ = [] → (persistChannelsFile e w).1 = false) := by
  have hok : CatalogOk (feedLines lines w0).channelLines_ := by
    apply catalogOk_feedLines lines w0 hLines
    rw [hStart]
    exact ⟨List.nodup_nil, by simp⟩
  have hload : ∀ v : MainWindow,
      v.disk = (persistChannelsFile env (feedLines lines w0)).2.disk →
      (loadChannelsFileIfPresent env' v).channelLines_ = (feedLines lines w0).channelLines_ :=
    fun v hv => (round_trip_of_catalogOk env env' (feedLines lines w0) v hok hNonEmpty
      hWritable hSameDir hReadable hv).2.2
  obtain ⟨h1, h2, h3⟩ := round_trip_of_catalogOk env env' (feedLines lines w0) _ hok hNonEmpty
    hWritable hSameDir hReadable rfl
  refine ⟨h1, h2, h3, hload, ?_, ?_⟩
  · intro storedFavorites hints
    unfold construct
    exact hload _ rfl
  · intro e w hw
    rw [persistChannelsFile_eq, if_pos hw]

/-- Witness of C18: three scanner lines and a comment give a catalog of three entries;
it is written, and a window that holds another catalog in memory, and a window newly
constructed on the disk, both read it back as it is. -/
theorem persist_load_round_trip_witness :
    (feedLines [qs "KTVU:515000000:VSB_8:49:52:3", qs "# scanned", qs "KQED:569000000:8VSB:49:52:1",
        qs "KTVU:515000000:8vsb:49:52:3"] MainWindow.fresh).channelLines_ =
      [qs "KTVU:515000000:8VSB:49:52:3", qs "KQED:569000000:8VSB:49:52:1",
        qs "KTVU:515000000:8vsb:49:52:3"] ∧
    (loadChannelsFileIfPresent envOk
      { MainWindow.fresh with
        channelLines_ := [qs "KRON:5:8VSB"]
        disk := (persistChannelsFile envOk
          (feedLines [qs "KTVU:515000000:VSB_8:49:52:3", qs "# scanned",
            qs "KQED:569000000:8VSB:49:52:1", qs "KTVU:515000000:8vsb:49:52:3"]
            MainWindow.fresh)).2.disk }).channelLines_ =
      [qs "KTVU:515000000:8VSB:49:52:3", qs "KQED:569000000:8VSB:49:52:1",
        qs "KTVU:515000000:8vsb:49:52:3"] ∧
    (construct envOk [] [] (persistChannelsFile envOk
      (feedLines [qs "KTVU:515000000:VSB_8:49:52:3", qs "# scanned",
        qs "KQED:569000000:8VSB:49:52:1", qs "KTVU:515000000:8vsb:49:52:3"]
        MainWindow.fresh)).2.disk).channelLines_ =
      [qs "KTVU:515000000:8VSB:49:52:3", qs "KQED:569000000:8VSB:49:52:1",
        qs "KTVU:515000000:8vsb:49:52:3"] :=
  have h := persist_load_round_trip envOk envOk
    [qs "KTVU:515000000:VSB_8:49:52:3", qs "# scanned", qs "KQED:569000000:8VSB:49:52:1",
      qs "KTVU:515000000:8vsb:49:52:3"] MainWindow.fresh
    (by decide) (by decide) (by decide) (by decide) (by decide) (by decide)
  ⟨by decide, (h.2.2.2.1 _ rfl).trans (by decide), (h.2.2.2.2.1 [] []).trans (by decide)⟩

/-! ## Looking up the program id -/

theorem parseProgramFromLine_eq (channelName line : QString) :
    (givesProgramId channelName line →
      parseProgramFromLine channelName line = trimmed ((split ':' (trimmed line)).getD 5 []) ∧
      parseProgramFromLine channelName line ≠ []) ∧
    (¬ givesProgramId channelName line → parseProgramFromLine channelName line = []) := by
  unfold givesProgramId parseProgramFromLine
  constructor
  · rintro ⟨h6, h0, h5⟩
    have hne : (trimmed line).isEmpty = false := by
      cases ht : trimmed line with
      | nil =>
        rw [ht] at h6
        simp [split] at h6
      | cons a t => rfl
    simp only [hne, Bool.false_eq_true, if_false, if_neg (not_lt.mpr h6), h0, ne_eq,
      not_true_eq_false]
    exact ⟨trivial, h5⟩
  · intro hnot
    by_cases he : (trimmed line).isEmpty = true
    · simp only [he, if_true]
    simp only [he, Bool.false_eq_true, if_false]
    by_cases h6 : (split ':' (trimmed line)).length < 6
    · simp only [h6, if_true]
    simp only [h6, if_false]
    by_cases h0 : trimmed ((split ':' (trimmed line)).getD 0 []) = channelName
    · simp only [h0, ne_eq, not_true_eq_false, if_false]
      by_contra h5
      exact hnot ⟨not_lt.mp h6, h0, h5⟩
    · simp only [ne_eq, h0, not_false_eq_true, if_true]

/-- The scan of `programIdForChannel` over a list of lines returns what the first line
that gives a program id gives, and nothing if no line does. -/
theorem firstProgramId_eq (channelName : QString) (lines : List QString) :
    (∀ pre l post, lines = pre ++ l :: post →
      (∀ p ∈ pre, ¬ givesProgramId channelName p) → givesProgramId channelName l →
      firstProgramId channelName lines = trimmed ((split ':' (trimmed l)).getD 5 [])) ∧
    ((∀ p ∈ lines, ¬ givesProgramId channelName p) → firstProgramId channelName lines = []) := by
  constructor
  · intro pre l post hl hpre hgives
    subst hl
    induction pre with
    | nil =>
      have h := (parseProgramFromLine_eq channelName l).1 hgives
      have hne : (parseProgramFromLine channelName l).isEmpty = false := by
        cases hp : parseProgramFromLine channelName l with
        | nil => exact absurd hp h.2
        | cons a t => rfl
      simp only [List.nil_append, firstProgramId, hne, Bool.not_false, if_true]
      exact h.1
    | cons p rest ih =>
      have hp := (parseProgramFromLine_eq channelName p).2 (hpre p (by simp))
      simp only [List.cons_append, firstProgramId, hp, List.isEmpty_nil, Bool.not_true,
        Bool.false_eq_true, if_false]
      exact ih (fun q hq => hpre q (List.mem_cons_of_mem _ hq))
  · intro hall
    induction lines with
    | nil => rfl
    | cons p rest ih =>
      have hp := (parseProgramFromLine_eq channelName p).2 (hall p (by simp))
      simp only [firstProgramId, hp, List.isEmpty_nil, Bool.not_true, Bool.false_eq_true, if_false]
      exact ih (fun q hq => hall q (List.mem_cons_of_mem _ hq))

/-- Counterexample to C19 as stated.  First: with the catalog
`KTVU:515000000:8VSB`, `KTVU:515000000:8VSB:49:52:3`, the first line whose field 0
is `KTVU` has no field 5, and the result for `KTVU` is not empty but `3`, taken from
the second line.  Second: after a new scan has put that first line alone in memory,
a line with the name in field 0, the file on disk is still consulted and gives `3`;
without the file the result is empty.  Third: with the
catalog line `KTVU :515000000:8VSB:49:52: 3 :0` no line has field 0 equal to `KTVU`
and field 5 is ` 3 `, yet the result for `KTVU` is `3`. -/
theorem first_name_match_is_skipped :
    (shortLineWindow.xspfProgramByChannel_ = [] ∧
      shortLineWindow.channelLines_ =
        [qs "KTVU:515000000:8VSB", qs "KTVU:515000000:8VSB:49:52:3"] ∧
      (split ':' (qs "KTVU:515000000:8VSB")).getD 0 [] = qs "KTVU" ∧
      (split ':' (qs "KTVU:515000000:8VSB")).get? 5 = none ∧
      programIdForChannel envOk shortLineWindow (qs "KTVU") = qs "3") ∧
    (rescannedWindow.xspfProgramByChannel_ = [] ∧
      rescannedWindow.channelLines_ = [qs "KTVU:515000000:8VSB"] ∧
      programIdForChannel envOk rescannedWindow (qs "KTVU") = qs "3" ∧
      programIdForChannel envOk { rescannedWindow with disk := [] } (qs "KTVU") = []) ∧
    (paddedLineWindow.xspfProgramByChannel_ = [] ∧
      paddedLineWindow.channelLines_ = [qs "KTVU :515000000:8VSB:49:52: 3 :0"] ∧
      (split ':' (qs "KTVU :515000000:8VSB:49:52: 3 :0")).getD 0 [] ≠ qs "KTVU" ∧
      (split ':' (qs "KTVU :515000000:8VSB:49:52: 3 :0")).getD 5 [] = qs " 3 " ∧
      paddedLineWindow.channelsTable_.map (fun row => row.1) = [qs "KTVU"] ∧
      programIdForChannel envOk paddedLineWindow (qs "KTVU") = qs "3") := by
  decide

/-- C19, amended: for a channel name that is not empty, `programIdForChannel` follows
the order hint mapping, in-memory catalog, channels file on disk, and the first line
that gives a program id wins.  If the name is in the hint mapping the hint is
returned.  Otherwise the result is the trimmed field 5 of the first catalog line, in
list order, that gives a program id for the name (six fields or more, field 0
trimmed equal to the name, field 5 trimmed not empty).  Only if no catalog line
gives one is the file consulted, line by line in the same way, when it is there and
can be read.  The result is empty when nothing gives a program id; and it is empty
for the empty name. -/
theorem programIdForChannel_order (env : Env) (w : MainWindow) (channelName : QString)
    (hName : channelName ≠ []) :
    (∀ hint, w.xspfProgramByChannel_.lookup channelName = some hint →
      programIdForChannel env w channelName = hint) ∧
    (w.xspfProgramByChannel_.lookup channelName = none →
      (∀ pre l post, w.channelLines_ = pre ++ l :: post →
        (∀ p ∈ pre, ¬ givesProgramId channelName p) → givesProgramId channelName l →
        programIdForChannel env w channelName = trimmed ((split ':' (trimmed l)).getD 5 [])) ∧
      ((∀ p ∈ w.channelLines_, ¬ givesProgramId channelName p) →
        (∀ text, w.disk.lookup w.channelsFilePath_ = some text →
          env.canReadChannelsFile = true →
          (∀ pre l post, readLines text = pre ++ l :: post →
            (∀ p ∈ pre, ¬ givesProgramId channelName p) → givesProgramId channelName l →
            programIdForChannel env w channelName =
              trimmed ((split ':' (trimmed l)).getD 5 [])) ∧
          ((∀ p ∈ readLines text, ¬ givesProgramId channelName p) →
            programIdForChannel env w channelName = [])) ∧
        (w.disk.lookup w.channelsFilePath_ = none ∨ env.canReadChannelsFile = false →
          programIdForChannel env w channelName = []))) ∧
    (∀ v : MainWindow, programIdForChannel env v [] = []) := by
  have hne : channelName.isEmpty = false := by
    cases h : channelName with
    | nil => exact absurd h hName
    | cons a t => rfl
  refine ⟨?_, ?_, ?_⟩
  · intro hint hh
    unfold programIdForChannel
    simp only [hne, Bool.false_eq_true, if_false, hh]
  · intro hnone
    constructor
    · intro pre l post hl hpre hgives
      have hf := (firstProgramId_eq channelName w.channelLines_).1 pre l post hl hpre hgives
      have hg := (parseProgramFromLine_eq channelName l).1 hgives
      unfold programIdForChannel
      simp only [hne, Bool.false_eq_true, if_false, hnone, hf]
      rw [← hg.1]
      have hx : (parseProgramFromLine channelName l).isEmpty = false := by
        cases hp : parseProgramFromLine channelName l with
        | nil => exact absurd hp hg.2
        | cons a t => rfl
      simp only [hx, Bool.not_false, if_true]
    · intro hall
      have hf := (firstProgramId_eq channelName w.channelLines_).2 hall
      have hprog : programIdForChannel env w channelName =
          match w.disk.lookup w.channelsFilePath_ with
          | none => []
          | some text =>
            if !env.canReadChannelsFile then []
            else firstProgramId channelName (readLines text) := by
        unfold programIdForChannel
        simp only [hne, Bool.false_eq_true, if_false, hnone, hf, List.isEmpty_nil, Bool.not_true]
      constructor
      · intro text htext hread
        rw [hprog, htext]
        simp only [hread, Bool.not_true, Bool.false_eq_true, if_false]
        exact ⟨(firstProgramId_eq channelName (readLines text)).1,
          (firstProgramId_eq channelName (readLines text)).2⟩
      · rintro (h | h)
        · rw [hprog, h]
        · rw [hprog, h]
          cases w.disk.lookup w.channelsFilePath_ <;> simp
  · intro v
    unfold programIdForChannel
    simp

/-- Witness of C19, amended: in the catalog whose first line of KTVU has no program id
the second line gives it; and a hint comes first. -/
theorem programIdForChannel_order_witness :
    programIdForChannel envOk shortLineWindow (qs "KTVU") =
      trimmed ((split ':' (trimmed (qs "KTVU:515000000:8VSB:49:52:3"))).getD 5 []) ∧
    programIdForChannel envOk
      { shortLineWindow with xspfProgramByChannel_ := [(qs "KTVU", qs "7")] } (qs "KTVU") = qs "7" :=
  ⟨((programIdForChannel_order envOk shortLineWindow (qs "KTVU") (by decide)).2.1 (by decide)).1
      [qs "KTVU:515000000:8VSB"] (qs "KTVU:515000000:8VSB:49:52:3") [] (by decide)
      (by decide) (by decide),
    (programIdForChannel_order envOk
      { shortLineWindow with xspfProgramByChannel_ := [(qs "KTVU", qs "7")] } (qs "KTVU")
      (by decide)).1 (qs "7") (by decide)⟩

/-! ## The first reconnect after a lock exit -/

/-- C20: when the lock process exits with code 1 while a channel is active, the
session is not user-stopped, the exit is not suppressed and the attempt counter is 0,
`handleZapFinished` schedules a reconnect: the counter becomes 1 and the reconnect
timer is armed, once, with exactly 1700 ms; so does the exit notification in the
event loop while the lock process runs. -/
theorem lock_exit_first_reconnect (exitStatus : ExitStatus) (w : MainWindow)
    (hActive : w.currentChannelName_ ≠ []) (hNotStopped : w.userStoppedWatching_ = false)
    (hNotSuppressed : w.suppressZapExitReconnect_ = false)
    (hFirst : w.reconnectAttemptCount_ = 0) :
    (handleZapFinished 1 exitStatus w).reconnectAttemptCount_ = 1 ∧
    (handleZapFinished 1 exitStatus w).reconnectTimer_ = some 1700 ∧
    timerStarts (handleZapFinished 1 exitStatus w).trace = timerStarts w.trace ++ [1700] ∧
    800 + 1 * 900 = (1700 : Int) ∧
    (∀ env, w.zapProcess_ ≠ .NotRunning →
      (step env (.zapFinished 1 exitStatus) w).reconnectAttemptCount_ = 1 ∧
      (step env (.zapFinished 1 exitStatus) w).reconnectTimer_ = some 1700) := by
  have hmain : ∀ v : MainWindow, v.currentChannelName_ ≠ [] → v.userStoppedWatching_ = false →
      v.suppressZapExitReconnect_ = false → v.reconnectAttemptCount_ = 0 →
      (handleZapFinished 1 exitStatus v).reconnectAttemptCount_ = 1 ∧
      (handleZapFinished 1 exitStatus v).reconnectTimer_ = some 1700 ∧
      timerStarts (handleZapFinished 1 exitStatus v).trace = timerStarts v.trace ++ [1700] := by
    intro v h1 h2 h3 h4
    rw [handleZapFinished_eq, if_pos ⟨h3, by decide, h2, h1⟩, scheduleReconnect_eq]
    cases exitStatus
    · simp only [ne_eq, not_true_eq_false, if_false]
      rw [if_neg (by simp [h1, h2]), if_neg (by rw [h4]; decide)]
      simp [h4, timerStarts]
    · simp only [ne_eq, reduceCtorEq, not_false_eq_true, if_true, appendLog, record]
      rw [if_neg (by simp [h1, h2]), if_neg (by rw [h4]; decide)]
      simp [h4, timerStarts]
  obtain ⟨h1, h2, h3⟩ := hmain w hActive hNotStopped hNotSuppressed hFirst
  refine ⟨h1, h2, h3, by norm_num, ?_⟩
  intro env hrun
  have hs : step env (.zapFinished 1 exitStatus) w =
      handleZapFinished 1 exitStatus { w with zapProcess_ := .NotRunning } := by
    simp only [step]
    rw [if_pos hrun]
  rw [hs]
  obtain ⟨k1, k2, -⟩ := hmain { w with zapProcess_ := .NotRunning } hActive hNotStopped
    hNotSuppressed hFirst
  exact ⟨k1, k2⟩

/-- Witness of C20: the lock process of the watched channel exits with code 1. -/
theorem lock_exit_first_reconnect_witness :
    (handleZapFinished 1 .NormalExit watchingWindow).reconnectAttemptCount_ = 1 ∧
    (handleZapFinished 1 .NormalExit watchingWindow).reconnectTimer_ = some 1700 :=
  have h := lock_exit_first_reconnect .NormalExit watchingWindow (by decide) (by decide)
    (by decide) (by decide)
  ⟨h.1, h.2.1⟩

/-! ## Relations that hold of every step -/

theorem stepClosed_foldl {R : MainWindow → MainWindow → Prop} (hR : StepClosed R) {α : Type}
    (f : MainWindow → α → MainWindow) (hf : ∀ w x, R w (f w x)) (l : List α)
    (w : MainWindow) : R w (l.foldl f w) := by
  induction l generalizing w with
  | nil => exact hR.same w
  | cons x rest ih => exact hR.next _ _ _ (hf w x) (ih (f w x))

theorem stepClosed_escalation {R : MainWindow → MainWindow → Prop}
    (hR : StepClosed R) (env : Env) (r1 r2 : QString) (w : MainWindow) :
    R w (escalateElseReconnect env r1 r2 w) := by
  unfold escalateElseReconnect
  simp only
  split_ifs
  · exact hR.ofFallback env r1 w
  · exact hR.next _ _ _ (hR.ofFallback env r1 w) (hR.ofSchedule r2 _)

/-- A relation that holds of the building blocks holds of every step other than a
command of the user. -/
theorem stepClosed_automatic {R : MainWindow → MainWindow → Prop} (hR : StepClosed R)
    (env : Env) (e : Event) (w : MainWindow) (he : e.isUserCommand = false) :
    R w (step env e w) := by
  have hlog : ∀ line v, R v (appendLog line v) := fun line v => hR.ofQuiet _ _ (quiet_appendLog line v)
  cases e <;> first | (simp [Event.isUserCommand] at he; done) | simp only [step]
  case stopScan => exact hR.ofQuiet _ _ (quiet_stopScan w)
  case addSelectedFavorite row => exact hR.ofQuiet _ _ (quiet_addSelectedFavorite row w)
  case removeSelectedFavorite row => exact hR.ofQuiet _ _ (quiet_removeSelectedFavorite row w)
  case setAdapter value => exact hR.ofQuiet _ _ (quiet_of_same rfl rfl)
  case setFrontend value => exact hR.ofQuiet _ _ (quiet_of_same rfl rfl)
  case scanStdOut chunk =>
    split_ifs
    · exact hR.ofQuiet _ _ (quiet_appendStdOut chunk w)
    · exact hR.same w
  case scanStdErr chunk =>
    split_ifs
    · exact hR.ofQuiet _ _ (quiet_handleStdErr chunk w)
    · exact hR.same w
  case scanFinished exitCode =>
    split_ifs
    · exact hR.ofQuiet _ _ (Quiet.andThen (b := { w with scanProcess_ := .NotRunning })
        (quiet_of_same rfl rfl) (quiet_processFinished env exitCode _))
    · exact hR.same w
  case zapStdErr text =>
    split_ifs
    · unfold handleZapStdErr
      simp only
      split_ifs
      · exact hR.same w
      · apply stepClosed_foldl hR
        intro v line
        unfold handleZapStdErrLine
        simp only
        split_ifs
        · exact hR.next _ _ _ (hR.next _ _ _ (hlog _ v) (hlog _ _)) (hR.ofPlayback env _ _)
        · exact hlog _ v
        · exact hR.same v
    · exact hR.same w
  case zapFinished exitCode exitStatus =>
    split_ifs
    · refine hR.next _ { w with zapProcess_ := .NotRunning } _
        (hR.ofQuiet _ _ (quiet_of_same rfl rfl)) ?_
      generalize ({ w with zapProcess_ := ProcessState.NotRunning } : MainWindow) = u
      rw [handleZapFinished_eq]
      have h1 : ∀ v : MainWindow, R v (if exitStatus ≠ .NormalExit then
          appendLog (qs "zap: tuner process crashed") v else v) := by
        intro v
        by_cases hx : exitStatus ≠ .NormalExit
        · rw [if_pos hx]
          exact hlog _ v
        · rw [if_neg hx]
          exact hR.same v
      by_cases hc : u.suppressZapExitReconnect_ = false ∧ exitCode ≠ 0 ∧
          u.userStoppedWatching_ = false ∧ u.currentChannelName_ ≠ []
      · rw [if_pos hc]
        exact hR.next _ _ _ (h1 _) (hR.ofSchedule _ _)
      · rw [if_neg hc]
        exact h1 _
    · exact hR.same w
  case bridgeFinished exitCode exitStatus =>
    split_ifs
    · refine hR.next _ { w with streamBridgeProcess_ := .NotRunning } _
        (hR.ofQuiet _ _ (quiet_of_same rfl rfl)) ?_
      generalize ({ w with streamBridgeProcess_ := ProcessState.NotRunning } : MainWindow) = u
      rw [handleBridgeFinished_eq]
      by_cases hc : u.suppressBridgeExitReconnect_ = false ∧ u.userStoppedWatching_ = false ∧
          u.currentChannelName_ ≠ []
      · rw [if_pos hc]
        exact hR.next _ _ _ (hlog _ _) (stepClosed_escalation hR env _ _ _)
      · rw [if_neg hc]
        exact hlog _ _
    · exact hR.same w
  case lateStart process ok => exact hR.ofQuiet _ _ (quiet_lateStart process ok w)
  case mediaStatusChanged status =>
    rw [handleMediaStatusChanged_eq]
    split_ifs
    · exact hR.next _ _ _ (hlog _ _) (stepClosed_escalation hR env _ _ _)
    · exact hR.next _ _ _ (hlog _ _) (stepClosed_escalation hR env _ _ _)
    · exact hlog _ _
  case playerError code errorText =>
    split_ifs
    · refine hR.next _ (appendLog (qs "player: errorChanged code=" ++ number code ++ qs " text="
        ++ errorText) w) _ (hlog _ w) ?_
      rw [handlePlayerError_eq]
      split_ifs
      · exact hR.same _
      · exact hR.next _ _ _ (hlog _ _) (stepClosed_escalation hR env _ _ _)
      · exact hlog _ _
    · exact hR.same w
  case reconnectTimeout =>
    cases ht : w.reconnectTimer_ with
    | none => exact hR.same w
    | some delay =>
      simp only
      unfold triggerReconnect
      simp only
      split_ifs
      · exact hR.ofTimerFired w
      · exact hR.next _ _ _ (hR.ofTimerFired w) (hR.ofReconnect env _ _)
  case dvrReadyShot =>
    cases hs : w.dvrReadyShots with
    | nil => exact hR.same w
    | cons dvrPath rest =>
      dsimp only
      refine hR.next _ { w with dvrReadyShots := rest } _
        (hR.ofQuiet _ _ (quiet_of_same rfl rfl)) ?_
      unfold dvrReadyTimeout
      split_ifs
      · exact hR.next _ _ _ (hlog _ _) (hR.ofPlayback env _ _)
      · exact hR.same _
  case attachShot =>
    cases hs : w.attachShots with
    | nil => exact hR.same w
    | cons udpPort rest =>
      dsimp only
      exact hR.ofQuiet _ _ (Quiet.andThen (b := { w with attachShots := rest })
        (quiet_of_same rfl rfl) (quiet_attachLiveStream udpPort _))

/-- A relation that holds of the building blocks, of a fresh watch, of `stopWatching`
and of `openMediaFile` holds of every step. -/
theorem stepClosed_everyStep {R : MainWindow → MainWindow → Prop} (hR : StepClosed R)
    (hFresh : ∀ env name w, R w (startWatchingChannel env name false w).2)
    (hStop : ∀ w, R w (stopWatching w))
    (hOpen : ∀ chosenPath w, R w (openMediaFile chosenPath w))
    (env : Env) (e : Event) (w : MainWindow) : R w (step env e w) := by
  cases hu : e.isUserCommand
  · exact stepClosed_automatic hR env e w hu
  · cases e <;> first | (simp [Event.isUserCommand] at hu; done) | simp only [step]
    case watchSelectedChannel row =>
      unfold watchSelectedChannel
      simp only
      split_ifs
      · exact hR.ofQuiet _ _ (quiet_messageBox _ w)
      · exact hR.ofQuiet _ _ (quiet_messageBox _ w)
      · exact hFresh env _ w
    case watchFavoriteItem item =>
      cases item with
      | none => exact hR.same w
      | some text => exact hFresh env _ w
    case triggerQuickFavorite button =>
      unfold triggerQuickFavorite
      simp only
      split_ifs
      · exact hR.same w
      · exact hR.same w
      · exact hFresh env _ w
    case stopWatching => exact hStop w
    case openMediaFile chosenPath => exact hOpen chosenPath w
    case startScan args =>
      rw [startScan_eq]
      split_ifs with h1 h2
      · exact hR.same w
      · refine hR.next _ _ _ (hStop w) (hR.ofQuiet _ _
          ⟨rfl, _, by simp only [List.append_assoc]; rfl, ?_⟩)
        intro x hx
        simp at hx
        rcases hx with rfl | rfl | rfl | rfl <;> rfl
      · refine hR.next _ _ _ (hStop w) (hR.ofQuiet _ _
          ⟨rfl, _, by simp only [List.append_assoc]; rfl, ?_⟩)
        intro x hx
        simp at hx
        rcases hx with rfl | rfl | rfl <;> rfl
    case closeEvent code =>
      unfold closeEvent
      simp only
      have h1 := hR.next _ _ _ (hR.ofQuiet _ _ (quiet_appendLog
        (qs "Application closing: releasing tuner resources.") w)) (hStop _)
      split_ifs
      · refine hR.next _ _ _ h1 (hR.ofQuiet _ _ ?_)
        exact Quiet.andThen (b := { stopWatching (appendLog
          (qs "Application closing: releasing tuner resources.") w) with
            scanProcess_ := stopProcess (stopWatching (appendLog
              (qs "Application closing: releasing tuner resources.") w)).scanProcess_ })
          (quiet_of_same rfl rfl) (quiet_processFinished env code _)
      · exact h1

theorem stepClosed_automaticRun {R : MainWindow → MainWindow → Prop} (hR : StepClosed R)
    (w : MainWindow) (events : List (Env × Event))
    (h : ∀ p ∈ events, p.2.isUserCommand = false) : R w (run w events) := by
  induction events generalizing w with
  | nil => exact hR.same w
  | cons p rest ih =>
    obtain ⟨env, e⟩ := p
    simp only [run]
    exact hR.next _ _ _ (stepClosed_automatic hR env e w (h (env, e) (by simp)))
      (ih _ (fun q hq => h q (by simp [hq])))

theorem quiet_suppress {w v : MainWindow} (h : Quiet w v) :
    v.suppressZapExitReconnect_ = w.suppressZapExitReconnect_ ∧
    v.suppressBridgeExitReconnect_ = w.suppressBridgeExitReconnect_ :=
  ⟨congrArg Session.suppressZapExitReconnect_ h.1,
    congrArg Session.suppressBridgeExitReconnect_ h.1⟩

theorem scheduleReconnect_suppress (reason : QString) (w : MainWindow) :
    (scheduleReconnect reason w).suppressZapExitReconnect_ = w.suppressZapExitReconnect_ ∧
    (scheduleReconnect reason w).suppressBridgeExitReconnect_ =
      w.suppressBridgeExitReconnect_ := by
  rw [scheduleReconnect_eq]
  split_ifs <;> exact ⟨rfl, rfl⟩

theorem keepsClear_startWatchingChannel (env : Env) (name : QString) (r : Bool)
    (w : MainWindow) : KeepsClear w (startWatchingChannel env name r w).2 := by
  intro hw
  obtain ⟨path, disk, log, -, h | ⟨-, -, h⟩ | ⟨-, -, pid, h⟩⟩ :=
    startWatchingChannel_summary env name r w
  · rw [h]
    exact hw
  · rw [h]
    refine ⟨?_, ?_⟩
    · rw [(scheduleReconnect_suppress _ _).1]
      simp [hw.1]
    · rw [(scheduleReconnect_suppress _ _).2]
      simp [hw.2]
  · rw [h]
    exact ⟨by simp [hw.1], by simp [hw.2]⟩

theorem keepsClear_startPlaybackFromDvr (env : Env) (dvrPath : QString) (w : MainWindow) :
    KeepsClear w (startPlaybackFromDvr env dvrPath w) := by
  intro hw
  obtain ⟨log, state, shots, -, h | ⟨-, reason, h⟩ | ⟨-, h⟩⟩ :=
    startPlaybackFromDvr_summary env dvrPath w
  · rw [h]
    exact hw
  · rw [h]
    refine ⟨?_, ?_⟩
    · rw [(scheduleReconnect_suppress _ _).1]
      exact hw.1
    · rw [(scheduleReconnect_suppress _ _).2]
      simp [hw.2]
  · rw [h]
    exact ⟨hw.1, by simp [hw.2]⟩

theorem keepsClear_stopWatching (w : MainWindow) : KeepsClear w (stopWatching w) := by
  intro hw
  rw [stopWatching_eq]
  exact ⟨by simp [hw.1], by simp [hw.2]⟩

theorem keepsClear_openMediaFile (chosenPath : QString) (w : MainWindow) :
    KeepsClear w (openMediaFile chosenPath w) := by
  intro hw
  rw [openMediaFile_eq]
  split_ifs
  · exact hw
  · exact keepsClear_stopWatching w hw

theorem keepsClear_stepClosed : StepClosed KeepsClear where
  same := fun _ h => h
  next := fun _ _ _ h1 h2 h => h2 (h1 h)
  ofQuiet := fun w v h hw => ⟨(quiet_suppress h).1.trans hw.1, (quiet_suppress h).2.trans hw.2⟩
  ofTimerFired := fun _ h => h
  ofSchedule := fun reason w hw =>
    ⟨(scheduleReconnect_suppress reason w).1.trans hw.1,
      (scheduleReconnect_suppress reason w).2.trans hw.2⟩
  ofReconnect := fun env name w => keepsClear_startWatchingChannel env name true w
  ofPlayback := keepsClear_startPlaybackFromDvr
  ofFallback := by
    intro env reason w hw
    rw [tryDynamicBridgeFallback_eq]
    split_ifs
    · exact keepsClear_startWatchingChannel env _ true _ hw
    · exact hw

/-- Every step of the event loop leaves the suppress flags clear. -/
theorem suppressClear_step (env : Env) (e : Event) (w : MainWindow) (hw : SuppressClear w) :
    SuppressClear (step env e w) :=
  stepClosed_everyStep keepsClear_stepClosed
    (fun env name w => keepsClear_startWatchingChannel env name false w)
    keepsClear_stopWatching keepsClear_openMediaFile env e w hw

theorem fallbacksTaken_call_log (t log : List Effect) (e : Effect)
    (he : fallbacksTaken [e] = 0) (hlog : ∀ e ∈ log, e.isRecovery = false) :
    fallbacksTaken (t ++ e :: log) = fallbacksTaken t := by
  have h := fallbacksTaken_with_log (t := t ++ [e]) hlog
  simp only [List.append_assoc, List.singleton_append] at h
  rw [h, fallbacksTaken_append, he, Nat.add_zero]

/-- A step that leaves the counter, the two flags, the timer starts and the number of
escalations as they are. -/
theorem spends_of_same {w v : MainWindow}
    (hc : v.reconnectAttemptCount_ = w.reconnectAttemptCount_)
    (h1 : v.useResilientBridgeMode_ = w.useResilientBridgeMode_)
    (h2 : v.resilientBridgeTried_ = w.resilientBridgeTried_)
    (ht : timerStarts v.trace = timerStarts w.trace)
    (hf : fallbacksTaken v.trace = fallbacksTaken w.trace) : Spends w v := by
  refine ⟨?_, ?_, hf.ge, ?_⟩
  · unfold CountInRange
    rw [hc]
    exact id
  · intro _
    unfold retryBudget
    rw [hc, h1, h2, ht]
  · intro h
    rw [hc] at h
    exact absurd h (lt_irrefl _)

theorem spends_same (w : MainWindow) : Spends w w :=
  spends_of_same rfl rfl rfl rfl rfl

theorem spends_next {a b c : MainWindow} (h1 : Spends a b) (h2 : Spends b c) :
    Spends a c := by
  refine ⟨fun h => h2.countInRange (h1.countInRange h), ?_,
    h1.fallbacksMono.trans h2.fallbacksMono, ?_⟩
  · intro h
    exact (h2.budget (h1.countInRange h)).trans (h1.budget h)
  · intro h
    by_cases hb : b.reconnectAttemptCount_ < a.reconnectAttemptCount_
    · exact lt_of_lt_of_le (h1.reset hb) h2.fallbacksMono
    · have hcb : c.reconnectAttemptCount_ < b.reconnectAttemptCount_ := by omega
      exact lt_of_le_of_lt h1.fallbacksMono (h2.reset hcb)

theorem quiet_spends {w v : MainWindow} (h : Quiet w v) : Spends w v :=
  spends_of_same h.fields.2.2.1 h.fields.2.2.2.2.1 h.fields.2.2.2.2.2.1
    h.observations.2.2.1 h.observations.2.2.2

theorem spends_scheduleReconnect (reason : QString) (w : MainWindow) :
    Spends w (scheduleReconnect reason w) := by
  rw [scheduleReconnect_eq]
  by_cases h1 : w.currentChannelName_ = [] ∨ w.userStoppedWatching_ = true
  · rw [if_pos h1]
    exact spends_same w
  rw [if_neg h1]
  by_cases h2 : maxReconnectAttempts_ ≤ w.reconnectAttemptCount_
  · rw [if_pos h2]
    exact spends_of_same rfl rfl rfl (by simp [timerStarts]) (by simp [fallbacksTaken])
  rw [if_neg h2]
  refine ⟨?_, ?_, ?_, ?_⟩
  · intro hw
    unfold CountInRange at *
    dsimp only
    omega
  · intro _
    unfold retryBudget
    dsimp only
    simp only [timerStarts_append]
    simp [timerStarts]
    omega
  · simp [fallbacksTaken]
  · intro h
    dsimp only at h
    omega

theorem timerStarts_call_log (t log : List Effect) (e : Effect)
    (he : timerStarts [e] = []) (hlog : ∀ e ∈ log, e.isRecovery = false) :
    timerStarts (t ++ e :: log) = timerStarts t := by
  have h := timerStarts_with_log (t := t ++ [e]) hlog
  simp only [List.append_assoc, List.singleton_append] at h
  rw [h, timerStarts_append, he, List.append_nil]

theorem spends_startWatchingChannel (env : Env) (name : QString) (w : MainWindow) :
    Spends w (startWatchingChannel env name true w).2 := by
  obtain ⟨path, disk, log, hlog, h | ⟨-, -, h⟩ | ⟨-, -, pid, h⟩⟩ :=
    startWatchingChannel_summary env name true w
  · rw [h]
    exact spends_of_same rfl rfl rfl (timerStarts_call_log _ _ _ rfl hlog)
      (fallbacksTaken_call_log _ _ _ rfl hlog)
  · rw [h]
    refine spends_next ?_ (spends_scheduleReconnect _ _)
    exact spends_of_same rfl (by simp) (by simp) (timerStarts_call_log _ _ _ rfl hlog)
      (fallbacksTaken_call_log _ _ _ rfl hlog)
  · rw [h]
    exact spends_of_same rfl (by simp) (by simp) (timerStarts_call_log _ _ _ rfl hlog)
      (fallbacksTaken_call_log _ _ _ rfl hlog)

theorem spends_startPlaybackFromDvr (env : Env) (dvrPath : QString) (w : MainWindow) :
    Spends w (startPlaybackFromDvr env dvrPath w) := by
  obtain ⟨log, state, shots, hlog, h | ⟨-, reason, h⟩ | ⟨-, h⟩⟩ :=
    startPlaybackFromDvr_summary env dvrPath w
  · rw [h]
    exact spends_of_same rfl rfl rfl (by simp [timerStarts]) (by simp [fallbacksTaken])
  · rw [h]
    refine spends_next ?_ (spends_scheduleReconnect _ _)
    exact spends_of_same rfl rfl rfl (timerStarts_call_log _ _ _ rfl hlog)
      (fallbacksTaken_call_log _ _ _ rfl hlog)
  · rw [h]
    exact spends_of_same rfl rfl rfl (timerStarts_call_log _ _ _ rfl hlog)
      (fallbacksTaken_call_log _ _ _ rfl hlog)

theorem spends_tryDynamicBridgeFallback (env : Env) (reason : QString) (w : MainWindow) :
    Spends w (tryDynamicBridgeFallback env reason w).2 := by
  rw [tryDynamicBridgeFallback_eq]
  by_cases hc : w.currentChannelName_ ≠ [] ∧ w.userStoppedWatching_ = false ∧
      w.useResilientBridgeMode_ = false ∧ w.resilientBridgeTried_ = false
  · rw [if_pos hc]
    refine spends_next ?_ (spends_startWatchingChannel env _ _)
    refine ⟨?_, ?_, ?_, ?_⟩
    · intro _
      simp [CountInRange, maxReconnectAttempts_]
    · intro hw
      unfold CountInRange at hw
      unfold retryBudget
      dsimp only
      rw [hc.2.2.1, hc.2.2.2]
      simp only [timerStarts_append]
      simp [timerStarts]
      omega
    · simp [fallbacksTaken]
    · intro _
      simp [fallbacksTaken]
  · rw [if_neg hc]
    exact spends_same w

theorem spends_stepClosed : StepClosed Spends where
  same := spends_same
  next := fun _ _ _ h1 h2 => spends_next h1 h2
  ofQuiet := fun _ _ h => quiet_spends h
  ofTimerFired := fun _ => spends_of_same rfl rfl rfl rfl rfl
  ofSchedule := spends_scheduleReconnect
  ofReconnect := spends_startWatchingChannel
  ofPlayback := spends_startPlaybackFromDvr
  ofFallback := spends_tryDynamicBridgeFallback

theorem retryBudget_range (w : MainWindow) (hw : CountInRange w) :
    0 ≤ retryBudget w ∧ retryBudget w ≤ 12 := by
  unfold CountInRange at hw
  unfold retryBudget
  simp only [maxReconnectAttempts_] at *
  split_ifs <;> omega

/-- Without a command of the user the reconnect timer is started at most as often as
the retry budget allows. -/
theorem timerStarts_le_budget (w : MainWindow) (events : List (Env × Event))
    (hw : CountInRange w) (h : ∀ p ∈ events, p.2.isUserCommand = false) :
    ((timerStarts (run w events).trace).length : Int) ≤
      (timerStarts w.trace).length + retryBudget w := by
  have hs := stepClosed_automaticRun spends_stepClosed w events h
  have h1 := hs.budget hw
  have h2 := (retryBudget_range _ (hs.countInRange hw)).1
  omega

/-! ## The wait for the device (C21, C22) -/

theorem dvrPathFor_ne_nil (adapter : Nat) : dvrPathFor adapter ≠ [] := by
  unfold dvrPathFor
  intro h
  have := congrArg List.length h
  simp [qs] at this

theorem scheduleReconnect_waiting (reason : QString) (w : MainWindow) :
    (scheduleReconnect reason w).waitingForDvrReady_ = w.waitingForDvrReady_ ∧
    (scheduleReconnect reason w).pendingDvrPath_ = w.pendingDvrPath_ ∧
    (scheduleReconnect reason w).attachShots = w.attachShots ∧
    (scheduleReconnect reason w).playerSource = w.playerSource ∧
    (scheduleReconnect reason w).playerPlaying = w.playerPlaying ∧
    playbackCalls (scheduleReconnect reason w).trace = playbackCalls w.trace := by
  rw [scheduleReconnect_eq]
  split_ifs <;> simp [playbackCalls]

/-- Called with a path that is not empty, `startPlaybackFromDvr` ends the wait for the
device, and the call is on record with its path. -/
theorem startPlaybackFromDvr_ends_wait (env : Env) (dvrPath : QString) (w : MainWindow)
    (hn : dvrPath ≠ []) :
    (startPlaybackFromDvr env dvrPath w).waitingForDvrReady_ = false ∧
    (startPlaybackFromDvr env dvrPath w).pendingDvrPath_ = [] ∧
    playbackCalls (startPlaybackFromDvr env dvrPath w).trace =
      playbackCalls w.trace ++ [dvrPath] := by
  rw [startPlaybackFromDvr_eq, if_neg hn]
  by_cases hz : env.ffmpegExe = []
  · rw [if_pos hz]
    obtain ⟨h1, h2, -, -, -, h3⟩ := scheduleReconnect_waiting (qs "Missing ffmpeg for live stream")
      (appendLog (qs "player: ffmpeg not found in PATH for live DVB bridge.")
        (preparePlayback (record (.enterStartPlaybackFromDvr dvrPath) w)))
    rw [h1, h2, h3, preparePlayback_eq]
    simp [appendLog, record, playbackCalls]
  rw [if_neg hz]
  by_cases hs : env.bridgeStarted.ok = false
  · rw [if_pos hs]
    obtain ⟨h1, h2, -, -, -, h3⟩ := scheduleReconnect_waiting (qs "Could not start ffmpeg bridge")
      (appendLog (qs "player: Failed to start ffmpeg bridge for " ++ dvrPath)
        (startBridge env dvrPath
          (preparePlayback (record (.enterStartPlaybackFromDvr dvrPath) w))).2)
    rw [h1, h2, h3, preparePlayback_eq]
    simp [appendLog, record, playbackCalls, startBridge]
  rw [if_neg hs, preparePlayback_eq]
  simp [appendLog, record, playbackCalls, startBridge, scheduleAttach]

/-- C21: a `startWatchingChannel` that returned true left the session waiting for the
device with the expected path `/dev/dvb/adapter<A>/dvr0` pending and the 3.5 s timeout
armed with that path.  In every state in which the session still waits for that path
(no ready line was handled and nothing else changed the session), the timeout callback
logs the timeout and calls `startPlaybackFromDvr` with the expected path, after which
`waitingForDvrReady_` is false and `pendingDvrPath_` is empty; fired as the next
expiring timeout right after the watch it does exactly that.  In a state in which the
session no longer waits (a ready line was handled), the callback does nothing. -/
theorem dvrReadyTimeout_expected_path (env env' : Env) (name : QString) (r : Bool)
    (w : MainWindow) (hOk : (startWatchingChannel env name r w).1 = true) :
    (startWatchingChannel env name r w).2.waitingForDvrReady_ = true ∧
    (startWatchingChannel env name r w).2.pendingDvrPath_ = dvrPathFor w.adapterSpin_ ∧
    dvrPathFor w.adapterSpin_ = qs "/dev/dvb/adapter" ++ number w.adapterSpin_ ++ qs "/dvr0" ∧
    (startWatchingChannel env name r w).2.dvrReadyShots =
      w.dvrReadyShots ++ [dvrPathFor w.adapterSpin_] ∧
    (∀ u : MainWindow, u.waitingForDvrReady_ = true →
      u.pendingDvrPath_ = dvrPathFor w.adapterSpin_ →
      dvrReadyTimeout env' (dvrPathFor w.adapterSpin_) u =
        startPlaybackFromDvr env' (dvrPathFor w.adapterSpin_)
          (appendLog (qs "DVR ready signal timeout; attempting playback anyway.") u) ∧
      playbackCalls (dvrReadyTimeout env' (dvrPathFor w.adapterSpin_) u).trace =
        playbackCalls u.trace ++ [dvrPathFor w.adapterSpin_] ∧
      (dvrReadyTimeout env' (dvrPathFor w.adapterSpin_) u).waitingForDvrReady_ = false ∧
      (dvrReadyTimeout env' (dvrPathFor w.adapterSpin_) u).pendingDvrPath_ = []) ∧
    (w.dvrReadyShots = [] →
      step env' .dvrReadyShot (startWatchingChannel env name r w).2 =
        startPlaybackFromDvr env' (dvrPathFor w.adapterSpin_)
          (appendLog (qs "DVR ready signal timeout; attempting playback anyway.")
            { (startWatchingChannel env name r w).2 with dvrReadyShots := [] })) ∧
    (∀ (u : MainWindow) (dvrPath : QString), u.waitingForDvrReady_ = false →
      dvrReadyTimeout env' dvrPath u = u) := by
  have hcb : ∀ u : MainWindow, u.waitingForDvrReady_ = true →
      u.pendingDvrPath_ = dvrPathFor w.adapterSpin_ →
      dvrReadyTimeout env' (dvrPathFor w.adapterSpin_) u =
        startPlaybackFromDvr env' (dvrPathFor w.adapterSpin_)
          (appendLog (qs "DVR ready signal timeout; attempting playback anyway.") u) := by
    intro u h1 h2
    unfold dvrReadyTimeout
    rw [if_pos (by simp [h1, h2])]
  have hshape : (startWatchingChannel env name r w).2.waitingForDvrReady_ = true ∧
      (startWatchingChannel env name r w).2.pendingDvrPath_ = dvrPathFor w.adapterSpin_ ∧
      (startWatchingChannel env name r w).2.dvrReadyShots =
        w.dvrReadyShots ++ [dvrPathFor w.adapterSpin_] := by
    obtain ⟨path, disk, log, -, h | ⟨-, -, h⟩ | ⟨-, -, pid, h⟩⟩ :=
      startWatchingChannel_summary env name r w
    · rw [h] at hOk
      exact absurd hOk (by simp)
    · rw [h] at hOk
      exact absurd hOk (by simp)
    · rw [h]
      exact ⟨rfl, rfl, rfl⟩
  refine ⟨hshape.1, hshape.2.1, rfl, hshape.2.2, ?_, ?_, ?_⟩
  · intro u h1 h2
    have hp := startPlaybackFromDvr_ends_wait env' (dvrPathFor w.adapterSpin_)
      (appendLog (qs "DVR ready signal timeout; attempting playback anyway.") u)
      (dvrPathFor_ne_nil _)
    rw [hcb u h1 h2]
    refine ⟨rfl, ?_, hp.1, hp.2.1⟩
    rw [hp.2.2]
    simp [appendLog, record, playbackCalls]
  · intro hs
    simp only [step]
    rw [hshape.2.2, hs, List.nil_append]
    dsimp only
    exact hcb _ hshape.1 hshape.2.1
  · intro u dvrPath hu
    unfold dvrReadyTimeout
    rw [if_neg (by simp [hu])]

/-- Witness of C21: from the idle window the first quick favourite starts watching
KTVU on adapter 0; the timeout then plays `/dev/dvb/adapter0/dvr0`. -/
theorem dvrReadyTimeout_expected_path_witness :
    (startWatchingChannel envOk (qs "KTVU") false idleWindow).1 = true ∧
    (startWatchingChannel envOk (qs "KTVU") false idleWindow).2.pendingDvrPath_ =
      qs "/dev/dvb/adapter0/dvr0" ∧
    playbackCalls (step envOk .dvrReadyShot
      (startWatchingChannel envOk (qs "KTVU") false idleWindow).2).trace =
      [qs "/dev/dvb/adapter0/dvr0"] ∧
    (step envOk .dvrReadyShot
      (startWatchingChannel envOk (qs "KTVU") false idleWindow).2).waitingForDvrReady_ = false :=
  have h := dvrReadyTimeout_expected_path envOk envOk (qs "KTVU") false idleWindow (by decide)
  ⟨by decide, h.2.1.trans (by decide),
    by rw [h.2.2.2.2.2.1 (by decide)]; decide,
    by rw [h.2.2.2.2.2.1 (by decide)]; decide⟩

/-- C22: called with a path that is not empty on an active session that is not
user-stopped and whose attempt counter n is below the bound, `startPlaybackFromDvr`
schedules a reconnect when the bridge executable is not found or the bridge process
fails to start: the counter becomes n+1 and the reconnect timer is armed once, with
800 + (n+1)*900 ms; that call schedules no attach callback and leaves the source and
the playing state of the player as they were.  Called with an empty path it changes
nothing: its result is the state it was given, with only the call on record. -/
theorem startPlaybackFromDvr_bridge_failure (env : Env) (dvrPath : QString) (w : MainWindow)
    (n : Int) (hPath : dvrPath ≠ []) (hActive : w.currentChannelName_ ≠ [])
    (hNotStopped : w.userStoppedWatching_ = false) (hn : w.reconnectAttemptCount_ = n)
    (hlt : n < maxReconnectAttempts_)
    (hFail : env.ffmpegExe = [] ∨ env.bridgeStarted.ok = false) :
    (startPlaybackFromDvr env dvrPath w).reconnectAttemptCount_ = n + 1 ∧
    (startPlaybackFromDvr env dvrPath w).reconnectTimer_ = some (800 + (n + 1) * 900) ∧
    timerStarts (startPlaybackFromDvr env dvrPath w).trace =
      timerStarts w.trace ++ [800 + (n + 1) * 900] ∧
    (startPlaybackFromDvr env dvrPath w).attachShots = w.attachShots ∧
    (startPlaybackFromDvr env dvrPath w).playerSource = w.playerSource ∧
    (startPlaybackFromDvr env dvrPath w).playerPlaying = w.playerPlaying ∧
    startPlaybackFromDvr env [] w =
      { w with trace := w.trace ++ [.enterStartPlaybackFromDvr []] } := by
  have hsched : ∀ (reason : QString) (u : MainWindow),
      u.currentChannelName_ = w.currentChannelName_ →
      u.userStoppedWatching_ = w.userStoppedWatching_ →
      u.reconnectAttemptCount_ = w.reconnectAttemptCount_ →
      timerStarts u.trace = timerStarts w.trace →
      u.attachShots = w.attachShots → u.playerSource = w.playerSource →
      u.playerPlaying = w.playerPlaying →
      (scheduleReconnect reason u).reconnectAttemptCount_ = n + 1 ∧
      (scheduleReconnect reason u).reconnectTimer_ = some (800 + (n + 1) * 900) ∧
      timerStarts (scheduleReconnect reason u).trace =
        timerStarts w.trace ++ [800 + (n + 1) * 900] ∧
      (scheduleReconnect reason u).attachShots = w.attachShots ∧
      (scheduleReconnect reason u).playerSource = w.playerSource ∧
      (scheduleReconnect reason u).playerPlaying = w.playerPlaying := by
    intro reason u h1 h2 h3 h4 h5 h6 h7
    rw [scheduleReconnect_eq, if_neg (by rw [h1, h2]; simp [hActive, hNotStopped]),
      if_neg (by rw [h3, hn]; exact not_le.mpr hlt)]
    dsimp only
    rw [h3, hn, timerStarts_append, h4]
    exact ⟨rfl, rfl, by simp [timerStarts], h5, h6, h7⟩
  have hempty : startPlaybackFromDvr env [] w =
      { w with trace := w.trace ++ [.enterStartPlaybackFromDvr []] } := by
    rw [startPlaybackFromDvr_eq, if_pos rfl]
    rfl
  have hmain : (startPlaybackFromDvr env dvrPath w).reconnectAttemptCount_ = n + 1 ∧
      (startPlaybackFromDvr env dvrPath w).reconnectTimer_ = some (800 + (n + 1) * 900) ∧
      timerStarts (startPlaybackFromDvr env dvrPath w).trace =
        timerStarts w.trace ++ [800 + (n + 1) * 900] ∧
      (startPlaybackFromDvr env dvrPath w).attachShots = w.attachShots ∧
      (startPlaybackFromDvr env dvrPath w).playerSource = w.playerSource ∧
      (startPlaybackFromDvr env dvrPath w).playerPlaying = w.playerPlaying := by
    rw [startPlaybackFromDvr_eq, if_neg hPath]
    by_cases hz : env.ffmpegExe = []
    · rw [if_pos hz]
      apply hsched <;> rw [preparePlayback_eq] <;> simp [appendLog, record, timerStarts]
    · rw [if_neg hz, if_pos (hFail.resolve_left hz)]
      apply hsched <;> rw [preparePlayback_eq] <;>
        simp [appendLog, record, timerStarts, startBridge]
  exact ⟨hmain.1, hmain.2.1, hmain.2.2.1, hmain.2.2.2.1, hmain.2.2.2.2.1, hmain.2.2.2.2.2, hempty⟩

/-- Witness of C22: while KTVU is watched, the device becomes ready but ffmpeg is not
installed; the first reconnect is scheduled and nothing is attached. -/
theorem startPlaybackFromDvr_bridge_failure_witness :
    (startPlaybackFromDvr { envOk with ffmpegExe := [] } (qs "/dev/dvb/adapter0/dvr0")
      watchingWindow).reconnectAttemptCount_ = 1 ∧
    (startPlaybackFromDvr { envOk with ffmpegExe := [] } (qs "/dev/dvb/adapter0/dvr0")
      watchingWindow).reconnectTimer_ = some 1700 ∧
    (startPlaybackFromDvr { envOk with ffmpegExe := [] } (qs "/dev/dvb/adapter0/dvr0")
      watchingWindow).attachShots = [] :=
  have h := startPlaybackFromDvr_bridge_failure { envOk with ffmpegExe := [] }
    (qs "/dev/dvb/adapter0/dvr0") watchingWindow 0 (by decide) (by decide) (by decide)
    (by decide) (by decide) (Or.inl rfl)
  ⟨h.1, h.2.1, h.2.2.2.1.trans (by decide)⟩

/-! ## Deliberate teardown (C23) -/

/-- Counterexample to C24: KTVU is watched on adapter 0 with the first quick button,
which arms the first 3.5 s timeout; the watch is stopped and KQED is watched in its
place with the second quick button, which arms the second timeout, with the same
path; no playback has been started.  The first timeout then fires, finds the session
of KQED waiting for that same path, and calls `startPlaybackFromDvr`; the timeout of
KQED itself is still pending. -/
theorem stale_timeout_acts_on_later_watch :
    (step envOk (.triggerQuickFavorite 0) twoFavoritesWindow).dvrReadyShots =
      [qs "/dev/dvb/adapter0/dvr0"] ∧
    (run twoFavoritesWindow
      [(envOk, .triggerQuickFavorite 0), (envOk, .stopWatching)]).waitingForDvrReady_ = false ∧
    supersededWindow.currentChannelName_ = qs "KQED" ∧
    supersededWindow.dvrReadyShots =
      [qs "/dev/dvb/adapter0/dvr0", qs "/dev/dvb/adapter0/dvr0"] ∧
    playbackCalls supersededWindow.trace = [] ∧
    playbackCalls (step envOk .dvrReadyShot supersededWindow).trace =
      [qs "/dev/dvb/adapter0/dvr0"] ∧
    (step envOk .dvrReadyShot supersededWindow).dvrReadyShots = [qs "/dev/dvb/adapter0/dvr0"] ∧
    (step envOk .dvrReadyShot supersededWindow).streamBridgeProcess_ = .Running := by
  decide

/-- What the guard of the timeout callback does achieve (C24): the callback does
nothing when the session does not wait for the device or waits for another path than
the one the callback captured; so a stale timeout does nothing after `stopWatching`,
as long as no later watch waits for the same path. -/
theorem stale_timeout_guard (env : Env) (dvrPath : QString) (w : MainWindow)
    (h : w.waitingForDvrReady_ = false ∨ w.pendingDvrPath_ ≠ dvrPath) :
    dvrReadyTimeout env dvrPath w = w ∧
    dvrReadyTimeout env dvrPath (stopWatching w) = stopWatching w ∧
    playbackCalls (dvrReadyTimeout env dvrPath (stopWatching w)).trace =
      playbackCalls w.trace := by
  have hstop : dvrReadyTimeout env dvrPath (stopWatching w) = stopWatching w := by
    unfold dvrReadyTimeout
    rw [if_neg]
    rw [stopWatching_eq]
    simp
  refine ⟨?_, hstop, ?_⟩
  · unfold dvrReadyTimeout
    rw [if_neg]
    rcases h with h | h
    · simp [h]
    · simp [h]
  · rw [hstop]
    exact (stops_stopWatching w).playbackCalls

/-- Witness of the guard (C24): after KTVU was watched and stopped, its timeout
fires and does nothing. -/
theorem stale_timeout_guard_witness :
    dvrReadyTimeout envOk (qs "/dev/dvb/adapter0/dvr0") (stopWatching watchingWindow) =
      stopWatching watchingWindow :=
  (stale_timeout_guard envOk (qs "/dev/dvb/adapter0/dvr0") (stopWatching watchingWindow)
    (Or.inl (by decide))).1

/-! ## The two resilient flags (C25) -/

theorem refills_of_spends {w v : MainWindow} (h : Spends w v) : Refills w v := by
  intro hw
  refine ⟨h.countInRange hw, ?_⟩
  have h1 := h.budget hw
  have h2 := (retryBudget_range w hw).2
  simp only [maxReconnectAttempts_]
  omega

theorem refills_then_spends {w u v : MainWindow} (h1 : Refills w u) (h2 : Spends u v) :
    Refills w v := by
  intro hw
  obtain ⟨hu, hb⟩ := h1 hw
  exact ⟨h2.countInRange hu, (h2.budget hu).trans hb⟩

theorem quiet_then_refills {w u v : MainWindow} (h1 : Quiet w u) (h2 : Refills u v) :
    Refills w v := by
  intro hw
  obtain ⟨hv, hb⟩ := h2 ((quiet_spends h1).countInRange hw)
  rw [h1.observations.2.2.1] at hb
  exact ⟨hv, hb⟩

/-- A step that starts no timer and ends with the counter at zero and both flags
clear refills the budget. -/
theorem refills_of_reset {w v : MainWindow} (hc : v.reconnectAttemptCount_ = 0)
    (h1 : v.useResilientBridgeMode_ = false) (h2 : v.resilientBridgeTried_ = false)
    (ht : timerStarts v.trace = timerStarts w.trace) : Refills w v := by
  intro _
  refine ⟨by simp [CountInRange, hc, maxReconnectAttempts_], ?_⟩
  unfold retryBudget
  rw [hc, h1, h2, ht]
  simp [maxReconnectAttempts_]

theorem refills_stopWatching (w : MainWindow) : Refills w (stopWatching w) := by
  rw [stopWatching_eq]
  refine refills_of_reset rfl rfl rfl ?_
  dsimp only
  rw [timerStarts_append]
  split_ifs <;> simp [timerStarts]

theorem refills_openMediaFile (chosenPath : QString) (w : MainWindow) :
    Refills w (openMediaFile chosenPath w) := by
  rw [openMediaFile_eq]
  split_ifs
  · exact refills_of_spends (spends_same w)
  · refine refills_then_spends (refills_stopWatching w) ?_
    exact spends_of_same rfl rfl rfl (by simp [timerStarts]) (by simp [fallbacksTaken])

theorem refills_startWatchingChannel (env : Env) (name : QString) (w : MainWindow) :
    Refills w (startWatchingChannel env name false w).2 := by
  obtain ⟨path, disk, log, hlog, h | ⟨-, -, h⟩ | ⟨-, -, pid, h⟩⟩ :=
    startWatchingChannel_summary env name false w
  · rw [h]
    exact refills_of_spends (spends_of_same rfl rfl rfl (timerStarts_call_log _ _ _ rfl hlog)
      (fallbacksTaken_call_log _ _ _ rfl hlog))
  · rw [h]
    refine refills_then_spends ?_ (spends_scheduleReconnect _ _)
    exact refills_of_reset rfl rfl rfl (timerStarts_call_log _ _ _ rfl hlog)
  · rw [h]
    exact refills_of_reset rfl rfl rfl (timerStarts_call_log _ _ _ rfl hlog)

/-- Every step of the event loop, a command of the user or not, keeps the timer
starts and the budget within twice the bound. -/
theorem refills_step (env : Env) (e : Event) (w : MainWindow) : Refills w (step env e w) := by
  cases hu : e.isUserCommand
  · exact refills_of_spends (stepClosed_automatic spends_stepClosed env e w hu)
  · cases e <;> first | (simp [Event.isUserCommand] at hu; done) | simp only [step]
    case watchSelectedChannel row =>
      unfold watchSelectedChannel
      simp only
      split_ifs
      · exact refills_of_spends (quiet_spends (quiet_messageBox _ w))
      · exact refills_of_spends (quiet_spends (quiet_messageBox _ w))
      · exact refills_startWatchingChannel env _ w
    case watchFavoriteItem item =>
      cases item with
      | none => exact refills_of_spends (spends_same w)
      | some text => exact refills_startWatchingChannel env _ w
    case triggerQuickFavorite button =>
      unfold triggerQuickFavorite
      simp only
      split_ifs
      · exact refills_of_spends (spends_same w)
      · exact refills_of_spends (spends_same w)
      · exact refills_startWatchingChannel env _ w
    case stopWatching => exact refills_stopWatching w
    case openMediaFile chosenPath => exact refills_openMediaFile chosenPath w
    case startScan args =>
      rw [startScan_eq]
      split_ifs with h1 h2
      · exact refills_of_spends (spends_same w)
      · refine refills_then_spends (refills_stopWatching w) (quiet_spends
          ⟨rfl, _, by simp only [List.append_assoc]; rfl, ?_⟩)
        intro x hx
        simp at hx
        rcases hx with rfl | rfl | rfl | rfl <;> rfl
      · refine refills_then_spends (refills_stopWatching w) (quiet_spends
          ⟨rfl, _, by simp only [List.append_assoc]; rfl, ?_⟩)
        intro x hx
        simp at hx
        rcases hx with rfl | rfl | rfl <;> rfl
    case closeEvent code =>
      unfold closeEvent
      simp only
      have h1 : Refills w (stopWatching (appendLog
          (qs "Application closing: releasing tuner resources.") w)) :=
        quiet_then_refills (quiet_appendLog _ w) (refills_stopWatching _)
      split_ifs
      · refine refills_then_spends h1 (quiet_spends ?_)
        exact Quiet.andThen (b := { stopWatching (appendLog
          (qs "Application closing: releasing tuner resources.") w) with
            scanProcess_ := stopProcess (stopWatching (appendLog
              (qs "Application closing: releasing tuner resources.") w)).scanProcess_ })
          (quiet_of_same rfl rfl) (quiet_processFinished env code _)
      · exact h1

theorem scheduleReconnect_count (reason : QString) (w : MainWindow) :
    (scheduleReconnect reason w).reconnectAttemptCount_ = w.reconnectAttemptCount_ ∨
    (scheduleReconnect reason w).reconnectAttemptCount_ = w.reconnectAttemptCount_ + 1 := by
  rw [scheduleReconnect_eq]
  by_cases h1 : w.currentChannelName_ = [] ∨ w.userStoppedWatching_ = true
  · rw [if_pos h1]
    exact Or.inl rfl
  rw [if_neg h1]
  by_cases h2 : maxReconnectAttempts_ ≤ w.reconnectAttemptCount_
  · rw [if_pos h2]
    exact Or.inl rfl
  · rw [if_neg h2]
    exact Or.inr rfl

theorem startWatchingChannel_keeps_count (env : Env) (name : QString) (w : MainWindow)
    (hOk : (startWatchingChannel env name true w).1 = true) :
    (startWatchingChannel env name true w).2.reconnectAttemptCount_ =
      w.reconnectAttemptCount_ := by
  obtain ⟨path, disk, log, -, h | ⟨-, -, h⟩ | ⟨-, -, pid, h⟩⟩ :=
    startWatchingChannel_summary env name true w
  · rw [h] at hOk
    exact absurd hOk (by simp)
  · rw [h] at hOk
    exact absurd hOk (by simp)
  · rw [h]
    rfl

/-- C26: the reconnect timer is started at most 2 * `maxReconnectAttempts_` = 12 times
without a command of the user: over every event sequence without one, from a state
whose counter is in range; and also when the sequence is counted from any one event,
such as the command of the user itself.  The reason is that in such a sequence the
attempt counter is lowered only by taking the escalation, which is taken at most
once; in particular a reconnect attempt whose lock process starts leaves the counter
as it is, while `stopWatching` sets it to zero and a fresh watch sets it to zero or
leaves the session alone. -/
theorem reconnect_timer_starts_bounded :
    (∀ (w : MainWindow) (events : List (Env × Event)), CountInRange w →
      (∀ p ∈ events, p.2.isUserCommand = false) →
      (timerStarts (run w events).trace).length ≤ (timerStarts w.trace).length + 12) ∧
    (∀ (w : MainWindow) (first : Env × Event) (events : List (Env × Event)), CountInRange w →
      (∀ p ∈ events, p.2.isUserCommand = false) →
      (timerStarts (run w (first :: events)).trace).length ≤ (timerStarts w.trace).length + 12) ∧
    2 * maxReconnectAttempts_ = 12 ∧
    (∀ (w : MainWindow) (events : List (Env × Event)),
      (∀ p ∈ events, p.2.isUserCommand = false) →
      (fallbacksTaken (run w events).trace ≤ fallbacksTaken w.trace + 1) ∧
      ((run w events).reconnectAttemptCount_ < w.reconnectAttemptCount_ →
        fallbacksTaken w.trace < fallbacksTaken (run w events).trace)) ∧
    (∀ env name (w : MainWindow), (startWatchingChannel env name true w).1 = true →
      (startWatchingChannel env name true w).2.reconnectAttemptCount_ =
        w.reconnectAttemptCount_) ∧
    (∀ w : MainWindow, (stopWatching w).reconnectAttemptCount_ = 0) ∧
    (∀ env name (w : MainWindow),
      (startWatchingChannel env name false w).2.reconnectAttemptCount_ = 0 ∨
      (startWatchingChannel env name false w).2.reconnectAttemptCount_ = 1 ∨
      (startWatchingChannel env name false w).2.session = w.session) := by
  refine ⟨?_, ?_, rfl, ?_, startWatchingChannel_keeps_count, ?_, ?_⟩
  · intro w events hw h
    have h1 := timerStarts_le_budget w events hw h
    have h2 := (retryBudget_range w hw).2
    omega
  · intro w first events hw h
    obtain ⟨env, e⟩ := first
    simp only [run]
    obtain ⟨hv, hb⟩ := refills_step env e w hw
    have h1 := timerStarts_le_budget (step env e w) events hv h
    simp only [maxReconnectAttempts_] at hb
    omega
  · intro w events h
    exact ⟨(auto_run w events h).fallbacksLe,
      (stepClosed_automaticRun spends_stepClosed w events h).reset⟩
  · intro w
    rw [stopWatching_eq]
  · intro env name w
    obtain ⟨path, disk, log, -, h | ⟨-, -, h⟩ | ⟨-, -, pid, h⟩⟩ :=
      startWatchingChannel_summary env name false w
    · rw [h]
      exact Or.inr (Or.inr rfl)
    · rw [h]
      rcases scheduleReconnect_count (qs "Failed to start tuner process") _ with hc | hc
      · exact Or.inl hc
      · exact Or.inr (Or.inl hc)
    · rw [h]
      exact Or.inl rfl

set_option maxRecDepth 8000 in
/-- Witness of C26: while KTVU is watched, six exits of the lock process and seven
errors of the player start the reconnect timer twelve times, which is the bound. -/
theorem reconnect_timer_starts_bounded_witness :
    (timerStarts (run watchingWindow twelveTimerStarts).trace).length ≤
      (timerStarts watchingWindow.trace).length + 12 ∧
    (timerStarts watchingWindow.trace).length = 0 ∧
    (timerStarts (run watchingWindow twelveTimerStarts).trace).length = 12 :=
  ⟨reconnect_timer_starts_bounded.1 watchingWindow twelveTimerStarts
      (by unfold CountInRange; decide) (by simp [twelveTimerStarts, Event.isUserCommand]),
    by decide, by decide⟩

/-! ## A fresh watch whose lock process does not start (C27) -/

/-- C27: a fresh `startWatchingChannel` for Y that passes its preconditions (a name, a
channel list that can be written, the lock executable found) and whose lock process
fails to start returns false and leaves the channel name of the session as it was, X.
If X is not empty, the attempt counter is then 1 and the reconnect timer is armed once,
with 1700 ms; when it fires, `startWatchingChannel` is re-run as a reconnect attempt
for X, not for Y.  If X is empty, no timer is armed, and the counter is 0. -/
theorem fresh_watch_failed_start (env : Env) (channelName x : QString) (w : MainWindow)
    (hName : channelName ≠ []) (hList : (persistChannelsFile env w).1 = true)
    (hExe : env.zapExe ≠ []) (hFail : env.zapStarted.ok = false)
    (hx : w.currentChannelName_ = x) :
    (startWatchingChannel env channelName false w).1 = false ∧
    (startWatchingChannel env channelName false w).2.currentChannelName_ = x ∧
    (x ≠ [] →
      (startWatchingChannel env channelName false w).2.reconnectAttemptCount_ = 1 ∧
      (startWatchingChannel env channelName false w).2.reconnectTimer_ = some 1700 ∧
      timerStarts (startWatchingChannel env channelName false w).2.trace =
        timerStarts w.trace ++ [1700] ∧
      ∀ env',
        step env' .reconnectTimeout (startWatchingChannel env channelName false w).2 =
          (startWatchingChannel env' x true
            { (startWatchingChannel env channelName false w).2 with
              reconnectTimer_ := none }).2 ∧
        watchCalls (step env' .reconnectTimeout
            (startWatchingChannel env channelName false w).2).trace =
          watchCalls w.trace ++ [(channelName, false), (x, true)]) ∧
    (x = [] →
      (startWatchingChannel env channelName false w).2.reconnectAttemptCount_ = 0 ∧
      (startWatchingChannel env channelName false w).2.reconnectTimer_ = none ∧
      timerStarts (startWatchingChannel env channelName false w).2.trace =
        timerStarts w.trace) := by
  have hcalls := watchCalls_startWatchingChannel env channelName false w
  have hok : (persistChannelsFile env
      (record (.enterStartWatchingChannel channelName false) w)).1 =
      (persistChannelsFile env w).1 := persistChannelsFile_ok_congr env w _ rfl
  obtain ⟨path, disk, log, hw1, hlog⟩ := persistChannelsFile_frame env
    (record (.enterStartWatchingChannel channelName false) w)
  have h3 : timerStarts log = [] := (observations_of_no_recovery hlog).2.2.1
  have hshape : startWatchingChannel env channelName false w =
      (false, scheduleReconnect (qs "Failed to start tuner process")
        (appendLog (qs "Failed to start dvbv5-zap for " ++ channelName)
          (startZap env channelName (prepareWatch false
            { record (.enterStartWatchingChannel channelName false) w with
              channelsFilePath_ := path, disk := disk,
              trace := (record (.enterStartWatchingChannel channelName false) w).trace
                ++ log })).2)) := by
    rw [startWatchingChannel_eq, if_neg hName, hok, hw1, if_neg (by simp [hList]), if_neg hExe,
      if_pos hFail]
  rw [hshape] at hcalls ⊢
  refine ⟨rfl, ?_, ?_, ?_⟩
  · dsimp only
    rw [scheduleReconnect_eq]
    split_ifs <;> simp [prepareWatch_eq, startZap_eq, appendLog, record, hx]
  · intro hne
    have hv : scheduleReconnect (qs "Failed to start tuner process")
        (appendLog (qs "Failed to start dvbv5-zap for " ++ channelName)
          (startZap env channelName (prepareWatch false
            { record (.enterStartWatchingChannel channelName false) w with
              channelsFilePath_ := path, disk := disk,
              trace := (record (.enterStartWatchingChannel channelName false) w).trace
                ++ log })).2) =
        { (appendLog (qs "Failed to start dvbv5-zap for " ++ channelName)
          (startZap env channelName (prepareWatch false
            { record (.enterStartWatchingChannel channelName false) w with
              channelsFilePath_ := path, disk := disk,
              trace := (record (.enterStartWatchingChannel channelName false) w).trace
                ++ log })).2) with
          reconnectAttemptCount_ := 1
          reconnectTimer_ := some 1700
          trace := (appendLog (qs "Failed to start dvbv5-zap for " ++ channelName)
            (startZap env channelName (prepareWatch false
              { record (.enterStartWatchingChannel channelName false) w with
                channelsFilePath_ := path, disk := disk,
                trace := (record (.enterStartWatchingChannel channelName false) w).trace
                  ++ log })).2).trace ++
            [.appendLog (qs "Reconnect attempt " ++ number 1
                ++ qs "/" ++ number maxReconnectAttempts_ ++ qs " in "
                ++ number 1700 ++ qs " ms ("
                ++ qs "Failed to start tuner process" ++ qs ")"),
             .statusMessage (qs "Reconnecting to " ++ x ++ qs "..."),
             .reconnectTimerStart 1700] } := by
      rw [scheduleReconnect_eq, if_neg, if_neg]
      · simp [prepareWatch_eq, startZap_eq, appendLog, record, hx]
      · simp [prepareWatch_eq, startZap_eq, appendLog, record, maxReconnectAttempts_]
      · simp [prepareWatch_eq, startZap_eq, appendLog, record, hx, hne]
    rw [hv] at hcalls ⊢
    refine ⟨rfl, rfl, ?_, ?_⟩
    · simp only [prepareWatch_eq, startZap_eq, appendLog, record, timerStarts_append, h3]
      simp [timerStarts]
    · intro env'
      have hstep : step env' .reconnectTimeout
          { (appendLog (qs "Failed to start dvbv5-zap for " ++ channelName)
            (startZap env channelName (prepareWatch false
              { record (.enterStartWatchingChannel channelName false) w with
                channelsFilePath_ := path, disk := disk,
                trace := (record (.enterStartWatchingChannel channelName false) w).trace
                  ++ log })).2) with
            reconnectAttemptCount_ := 1
            reconnectTimer_ := some 1700
            trace := (appendLog (qs "Failed to start dvbv5-zap for " ++ channelName)
              (startZap env channelName (prepareWatch false
                { record (.enterStartWatchingChannel channelName false) w with
                  channelsFilePath_ := path, disk := disk,
                  trace := (record (.enterStartWatchingChannel channelName false) w).trace
                    ++ log })).2).trace ++
              [.appendLog (qs "Reconnect attempt " ++ number 1
                  ++ qs "/" ++ number maxReconnectAttempts_ ++ qs " in "
                  ++ number 1700 ++ qs " ms ("
                  ++ qs "Failed to start tuner process" ++ qs ")"),
               .statusMessage (qs "Reconnecting to " ++ x ++ qs "..."),
               .reconnectTimerStart 1700] } =
          (startWatchingChannel env' x true
            { (appendLog (qs "Failed to start dvbv5-zap for " ++ channelName)
              (startZap env channelName (prepareWatch false
                { record (.enterStartWatchingChannel channelName false) w with
                  channelsFilePath_ := path, disk := disk,
                  trace := (record (.enterStartWatchingChannel channelName false) w).trace
                    ++ log })).2) with
              reconnectAttemptCount_ := 1
              reconnectTimer_ := none
              trace := (appendLog (qs "Failed to start dvbv5-zap for " ++ channelName)
                (startZap env channelName (prepareWatch false
                  { record (.enterStartWatchingChannel channelName false) w with
                    channelsFilePath_ := path, disk := disk,
                    trace := (record (.enterStartWatchingChannel channelName false) w).trace
                      ++ log })).2).trace ++
                [.appendLog (qs "Reconnect attempt " ++ number 1
                    ++ qs "/" ++ number maxReconnectAttempts_ ++ qs " in "
                    ++ number 1700 ++ qs " ms ("
                    ++ qs "Failed to start tuner process" ++ qs ")"),
                 .statusMessage (qs "Reconnecting to " ++ x ++ qs "..."),
                 .reconnectTimerStart 1700] }).2 := by
        simp only [step, triggerReconnect]
        rw [if_neg]
        · simp [prepareWatch_eq, startZap_eq, appendLog, record, hx]
        · simp [prepareWatch_eq, startZap_eq, appendLog, record, hx, hne]
      refine ⟨hstep, ?_⟩
      rw [hstep, watchCalls_startWatchingChannel]
      dsimp only at hcalls ⊢
      rw [hcalls]
      simp
  · intro he
    have hv : scheduleReconnect (qs "Failed to start tuner process")
        (appendLog (qs "Failed to start dvbv5-zap for " ++ channelName)
          (startZap env channelName (prepareWatch false
            { record (.enterStartWatchingChannel channelName false) w with
              channelsFilePath_ := path, disk := disk,
              trace := (record (.enterStartWatchingChannel channelName false) w).trace
                ++ log })).2) =
        appendLog (qs "Failed to start dvbv5-zap for " ++ channelName)
          (startZap env channelName (prepareWatch false
            { record (.enterStartWatchingChannel channelName false) w with
              channelsFilePath_ := path, disk := disk,
              trace := (record (.enterStartWatchingChannel channelName false) w).trace
                ++ log })).2 := by
      rw [scheduleReconnect_eq, if_pos]
      left
      simp [prepareWatch_eq, startZap_eq, appendLog, record, hx, he]
    rw [hv]
    refine ⟨?_, ?_, ?_⟩
    · simp [prepareWatch_eq, startZap_eq, appendLog, record]
    · simp [prepareWatch_eq, startZap_eq, appendLog, record]
    · simp only [prepareWatch_eq, startZap_eq, appendLog, record, timerStarts_append, h3]
      simp [timerStarts]

/-- Witness of C27: while KTVU is watched, a fresh watch of KQED finds that the lock
process cannot be started; the session keeps KTVU, and the reconnect that follows
after 1700 ms watches KTVU. -/
theorem fresh_watch_failed_start_witness :
    (startWatchingChannel envZapFails (qs "KQED") false watchingWindow).1 = false ∧
    (startWatchingChannel envZapFails (qs "KQED") false watchingWindow).2.currentChannelName_ =
      qs "KTVU" ∧
    (startWatchingChannel envZapFails (qs "KQED") false watchingWindow).2.reconnectTimer_ =
      some 1700 ∧
    watchCalls (step envOk .reconnectTimeout
        (startWatchingChannel envZapFails (qs "KQED") false watchingWindow).2).trace =
      watchCalls watchingWindow.trace ++ [(qs "KQED", false), (qs "KTVU", true)] :=
  have h := fresh_watch_failed_start envZapFails (qs "KQED") (qs "KTVU") watchingWindow
    (by decide) (by decide) (by decide) (by decide) (by decide)
  have h2 := h.2.2.1 (by decide)
  ⟨h.1, h.2.1, h2.2.1, (h2.2.2.2 envOk).2⟩

/-! ## Chunks of the scan output (C28) -/

theorem split_append (sep : Char) (a b : QString) :
    split sep (a ++ b) =
      (split sep a).dropLast ++ split sep ((split sep a).getLast?.getD [] ++ b) := by
  unfold split List.splitOn
  induction a with
  | nil => simp
  | cons c a ih =>
    have hne := List.splitOnP_ne_nil (fun x => x == sep) a
    rw [List.cons_append, List.splitOnP_cons, List.splitOnP_cons]
    by_cases hc : (c == sep) = true
    · rw [if_pos hc, if_pos hc, ih]
      cases hsa : List.splitOnP (fun x => x == sep) a with
      | nil => exact absurd hsa hne
      | cons h t => simp
    · rw [if_neg hc, if_neg hc, ih]
      cases hsa : List.splitOnP (fun x => x == sep) a with
      | nil => exact absurd hsa hne
      | cons h t =>
        cases t with
        | nil =>
          simp only [List.modifyHead_cons, List.dropLast_single, List.nil_append,
            List.getLast?_singleton, Option.getD_some, List.cons_append]
          rw [List.splitOnP_cons, if_neg hc]
        | cons t1 ts =>
          simp only [List.modifyHead_cons, List.dropLast_cons₂, List.cons_append,
            List.getLast?_cons_cons]

theorem handleStdOutLine_buffer (w : MainWindow) (p line : QString) :
    handleStdOutLine { w with partialStdOut_ := p } line =
      { handleStdOutLine w line with partialStdOut_ := p } := by
  unfold handleStdOutLine
  simp only [parseAndStoreLine_eq, appendLog, record]
  split_ifs <;> rfl

theorem foldl_handleStdOutLine_buffer (lines : List QString) (w : MainWindow) (p : QString) :
    lines.foldl handleStdOutLine { w with partialStdOut_ := p } =
      { lines.foldl handleStdOutLine w with partialStdOut_ := p } := by
  induction lines generalizing w with
  | nil => rfl
  | cons l rest ih =>
    simp only [List.foldl_cons]
    rw [handleStdOutLine_buffer, ih]

theorem appendStdOut_eq (chunk : QString) (w : MainWindow) :
    appendStdOut chunk w =
      { (split '\n' (w.partialStdOut_ ++ chunk)).dropLast.foldl handleStdOutLine w with
        partialStdOut_ := (split '\n' (w.partialStdOut_ ++ chunk)).getLast?.getD [] } := by
  unfold appendStdOut
  exact foldl_handleStdOutLine_buffer _ w _

/-- Two texts appended one after the other are handled as the two in one. -/
theorem appendStdOut_append (c1 c2 : QString) (w : MainWindow) :
    appendStdOut c2 (appendStdOut c1 w) = appendStdOut (c1 ++ c2) w := by
  have hne := split_ne_nil '\n'
    ((split '\n' (w.partialStdOut_ ++ c1)).getLast?.getD [] ++ c2)
  rw [appendStdOut_eq c1 w, appendStdOut_eq c2, appendStdOut_eq (c1 ++ c2) w]
  dsimp only
  rw [← List.append_assoc, split_append '\n' (w.partialStdOut_ ++ c1) c2,
    foldl_handleStdOutLine_buffer, List.dropLast_append_of_ne_nil _ hne, List.foldl_append,
    List.getLast?_append_of_ne_nil _ hne]

theorem appendStdOut_nil (w : MainWindow) (hw : '\n' ∉ w.partialStdOut_) :
    appendStdOut [] w = w := by
  have hs : split '\n' w.partialStdOut_ = [w.partialStdOut_] := by
    have h := split_intercalate '\n' [w.partialStdOut_] (by simpa using hw) (by simp)
    have hi : ['\n'].intercalate [w.partialStdOut_] = w.partialStdOut_ := by
      simp [List.intercalate]
    rw [hi] at h
    exact h
  rw [appendStdOut_eq, List.append_nil, hs]
  rfl

theorem appendStdOut_buffer_no_newline (chunk : QString) (w : MainWindow) :
    '\n' ∉ (appendStdOut chunk w).partialStdOut_ := by
  rw [appendStdOut_eq]
  dsimp only
  cases hl : (split '\n' (w.partialStdOut_ ++ chunk)).getLast? with
  | none => simp
  | some l => exact sep_not_mem_split '\n' _ l (List.mem_of_getLast?_eq_some hl)

/-- Texts appended one by one are handled as their concatenation in one. -/
theorem feedChunks_eq (chunks : List QString) (w : MainWindow)
    (hw : '\n' ∉ w.partialStdOut_) :
    feedChunks chunks w = appendStdOut chunks.flatten w := by
  unfold feedChunks
  induction chunks generalizing w with
  | nil =>
    rw [List.flatten_nil, appendStdOut_nil w hw]
    rfl
  | cons c rest ih =>
    simp only [List.foldl_cons, List.flatten_cons]
    rw [ih _ (appendStdOut_buffer_no_newline c w), appendStdOut_append]

theorem foldl_handleStdOutLine (lines : List QString) (w : MainWindow) :
    lines.foldl handleStdOutLine w =
      ((lines.map trimmed).filter (fun line => !line.isEmpty)).foldl storeScanLine w := by
  induction lines generalizing w with
  | nil => rfl
  | cons l rest ih =>
    simp only [List.foldl_cons, List.map_cons]
    rw [ih]
    unfold handleStdOutLine
    by_cases h : (trimmed l).isEmpty = true
    · simp [h, List.filter_cons]
    · simp [h, List.filter_cons, storeScanLine]

theorem scanSegments_eq (s : QString) :
    scanSegments s =
      (((split '\n' s).dropLast.map trimmed).filter (fun line => !line.isEmpty)) ++
        (if trimmed ((split '\n' s).getLast?.getD []) = [] then []
          else [trimmed ((split '\n' s).getLast?.getD [])]) := by
  unfold scanSegments
  have hne := split_ne_nil '\n' s
  have h : split '\n' s = (split '\n' s).dropLast ++ [(split '\n' s).getLast?.getD []] := by
    rw [List.getLast?_eq_getLast _ hne]
    exact (List.dropLast_append_getLast hne).symm
  conv_lhs => rw [h]
  rw [List.map_append, List.filter_append]
  congr 1
  by_cases ht : trimmed ((split '\n' s).getLast?.getD []) = []
  · simp [ht]
  · simp [ht]

theorem storeScanLine_fields (w : MainWindow) (line : QString) :
    (storeScanLine w line).partialStdOut_ = w.partialStdOut_ ∧
    (storeScanLine w line).partialStdErr_ = w.partialStdErr_ ∧
    (storeScanLine w line).trace = w.trace ++ [.appendLog line] := by
  unfold storeScanLine
  rw [parseAndStoreLine_eq]
  split_ifs <;> exact ⟨rfl, rfl, rfl⟩

theorem foldl_storeScanLine_fields (lines : List QString) (w : MainWindow) :
    (lines.foldl storeScanLine w).partialStdOut_ = w.partialStdOut_ ∧
    (lines.foldl storeScanLine w).partialStdErr_ = w.partialStdErr_ ∧
    (lines.foldl storeScanLine w).trace = w.trace ++ lines.map Effect.appendLog := by
  induction lines generalizing w with
  | nil => simp
  | cons l rest ih =>
    simp only [List.foldl_cons, List.map_cons]
    obtain ⟨h1, h2, h3⟩ := ih (storeScanLine w l)
    obtain ⟨k1, k2, k3⟩ := storeScanLine_fields w l
    rw [h1, h2, h3, k1, k2, k3]
    simp

/-- The first block of `processFinished` is all that reads the unfinished line of the
scan output: a state in which that block has been run, and whose unfinished line is
blank, gives the same result. -/
theorem processFinished_flush (env : Env) (exitCode : Int) (w u : MainWindow)
    (h : (if (trimmed w.partialStdOut_).isEmpty = false then
        { storeScanLine w (trimmed w.partialStdOut_) with partialStdOut_ := [] }
      else w) = u)
    (hu : (trimmed u.partialStdOut_).isEmpty = true) :
    processFinished env exitCode w = processFinished env exitCode u := by
  have hb : (if !(trimmed u.partialStdOut_).isEmpty then
        let line := trimmed u.partialStdOut_
        let u := appendLog line u
        let u := parseAndStoreLine line u
        { u with partialStdOut_ := [] }
      else u) = u := by
    rw [if_neg (by simp [hu])]
  have key : (if !(trimmed w.partialStdOut_).isEmpty then
        let line := trimmed w.partialStdOut_
        let w := appendLog line w
        let w := parseAndStoreLine line w
        { w with partialStdOut_ := [] }
      else w) =
      (if !(trimmed u.partialStdOut_).isEmpty then
        let line := trimmed u.partialStdOut_
        let u := appendLog line u
        let u := parseAndStoreLine line u
        { u with partialStdOut_ := [] }
      else u) := by
    rw [hb, ← h]
    by_cases hw : (trimmed w.partialStdOut_).isEmpty = true
    · rw [if_neg (by simp [hw]), if_neg (by simp [hw])]
    · rw [if_pos (by simpa using hw), if_pos (by simpa using hw)]
      rfl
  unfold processFinished
  rw [key]

theorem processFinished_blank (env : Env) (exitCode : Int) (u : MainWindow)
    (hu : (trimmed u.partialStdOut_).isEmpty = true) :
    (processFinished env exitCode u).channelLines_ = u.channelLines_ ∧
    (processFinished env exitCode u).channelsTable_ = u.channelsTable_ ∧
    (processFinished env exitCode u).partialStdOut_ = u.partialStdOut_ := by
  have hb : (if !(trimmed u.partialStdOut_).isEmpty then
        let line := trimmed u.partialStdOut_
        let u := appendLog line u
        let u := parseAndStoreLine line u
        { u with partialStdOut_ := [] }
      else u) = u := by
    rw [if_neg (by simp [hu])]
  have h2 : ∀ v : MainWindow, ∃ err log,
      (if !(trimmed v.partialStdErr_).isEmpty then
        let v := appendLog (qs "stderr: " ++ trimmed v.partialStdErr_) v
        { v with partialStdErr_ := [] }
      else v) = { v with partialStdErr_ := err, trace := v.trace ++ log } := by
    intro v
    by_cases he : (trimmed v.partialStdErr_).isEmpty = true
    · rw [if_neg (by simp [he])]
      exact ⟨v.partialStdErr_, [], by simp⟩
    · rw [if_pos (by simpa using he)]
      exact ⟨[], [.appendLog (qs "stderr: " ++ trimmed v.partialStdErr_)], rfl⟩
  obtain ⟨err, log, h2u⟩ := h2 u
  obtain ⟨path, disk, log2, h3, -⟩ := persistChannelsFile_frame env
    { u with partialStdErr_ := err, trace := u.trace ++ log }
  unfold processFinished
  rw [hb]
  simp only []
  rw [h2u, h3]
  exact ⟨rfl, rfl, rfl⟩

theorem storeScanLine_buffer (w : MainWindow) (p line : QString) :
    storeScanLine { w with partialStdOut_ := p } line =
      { storeScanLine w line with partialStdOut_ := p } := by
  unfold storeScanLine
  simp only [parseAndStoreLine_eq, appendLog, record]
  split_ifs <;> rfl

/-- The state after a whole text has been appended at once, to an empty buffer: every complete segment that is not blank has been stored, in order, and
the last segment is the unfinished line. -/
theorem appendStdOut_whole (s : QString) (w : MainWindow) (hw : w.partialStdOut_ = []) :
    appendStdOut s w =
      { (((split '\n' s).dropLast.map trimmed).filter (fun line => !line.isEmpty)).foldl
          storeScanLine w with
        partialStdOut_ := (split '\n' s).getLast?.getD [] } := by
  rw [appendStdOut_eq, hw, List.nil_append, foldl_handleStdOutLine]

/-- The first block of `processFinished` on that state: the last segment is stored
too if it is not blank, so that all segments have been stored. -/
theorem flush_appendStdOut_whole (s : QString) (w : MainWindow) (hw : w.partialStdOut_ = []) :
    (if (trimmed (appendStdOut s w).partialStdOut_).isEmpty = false then
        { storeScanLine (appendStdOut s w) (trimmed (appendStdOut s w).partialStdOut_) with
          partialStdOut_ := [] }
      else appendStdOut s w) =
      { (scanSegments s).foldl storeScanLine w with
        partialStdOut_ :=
          if trimmed ((split '\n' s).getLast?.getD []) = [] then (split '\n' s).getLast?.getD []
          else [] } := by
  rw [appendStdOut_whole s w hw, scanSegments_eq]
  dsimp only
  by_cases ht : trimmed ((split '\n' s).getLast?.getD []) = []
  · rw [if_neg (by simp [ht]), if_pos ht, if_pos ht, List.append_nil]
  · rw [if_pos (by simpa using ht), if_neg ht, if_neg ht, List.foldl_append, storeScanLine_buffer]
    rfl

theorem fromUtf8Loop_ascii (bytes : List Nat) (h : ∀ b ∈ bytes, b < 0x80) :
    fromUtf8Loop 0 bytes = bytes.map Char.ofNat := by
  induction bytes with
  | nil => rfl
  | cons b rest ih =>
    have hb : b < 0x80 := h b (by simp)
    have hd : decodeUtf8Char b rest = some (Char.ofNat b, 0) := by
      unfold decodeUtf8Char
      rw [if_pos hb]
    rw [fromUtf8Loop, hd]
    dsimp only
    rw [ih (fun x hx => h x (by simp [hx]))]
    rfl

/-- Reads of ASCII bytes decode, one by one, to the parts of the decoding of the
whole. -/
theorem fromUtf8_ascii_reads (reads : List (List Nat)) (h : ∀ r ∈ reads, ∀ b ∈ r, b < 0x80) :
    (reads.map fromUtf8).flatten = fromUtf8 reads.flatten := by
  have h1 : ∀ r ∈ reads, fromUtf8 r = r.map Char.ofNat :=
    fun r hr => fromUtf8Loop_ascii r (h r hr)
  have h2 : fromUtf8 reads.flatten = reads.flatten.map Char.ofNat := by
    apply fromUtf8Loop_ascii
    intro b hb
    obtain ⟨r, hr, hbr⟩ := List.mem_flatten.mp hb
    exact h r hr b hbr
  rw [h2, List.map_flatten, List.map_congr_left h1]

/-- The event of a read of the scan output, given by the text decoded from the bytes
read, is `handleStdOut` on those bytes. -/
theorem step_scanStdOut_read (env : Env) (read : List Nat) (w : MainWindow) :
    step env (.scanStdOut (fromUtf8 read)) w =
      if w.scanProcess_ ≠ .NotRunning then handleStdOut read w else w := rfl

/-- Reads handled one by one are the decoded texts appended one by one. -/
theorem feedReads_eq (reads : List (List Nat)) (w : MainWindow) :
    feedReads reads w = feedChunks (reads.map fromUtf8) w := by
  unfold feedReads feedChunks handleStdOut
  rw [List.foldl_map]

/-- Counterexample to C28: the bytes of the line `Zoé:5:8VSB` and its newline, handled
in one read, store that line; handled in two reads that cut the two-byte character
`é`, each read decodes its half to the replacement character, and the line stored
differs; so does the catalog after `processFinished`. -/
theorem read_cut_inside_character :
    fromUtf8 cutInsideCharacter.flatten = qs "Zoé:5:8VSB\n" ∧
    (cutInsideCharacter.map fromUtf8).flatten =
      qs "Zo" ++ [replacementChar, replacementChar] ++ qs ":5:8VSB\n" ∧
    (handleStdOut cutInsideCharacter.flatten MainWindow.fresh).channelLines_ =
      [qs "Zoé:5:8VSB"] ∧
    (feedReads cutInsideCharacter MainWindow.fresh).channelLines_ =
      [qs "Zo" ++ [replacementChar, replacementChar] ++ qs ":5:8VSB"] ∧
    (processFinished envOk 0 (feedReads cutInsideCharacter MainWindow.fresh)).channelLines_ ≠
      (processFinished envOk 0
        (handleStdOut cutInsideCharacter.flatten MainWindow.fresh)).channelLines_ := by
  decide

/-- What holds of C28: the assembly of the lines does not depend on the reads as far
as the decoding does not.  For every list of reads whose decodings, put together, are
the decoding s of all the bytes, as is the case when every byte is ASCII, the reads
handled by `handleStdOut` one by one from an empty buffer give the state that all the
bytes in a single read give, and so the same result of `processFinished`.  That
result is the one `processFinished` gives on the state in which `appendLog(line);
parseAndStoreLine(line)` has been run for exactly the trimmed, non-empty,
newline-separated segments of s, in order, and in which the buffer is blank, so that
`processFinished` stores no further line; the log shows these segments in order, the
catalog and the table are those the segments give, and the buffer is left without
text that is not blank.  On decoded text the assembly depends on no cut at all. -/
theorem scan_output_chunking (env : Env) (exitCode : Int) (reads : List (List Nat))
    (s : QString) (w : MainWindow)
    (hDecode : (reads.map fromUtf8).flatten = fromUtf8 reads.flatten)
    (hs : fromUtf8 reads.flatten = s) (hw : w.partialStdOut_ = []) :
    feedReads reads w = handleStdOut reads.flatten w ∧
    processFinished env exitCode (feedReads reads w) =
      processFinished env exitCode (handleStdOut reads.flatten w) ∧
    processFinished env exitCode (feedReads reads w) =
      processFinished env exitCode
        { (scanSegments s).foldl storeScanLine w with
          partialStdOut_ :=
            if trimmed ((split '\n' s).getLast?.getD []) = [] then
              (split '\n' s).getLast?.getD []
            else [] } ∧
    ((scanSegments s).foldl storeScanLine w).trace =
      w.trace ++ (scanSegments s).map Effect.appendLog ∧
    (processFinished env exitCode (feedReads reads w)).channelLines_ =
      ((scanSegments s).foldl storeScanLine w).channelLines_ ∧
    (processFinished env exitCode (feedReads reads w)).channelsTable_ =
      ((scanSegments s).foldl storeScanLine w).channelsTable_ ∧
    trimmed (processFinished env exitCode (feedReads reads w)).partialStdOut_ = [] ∧
    (∀ rs : List (List Nat), (∀ r ∈ rs, ∀ b ∈ r, b < 0x80) →
      (rs.map fromUtf8).flatten = fromUtf8 rs.flatten) ∧
    (∀ chunks : List QString, feedChunks chunks w = appendStdOut chunks.flatten w) := by
  have hfeed : feedReads reads w = handleStdOut reads.flatten w := by
    rw [feedReads_eq, feedChunks_eq _ w (by simp [hw]), hDecode]
    rfl
  have hwhole : handleStdOut reads.flatten w = appendStdOut s w := by
    unfold handleStdOut
    rw [hs]
  have hblank : (trimmed ({ (scanSegments s).foldl storeScanLine w with
      partialStdOut_ :=
        if trimmed ((split '\n' s).getLast?.getD []) = [] then (split '\n' s).getLast?.getD []
        else [] } : MainWindow).partialStdOut_).isEmpty = true := by
    dsimp only
    by_cases ht : trimmed ((split '\n' s).getLast?.getD []) = []
    · rw [if_pos ht, ht]
      rfl
    · rw [if_neg ht]
      rfl
  have hflush := processFinished_flush env exitCode (appendStdOut s w) _
    (flush_appendStdOut_whole s w hw) hblank
  have hkeep := processFinished_blank env exitCode _ hblank
  rw [hfeed, hwhole, hflush]
  refine ⟨rfl, rfl, rfl, (foldl_storeScanLine_fields _ w).2.2, hkeep.1, hkeep.2.1, ?_,
    fromUtf8_ascii_reads, fun chunks => feedChunks_eq chunks w (by simp [hw])⟩
  rw [hkeep.2.2]
  simpa using hblank

/-- Witness for C28: two channel lines and an unfinished third one, all ASCII, arrive
in three reads that cut through the lines; the state is the one all the bytes give in
one read, the segments are the three lines, and the buffer is empty after the scan. -/
theorem scan_output_chunking_witness :
    feedReads [(qs "KTVU:515000000:8VSB\nKQ").map Char.toNat,
        (qs "ED:569000000:").map Char.toNat, (qs "8VSB\n KRON:5:8VSB ").map Char.toNat]
        idleWindow =
      handleStdOut ((qs "KTVU:515000000:8VSB\nKQED:569000000:8VSB\n KRON:5:8VSB ").map
        Char.toNat) idleWindow ∧
    scanSegments (qs "KTVU:515000000:8VSB\nKQED:569000000:8VSB\n KRON:5:8VSB ") =
      [qs "KTVU:515000000:8VSB", qs "KQED:569000000:8VSB", qs "KRON:5:8VSB"] ∧
    (processFinished envOk 0 (feedReads [(qs "KTVU:515000000:8VSB\nKQ").map Char.toNat,
        (qs "ED:569000000:").map Char.toNat, (qs "8VSB\n KRON:5:8VSB ").map Char.toNat]
        idleWindow)).partialStdOut_ = [] :=
  have h := scan_output_chunking envOk 0
    [(qs "KTVU:515000000:8VSB\nKQ").map Char.toNat,
      (qs "ED:569000000:").map Char.toNat, (qs "8VSB\n KRON:5:8VSB ").map Char.toNat]
    (qs "KTVU:515000000:8VSB\nKQED:569000000:8VSB\n KRON:5:8VSB ") idleWindow
    (by decide) (by decide) (by decide)
  ⟨h.1.trans (by decide), by decide, by decide⟩

end TvTuner
